import Mathlib

/-!
rtidb tablet: Get / Scan / Traverse over a time-indexed iterator, snapshot file
transfer, the partition lifecycle, and the table meta (validation and the adding
of a column).

A shallow embedding of parts of `src/tablet/tablet_impl.cc`, of the class
`TabletsAccessor` of `src/catalog/client_manager.h` and of the function
`TransformTableDef` of `src/plan/planner.cc`.

Conventions of the embedding.

* `uint64_t` timestamps, offsets and block ids are natural numbers.  Where the
  source relies on 32 or 64 bit arithmetic (`++cnt` on a `uint32_t`, the
  narrowing of `expire_cnt` to the `uint32_t max_cnt` parameter, `time - 1`,
  `total_block_size +=`) the wrap-around is written out with `% 2 ^ w`.
* Pointer arguments are taken as valid references: every call site in the file
  passes the address of a live object, so the `== NULL` guards are not
  represented.
* Output parameters become components of the returned value.
* Logging (`PDLOG`) has no effect on the results and is left out.
* `std::map` and `std::set` locals are lists: an association list read with
  `List.lookup`, and a list without repetition.
* The file system is a parameter and a component of the result where a handler
  reads or writes it; whether a write succeeds is decided by a parameter.
-/

namespace rtidb

namespace base

/-- The response codes of `::rtidb::base::ReturnCode` used by the handlers
below, by name. -/
inductive ReturnCode where
  | kOk
  | kTableIsNotExist
  | kTableAlreadyExists
  | kTableIsLeader
  | kTableIsFollower
  | kTableIsLoading
  | kTableStatusIsNotKnormal
  | kTableStatusIsKmakingsnapshot
  | kTableStatusIsNotKsnapshotpaused
  | kSnapshotIsNotExist
  | kTsMustBeGreaterThanZero
  | kStLessThanEt
  | kIsFollowerCluster
  | kFailToGetDbRootPath
  | kFileReceiverInitFailed
  | kCannotFindReceiver
  | kBlockIdMismatch
  | kReceiveDataError
  | kWriteDataFailed
  | kTableDbPathIsNotExist
  | kReplicatorIsNotExist
  | kNoFollower
  | kKeyNotFound
  | kInvalidParameter
  | kReacheTheScanMaxBytesSize
  | kFailToUpdateTtlFromTablet
  deriving DecidableEq, Repr

end base

namespace common

/-- The enumeration `::rtidb::common::StorageMode`. -/
inductive StorageMode where
  | kMemory
  | kSSD
  | kHDD
  deriving DecidableEq, Repr

/-- The message `::rtidb::common::ColumnDesc`.  The optional fields `ttl`,
`abs_ttl` and `lat_ttl` are `none` when unset and read as `0` then. -/
structure ColumnDesc where
  name : String := ""
  type : String := ""
  add_ts_idx : Bool := false
  is_ts_col : Bool := false
  ttl : Option Nat := none
  abs_ttl : Option Nat := none
  lat_ttl : Option Nat := none
  deriving DecidableEq, Repr

/-- The message `::rtidb::common::ColumnKey`. -/
structure ColumnKey where
  index_name : String := ""
  col_name : List String := []
  ts_name : List String := []
  deriving DecidableEq, Repr

end common

namespace api

/-! Protocol enumerations -/

/-- The comparison mode of a start or end bound (`::rtidb::api::GetType`). -/
inductive GetType where
  | kSubKeyEq
  | kSubKeyLt
  | kSubKeyLe
  | kSubKeyGt
  | kSubKeyGe
  deriving DecidableEq, Repr

/-- The TTL flavour of a table (`::rtidb::api::TTLType`). -/
inductive TTLType where
  | kAbsoluteTime
  | kLatestTime
  | kAbsAndLat
  | kAbsOrLat
  deriving DecidableEq, Repr

/-- The message `TTLDesc`. -/
structure TTLDesc where
  ttl_type : TTLType := TTLType.kAbsoluteTime
  abs_ttl : Nat := 0
  lat_ttl : Nat := 0
  deriving DecidableEq, Repr

/-- The fields of the message `TableMeta` read by `CheckTableMeta` and
`UpdateTableMetaForAddField`.  `tid` and `pid` are `int32`; `ttl` and `ttl_desc`
are `none` when unset. -/
structure TableMeta where
  name : String := ""
  tid : Int := 0
  pid : Int := 0
  ttl : Option Nat := none
  ttl_type : TTLType := TTLType.kAbsoluteTime
  ttl_desc : Option TTLDesc := none
  column_desc : List common.ColumnDesc := []
  column_key : List common.ColumnKey := []
  added_column_desc : List common.ColumnDesc := []
  storage_mode : common.StorageMode := common.StorageMode.kMemory
  schema : String := ""
  deriving DecidableEq, Repr

/-- The message `UpdateTableMetaForAddFieldRequest`. -/
structure UpdateTableMetaForAddFieldRequest where
  tid : Nat
  column_desc : common.ColumnDesc
  schema : String
  deriving DecidableEq, Repr

/-- The fields of `GetRequest` read by `Get` and `GetIndex`. -/
structure GetRequest where
  tid : Nat
  pid : Nat
  ts : Nat
  type : GetType
  et : Nat
  et_type : GetType
  deriving DecidableEq, Repr

/-- The fields of `ScanRequest` read by `Scan` and `ScanIndex`.  The flag
`enable_remove_duplicated_record` stands for
`has_enable_remove_duplicated_record() && enable_remove_duplicated_record()`. -/
structure ScanRequest where
  tid : Nat
  pid : Nat
  limit : Nat
  atleast : Nat
  st : Nat
  st_type : GetType
  et : Nat
  et_type : GetType
  enable_remove_duplicated_record : Bool
  deriving DecidableEq, Repr

/-- The enumeration `::rtidb::api::TaskType`, the kinds used below. -/
inductive TaskType where
  | kMakeSnapshot
  | kPauseSnapshot
  | kRecoverSnapshot
  | kSendSnapshot
  | kLoadTable
  | kDropTable
  deriving DecidableEq, Repr

/-- The enumeration `::rtidb::api::TaskStatus`. -/
inductive TaskStatus where
  | kInited
  | kDoing
  | kDone
  | kFailed
  deriving DecidableEq, Repr

/-- The fields of `TaskInfo` read or written by the handlers. -/
structure TaskInfo where
  op_id : Nat
  task_type : TaskType
  status : TaskStatus
  deriving DecidableEq, Repr

/-- A response code: a member of `ReturnCode`, or a number written literally in
the handler (`set_code(-1)`). -/
inductive Code where
  | enum (c : base.ReturnCode)
  | raw (n : Int)
  deriving DecidableEq, Repr

/-- The message `GeneralResponse`: code and message. -/
structure GeneralResponse where
  code : Code
  msg : String
  deriving DecidableEq, Repr

/-- The message `GeneralRequest` as read by `MakeSnapshot`, `PauseSnapshot` and
`RecoverSnapshot`.  `task_info` is `some` when
`has_task_info() && task_info().IsInitialized()`; `offset` is `some` when
`has_offset()`. -/
structure GeneralRequest where
  tid : Nat
  pid : Nat
  task_info : Option TaskInfo
  offset : Option Nat
  deriving DecidableEq, Repr

/-- The message `SendDataRequest`; `storage_mode` and `dir_name` are `some` when the
optional field is present. -/
structure SendDataRequest where
  tid : Nat
  pid : Nat
  storage_mode : Option common.StorageMode
  file_name : String
  dir_name : Option String
  block_id : Nat
  block_size : Nat
  eof : Bool
  deriving DecidableEq, Repr

/-- The fields of `CountRequest` read by `Count` and `CountIndex`.
`enable_remove_duplicated_record` is `true` when the field is present and set. -/
structure CountRequest where
  tid : Nat
  pid : Nat
  st : Nat := 0
  st_type : GetType := GetType.kSubKeyEq
  et : Nat := 0
  et_type : GetType := GetType.kSubKeyEq
  enable_remove_duplicated_record : Bool := false
  deriving DecidableEq, Repr

/-- The fields of `TraverseRequest` read by `Traverse` before its state check. -/
structure TraverseRequest where
  tid : Nat
  pid : Nat
  /-- The field `limit`, a `uint32`; `0` when unset. -/
  limit : Nat := 0
  /-- The field `pk`, `none` when `has_pk()` is false. -/
  pk : Option String := none
  /-- The field `ts`, a `uint64`. -/
  ts : Nat := 0
  /-- The field `enable_remove_duplicated_record`, `none` when unset. -/
  enable_remove_duplicated_record : Option Bool := none
  deriving DecidableEq, Repr

/-- The fields of `PutRequest` read by `Put` before its state check. -/
structure PutRequest where
  tid : Nat
  pid : Nat
  time : Nat
  ts_dimensions_size : Nat
  deriving DecidableEq, Repr

/-- The fields of `DeleteRequest` read by `Delete` before its state check. -/
structure DeleteRequest where
  tid : Nat
  pid : Nat
  deriving DecidableEq, Repr

/-- The fields of `AppendEntriesRequest` read by `AppendEntries` before its
state check. -/
structure AppendEntriesRequest where
  tid : Nat
  pid : Nat
  deriving DecidableEq, Repr

end api

namespace storage

/-! The storage iterator -/

/-- One index entry: a timestamp and the stored value bytes. -/
structure Entry where
  ts : Nat
  value : String
  deriving DecidableEq, Repr

/-- Size in bytes of a stored value (`Slice::size`). -/
def Entry.size (e : Entry) : Nat := e.value.utf8ByteSize

/-- Modelled from the spec: `::rtidb::storage::TableIterator`, whose class is
not part of the sources at hand.  `entries` is the sequence the iterator walks,
in iteration order; `cur` is what is left of it from the current position on,
so the iterator is valid exactly when `cur` is non-empty. -/
structure TableIterator where
  entries : List Entry
  cur : List Entry
  deriving DecidableEq, Repr

namespace TableIterator

/-- A fresh iterator over `entries`, not yet positioned. -/
def mk0 (entries : List Entry) : TableIterator := ⟨entries, []⟩

def Valid (it : TableIterator) : Bool := !it.cur.isEmpty

def SeekToFirst (it : TableIterator) : TableIterator := { it with cur := it.entries }

/-- Modelled from the spec: `Seek(ts)` on the newest-first sequence moves to
the first entry whose timestamp is at most `ts`. -/
def Seek (it : TableIterator) (time : Nat) : TableIterator :=
  { it with cur := it.entries.dropWhile (fun e => decide (time < e.ts)) }

def Next (it : TableIterator) : TableIterator := { it with cur := it.cur.tail }

def GetKey (it : TableIterator) : Nat :=
  match it.cur with
  | [] => 0
  | e :: _ => e.ts

def GetValue (it : TableIterator) : String :=
  match it.cur with
  | [] => ""
  | e :: _ => e.value

end TableIterator

/-- One row met by a traverse iterator: the key of the index, the timestamp and
the stored value bytes. -/
structure TraverseRow where
  pk : String
  ts : Nat
  value : String
  deriving DecidableEq, Repr

/-- Modelled from the spec: the cross-key traverse iterator returned by
`Table::NewTraverseIterator`, whose class is not part of the sources at hand.
`entries` is the sequence of rows it walks over all keys, `cur` what is left of
it from the current position on, and `count` the number of steps taken
(`GetCount`). -/
structure TraverseIterator where
  entries : List TraverseRow
  cur : List TraverseRow
  count : Nat
  deriving DecidableEq, Repr

namespace TraverseIterator

/-- A fresh traverse iterator over `entries`, not yet positioned. -/
def mk0 (entries : List TraverseRow) : TraverseIterator := ⟨entries, [], 0⟩

def Valid (it : TraverseIterator) : Bool := !it.cur.isEmpty

def SeekToFirst (it : TraverseIterator) : TraverseIterator :=
  { it with cur := it.entries, count := 0 }

def Next (it : TraverseIterator) : TraverseIterator :=
  { it with cur := it.cur.tail, count := it.count + 1 }

def GetPK (it : TraverseIterator) : String :=
  match it.cur with
  | [] => ""
  | e :: _ => e.pk

def GetKey (it : TraverseIterator) : Nat :=
  match it.cur with
  | [] => 0
  | e :: _ => e.ts

def GetValue (it : TraverseIterator) : String :=
  match it.cur with
  | [] => ""
  | e :: _ => e.value

def GetCount (it : TraverseIterator) : Nat := it.count

end TraverseIterator

/-- The entries are ordered by timestamp, newest first. -/
def NewestFirst (entries : List Entry) : Prop :=
  entries.Pairwise (fun a b => b.ts ≤ a.ts)

instance (entries : List Entry) : Decidable (NewestFirst entries) := by
  unfold NewestFirst; infer_instance

/-- Modelled from the spec: `::rtidb::storage::TableStat`, the lifecycle state
of a partition; the enumeration is declared outside the sources at hand. -/
inductive TableStat where
  | kNormal
  | kLoading
  | kMakingSnapshot
  | kSnapshotPaused
  deriving DecidableEq, Repr

/-- Modelled from the spec: what the handlers below ask of a time-series
`Table`: its lifecycle state (`GetTableStat`, `SetTableStat`), its role
(`IsLeader`), its table meta (`GetTableMeta`, `SetTableMeta`) and its schema
bytes (`SetSchema`). -/
structure Table where
  stat : TableStat
  is_leader : Bool
  table_meta : api.TableMeta := {}
  schema : String := ""
  deriving DecidableEq, Repr

end storage

namespace tablet

open api storage base common

/-! The functions `TabletImpl::Seek` and `TabletImpl::SeekWithCount` -/

/-- The body of the `while` loop of `SeekWithCount`, on the entries left from
the current position: the result is the returned flag, the entries left at the
final position and the final `cnt`. -/
def SeekWithCountLoop (time : Nat) (type : GetType) (max_cnt : Nat) :
    List Entry → Nat → Bool × List Entry × Nat
  | [], cnt => (false, [], cnt)
  | e :: rest, cnt =>
    if cnt < max_cnt ∨ max_cnt = 0 then
      match type with
      | GetType.kSubKeyEq =>
        if e.ts ≤ time then (decide (e.ts = time), e :: rest, cnt)
        else SeekWithCountLoop time type max_cnt rest ((cnt + 1) % 2 ^ 32)
      | GetType.kSubKeyLe =>
        if e.ts ≤ time then (true, e :: rest, cnt)
        else SeekWithCountLoop time type max_cnt rest ((cnt + 1) % 2 ^ 32)
      | GetType.kSubKeyLt =>
        if e.ts < time then (true, e :: rest, cnt)
        else SeekWithCountLoop time type max_cnt rest ((cnt + 1) % 2 ^ 32)
      | GetType.kSubKeyGe => (decide (time ≤ e.ts), e :: rest, cnt)
      | GetType.kSubKeyGt => (decide (time < e.ts), e :: rest, cnt)
    else (false, e :: rest, cnt)

/-- The function `TabletImpl::SeekWithCount(it, time, type, max_cnt, cnt)`; `max_cnt` is a
`uint32_t` parameter, so callers passing a 64 bit count narrow it. -/
def SeekWithCount (it : TableIterator) (time : Nat) (type : GetType) (max_cnt : Nat)
    (cnt : Nat) : Bool × TableIterator × Nat :=
  let r := SeekWithCountLoop time type max_cnt it.SeekToFirst.cur cnt
  (r.1, { it with cur := r.2.1 }, r.2.2)

/-- In the words of the spec: the entry a seek with mode `Le`, `Lt` or `Eq` is
after, one with `ts <= time`, `ts < time` or `ts == time`. -/
def SeekTarget (type : GetType) (time : Nat) (e : Entry) : Prop :=
  match type with
  | GetType.kSubKeyEq => e.ts = time
  | GetType.kSubKeyLe => e.ts ≤ time
  | GetType.kSubKeyLt => e.ts < time
  | _ => False

instance (type : GetType) (time : Nat) (e : Entry) : Decidable (SeekTarget type time e) := by
  unfold SeekTarget; cases type <;> infer_instance

/-- The function `TabletImpl::Seek(it, time, type)`.  For `kSubKeyLt` the source seeks to
`time - 1` in `uint64_t`. -/
def Seek (it : TableIterator) (time : Nat) (type : GetType) : Bool × TableIterator :=
  match type with
  | GetType.kSubKeyEq =>
    let it1 := it.Seek time
    (it1.Valid && decide (it1.GetKey = time), it1)
  | GetType.kSubKeyLe =>
    let it1 := it.Seek time
    (it1.Valid, it1)
  | GetType.kSubKeyLt =>
    let it1 := it.Seek ((time + 2 ^ 64 - 1) % 2 ^ 64)
    (it1.Valid, it1)
  | GetType.kSubKeyGe =>
    let it1 := it.SeekToFirst
    (it1.Valid && decide (time ≤ it1.GetKey), it1)
  | GetType.kSubKeyGt =>
    let it1 := it.SeekToFirst
    (it1.Valid && decide (time < it1.GetKey), it1)

/-! The function `TabletImpl::GetIndex` -/

/-- The outcome of `GetIndex`: the returned code and, when the code is `0`,
the `(ts, value)` written through the output pointers. -/
structure GetIndexResult where
  code : Int
  out : Option (Nat × String)
  deriving DecidableEq, Repr

/-- The second half of `GetIndex` (from `if (it->Valid())` on). -/
def GetIndexTail (it : TableIterator) (st_type real_et_type : GetType) (et : Nat) :
    GetIndexResult :=
  if it.Valid then
    if st_type = GetType.kSubKeyGe ∨ st_type = GetType.kSubKeyGt then
      ⟨0, some (it.GetKey, it.GetValue)⟩
    else
      match real_et_type with
      | GetType.kSubKeyEq =>
        if it.GetKey ≠ et then ⟨1, none⟩ else ⟨0, some (it.GetKey, it.GetValue)⟩
      | GetType.kSubKeyGt =>
        if it.GetKey ≤ et then ⟨1, none⟩ else ⟨0, some (it.GetKey, it.GetValue)⟩
      | GetType.kSubKeyGe =>
        if it.GetKey < et then ⟨1, none⟩ else ⟨0, some (it.GetKey, it.GetValue)⟩
      | _ => ⟨-2, none⟩
  else ⟨1, none⟩

/-- The function `TabletImpl::GetIndex(expire_time, expire_cnt, ttl_type, it, request, value, ts)`.
The test of `st_type` against the five members of `GetType` (return `-2`) cannot
fail on this type and is left out. -/
def GetIndex (expire_time expire_cnt : Nat) (ttl_type : TTLType) (it : TableIterator)
    (request : GetRequest) : GetIndexResult :=
  let st := request.ts
  let st_type := request.type
  let et_type := request.et_type
  if st_type = GetType.kSubKeyEq ∧ et_type = GetType.kSubKeyEq ∧ st ≠ request.et then
    ⟨-1, none⟩
  else
    let et :=
      if ttl_type = TTLType.kAbsoluteTime ∨ ttl_type = TTLType.kAbsOrLat then
        max request.et expire_time
      else request.et
    let real_et_type :=
      if et < expire_time ∧ et_type = GetType.kSubKeyGt then GetType.kSubKeyGe else et_type
    if 0 < st then
      if st < et then ⟨-1, none⟩
      else
        match ttl_type with
        | TTLType.kAbsoluteTime =>
          let r := Seek it st st_type
          if !r.1 then ⟨1, none⟩ else GetIndexTail r.2 st_type real_et_type et
        | TTLType.kAbsAndLat =>
          if st < expire_time then
            let r := SeekWithCount it st st_type (expire_cnt % 2 ^ 32) 0
            if !r.1 then ⟨1, none⟩ else GetIndexTail r.2.1 st_type real_et_type et
          else
            let r := Seek it st st_type
            if !r.1 then ⟨1, none⟩ else GetIndexTail r.2 st_type real_et_type et
        | _ =>
          let r := SeekWithCount it st st_type (expire_cnt % 2 ^ 32) 0
          if !r.1 then ⟨1, none⟩ else GetIndexTail r.2.1 st_type real_et_type et
    else
      GetIndexTail it.SeekToFirst st_type real_et_type et

/-! The function `TabletImpl::ScanIndex` -/

/-- Deployment flags and helpers that `ScanIndex` takes from outside the file:
`FLAGS_scan_max_bytes_size`, and the status returned by
`::rtidb::base::EncodeRows(tmp, total_block_size, pairs)`. -/
structure ScanEnv where
  scan_max_bytes_size : Nat
  EncodeRows : List Entry → Nat → Int

/-- The outcome of `ScanIndex`: the returned code and, when it is `0`, the rows
encoded into `pairs` and the value stored to `*count` (a `uint32_t`). -/
structure ScanIndexResult where
  code : Int
  rows : List Entry
  count : Nat
  deriving DecidableEq, Repr

/-- The `switch (real_et_type)` of the scan loop: `some jump_out`, or `none`
for the `default` branch that returns `-2`. -/
def EndBound (real_et_type : GetType) (key real_et : Nat) : Option Bool :=
  match real_et_type with
  | GetType.kSubKeyEq => some (decide (key ≠ real_et))
  | GetType.kSubKeyGt => some (decide (key ≤ real_et))
  | GetType.kSubKeyGe => some (decide (key < real_et))
  | _ => none

/-- The `while (it->Valid())` loop of `ScanIndex` on the entries left from the
current position.  The state is `cnt`, `last_time`, `tmp` and
`total_block_size`; the result is the code of a `return` inside the loop, or
`tmp` and `total_block_size` when the loop is left by `break` or at the end. -/
def ScanLoop (env : ScanEnv) (expire_time expire_cnt : Nat) (ttl_type : TTLType)
    (limit atleast : Nat) (remove_duplicated_record : Bool) (real_et_type : GetType)
    (real_et : Nat) :
    List Entry → Nat → Nat → List Entry → Nat → Except Int (List Entry × Nat)
  | [], _, _, tmp, total_block_size => Except.ok (tmp, total_block_size)
  | e :: rest, cnt, last_time, tmp, total_block_size =>
    if 0 < limit ∧ limit ≤ tmp.length then Except.ok (tmp, total_block_size)
    else if ttl_type = TTLType.kAbsoluteTime ∧ expire_time ≠ 0 ∧ e.ts ≤ expire_time then
      Except.ok (tmp, total_block_size)
    else if ttl_type = TTLType.kAbsoluteTime ∧ remove_duplicated_record = true
        ∧ 0 < tmp.length ∧ last_time = e.ts then
      ScanLoop env expire_time expire_cnt ttl_type limit atleast remove_duplicated_record
        real_et_type real_et rest cnt last_time tmp total_block_size
    else if ttl_type = TTLType.kLatestTime ∧ expire_cnt ≠ 0 ∧ expire_cnt ≤ cnt then
      Except.ok (tmp, total_block_size)
    else if ttl_type = TTLType.kAbsAndLat ∧ (expire_cnt ≠ 0 ∧ expire_cnt ≤ cnt)
        ∧ (expire_time ≠ 0 ∧ e.ts ≤ expire_time) then
      Except.ok (tmp, total_block_size)
    else if ttl_type = TTLType.kAbsOrLat ∧ ((expire_cnt ≠ 0 ∧ expire_cnt ≤ cnt)
        ∨ (expire_time ≠ 0 ∧ e.ts ≤ expire_time)) then
      Except.ok (tmp, total_block_size)
    else
      let last_time1 := if ttl_type = TTLType.kAbsoluteTime then e.ts else last_time
      let cnt1 := (cnt + 1) % 2 ^ 32
      let jump : Option Bool :=
        if atleast = 0 ∨ atleast ≤ tmp.length then EndBound real_et_type e.ts real_et
        else some false
      match jump with
      | none => Except.error (-2)
      | some true => Except.ok (tmp, total_block_size)
      | some false =>
        let total1 := (total_block_size + e.size) % 2 ^ 32
        if env.scan_max_bytes_size < total1 then Except.error (-3)
        else
          ScanLoop env expire_time expire_cnt ttl_type limit atleast remove_duplicated_record
            real_et_type real_et rest cnt1 last_time1 (tmp ++ [e]) total1

/-- The iterator position and the counter `cnt` with which `ScanIndex` enters
its loop. -/
def ScanStart (expire_cnt : Nat) (ttl_type : TTLType) (it : TableIterator) (st : Nat)
    (real_st_type : GetType) : TableIterator × Nat :=
  if 0 < st then
    match ttl_type with
    | TTLType.kAbsoluteTime => ((Seek it st real_st_type).2, 0)
    | _ =>
      let r := SeekWithCount it st real_st_type (expire_cnt % 2 ^ 32) 0
      (r.2.1, r.2.2)
  else (it.SeekToFirst, 0)

/-- The local `real_et_type` of `ScanIndex` and `CountIndex`: a `kSubKeyGt` end
bound below `expire_time` is applied as `kSubKeyGe`. -/
def RealEtType (expire_time et : Nat) (et_type : GetType) : GetType :=
  if et < expire_time ∧ et_type = GetType.kSubKeyGt then GetType.kSubKeyGe else et_type

/-- The local `real_et` of `ScanIndex`. -/
def RealEt (expire_time : Nat) (ttl_type : TTLType) (et : Nat) : Nat :=
  if ttl_type = TTLType.kAbsoluteTime ∨ ttl_type = TTLType.kAbsOrLat then max et expire_time
  else et

/-- The local `real_st_type` of `ScanIndex` and `CountIndex`. -/
def RealStType (st_type : GetType) : GetType :=
  if st_type = GetType.kSubKeyEq then GetType.kSubKeyLe else st_type

/-- The function `TabletImpl::ScanIndex(expire_time, expire_cnt, ttl_type, it, request, pairs, count)`. -/
def ScanIndex (env : ScanEnv) (expire_time expire_cnt : Nat) (ttl_type : TTLType)
    (it : TableIterator) (request : ScanRequest) : ScanIndexResult :=
  let limit := request.limit
  let atleast := request.atleast
  let st := request.st
  let st_type := request.st_type
  let et := request.et
  let et_type := request.et_type
  if limit < atleast ∧ limit ≠ 0 then ⟨-1, [], 0⟩
  else
    let real_et_type := RealEtType expire_time et et_type
    let real_et := RealEt expire_time ttl_type et
    let real_st_type := RealStType st_type
    if st_type ≠ GetType.kSubKeyEq ∧ st_type ≠ GetType.kSubKeyLe
        ∧ st_type ≠ GetType.kSubKeyLt then ⟨-2, [], 0⟩
    else if 0 < st ∧ (st < expire_time ∨ st < et) then ⟨-1, [], 0⟩
    else
      let start := ScanStart expire_cnt ttl_type it st real_st_type
      match ScanLoop env expire_time expire_cnt ttl_type limit atleast
          request.enable_remove_duplicated_record real_et_type real_et start.1.cur start.2 0 [] 0 with
      | Except.error c => ⟨c, [], 0⟩
      | Except.ok (tmp, total_block_size) =>
        if env.EncodeRows tmp total_block_size = -1 then ⟨-4, [], 0⟩
        else ⟨0, tmp, tmp.length % 2 ^ 32⟩

/-- The message `ScanResponse`: `code`, `msg` (empty while unset), `pairs` (as
the rows encoded into it) and `count`. -/
structure ScanResponse where
  code : Code
  msg : String
  pairs : List Entry
  count : Nat
  deriving DecidableEq, Repr

/-- The handler `TabletImpl::Scan` from the iterator on: `it` is the result of
`table->NewIterator` (`none` for `NULL`), `expire_time`, `expire_cnt` and
`ttl_type` are read from the table.  After `ScanIndex` the handler runs
`response->set_code(code); response->set_count(count);` and then the
`switch (code)`, written here as a chain of tests. -/
def ScanBody (env : ScanEnv) (expire_time expire_cnt : Nat) (ttl_type : TTLType)
    (it : Option TableIterator) (request : ScanRequest) : ScanResponse :=
  match it with
  | none => ⟨Code.enum ReturnCode.kKeyNotFound, "key not found", [], 0⟩
  | some it =>
    let r := ScanIndex env expire_time expire_cnt ttl_type it request
    let code := r.code
    let response : ScanResponse := ⟨Code.raw code, "", r.rows, r.count⟩
    if code = 0 then response
    else if code = -1 then
      { response with msg := "invalid args", code := Code.enum ReturnCode.kInvalidParameter }
    else if code = -2 then
      { response with msg := "st/et sub key type is invalid",
                      code := Code.enum ReturnCode.kInvalidParameter }
    else if code = -3 then
      { response with code := Code.enum ReturnCode.kReacheTheScanMaxBytesSize,
                      msg := "reach the max scan byte size" }
    else if code = -4 then
      { response with msg := "fail to encode data rows",
                      code := Code.enum ReturnCode.kFailToUpdateTtlFromTablet }
    else response

/-! The function `TabletImpl::CountIndex` -/

/-- The outcome of `CountIndex`: the returned code and the value stored to
`*count` (a `uint32_t`, left at the caller's `0` when the code is not `0`). -/
structure CountIndexResult where
  code : Int
  count : Nat
  deriving DecidableEq, Repr

/-- The `while (it->Valid())` loop of `CountIndex` on the entries left from the
current position.  The state is `cnt`, `last_key` and `internal_cnt` (both
counters `uint32_t`); the result is the code of a `return` inside the loop, or
`internal_cnt` when the loop is left by `break` or at the end. -/
def CountLoop (expire_time expire_cnt : Nat) (ttl_type : TTLType)
    (remove_duplicated_record : Bool) (real_et_type : GetType) (et : Nat) :
    List Entry → Nat → Nat → Nat → Except Int Nat
  | [], _, _, internal_cnt => Except.ok internal_cnt
  | e :: rest, cnt, last_key, internal_cnt =>
    if remove_duplicated_record = true ∧ 0 < internal_cnt ∧ last_key = e.ts then
      CountLoop expire_time expire_cnt ttl_type remove_duplicated_record real_et_type et
        rest ((cnt + 1) % 2 ^ 32) last_key internal_cnt
    else if ttl_type = TTLType.kAbsoluteTime ∧ expire_time ≠ 0 ∧ e.ts ≤ expire_time then
      Except.ok internal_cnt
    else if ttl_type = TTLType.kLatestTime ∧ expire_cnt ≠ 0 ∧ expire_cnt ≤ cnt then
      Except.ok internal_cnt
    else if ttl_type = TTLType.kAbsAndLat ∧ (expire_cnt ≠ 0 ∧ expire_cnt ≤ cnt)
        ∧ (expire_time ≠ 0 ∧ e.ts ≤ expire_time) then
      Except.ok internal_cnt
    else if ttl_type = TTLType.kAbsOrLat ∧ ((expire_cnt ≠ 0 ∧ expire_cnt ≤ cnt)
        ∨ (expire_time ≠ 0 ∧ e.ts ≤ expire_time)) then
      Except.ok internal_cnt
    else
      match EndBound real_et_type e.ts et with
      | none => Except.error (-2)
      | some true => Except.ok internal_cnt
      | some false =>
        CountLoop expire_time expire_cnt ttl_type remove_duplicated_record real_et_type et
          rest ((cnt + 1) % 2 ^ 32) e.ts ((internal_cnt + 1) % 2 ^ 32)

/-- The function `TabletImpl::CountIndex(expire_time, expire_cnt, ttl_type, it, request, count)`. -/
def CountIndex (expire_time expire_cnt : Nat) (ttl_type : TTLType)
    (it : TableIterator) (request : CountRequest) : CountIndexResult :=
  let st := request.st
  let st_type := request.st_type
  let real_et_type := RealEtType expire_time request.et request.et_type
  let et := RealEt expire_time ttl_type request.et
  let real_st_type := RealStType st_type
  if st_type ≠ GetType.kSubKeyEq ∧ st_type ≠ GetType.kSubKeyLe
      ∧ st_type ≠ GetType.kSubKeyLt then ⟨-2, 0⟩
  else if 0 < st ∧ st < et then ⟨-1, 0⟩
  else
    let start := ScanStart expire_cnt ttl_type it st real_st_type
    match CountLoop expire_time expire_cnt ttl_type request.enable_remove_duplicated_record
        real_et_type et start.1.cur start.2 0 0 with
    | Except.error c => ⟨c, 0⟩
    | Except.ok internal_cnt => ⟨0, internal_cnt⟩

/-- The conditions under which one turn of the scan loop appends the current
entry `e` to `tmp`. -/
structure ScanPush (env : ScanEnv) (expire_time expire_cnt : Nat) (ttl_type : TTLType)
    (limit atleast : Nat) (rd : Bool) (real_et_type : GetType) (real_et : Nat)
    (e : Entry) (cnt last_time : Nat) (tmp : List Entry) (total : Nat) : Prop where
  limit_ok : ¬(0 < limit ∧ limit ≤ tmp.length)
  abs_ok : ¬(ttl_type = TTLType.kAbsoluteTime ∧ expire_time ≠ 0 ∧ e.ts ≤ expire_time)
  dup_ok : ¬(ttl_type = TTLType.kAbsoluteTime ∧ rd = true ∧ 0 < tmp.length ∧ last_time = e.ts)
  lat_ok : ¬(ttl_type = TTLType.kLatestTime ∧ expire_cnt ≠ 0 ∧ expire_cnt ≤ cnt)
  andlat_ok : ¬(ttl_type = TTLType.kAbsAndLat ∧ (expire_cnt ≠ 0 ∧ expire_cnt ≤ cnt)
    ∧ (expire_time ≠ 0 ∧ e.ts ≤ expire_time))
  orlat_ok : ¬(ttl_type = TTLType.kAbsOrLat ∧ ((expire_cnt ≠ 0 ∧ expire_cnt ≤ cnt)
    ∨ (expire_time ≠ 0 ∧ e.ts ≤ expire_time)))
  end_ok : atleast = 0 ∨ atleast ≤ tmp.length → EndBound real_et_type e.ts real_et = some false
  size_ok : (total + e.size) % 2 ^ 32 ≤ env.scan_max_bytes_size

/-- The conditions under which one turn of the scan loop reaches
`tmp.push_back` with the current entry `e`: no `break`, `continue` or `return`
ahead of it. -/
structure ScanAccept (expire_time expire_cnt : Nat) (ttl_type : TTLType)
    (limit atleast : Nat) (rd : Bool) (real_et_type : GetType) (real_et : Nat)
    (e : Entry) (cnt last_time : Nat) (tmp : List Entry) : Prop where
  limit_ok : ¬(0 < limit ∧ limit ≤ tmp.length)
  abs_ok : ¬(ttl_type = TTLType.kAbsoluteTime ∧ expire_time ≠ 0 ∧ e.ts ≤ expire_time)
  dup_ok : ¬(ttl_type = TTLType.kAbsoluteTime ∧ rd = true ∧ 0 < tmp.length ∧ last_time = e.ts)
  lat_ok : ¬(ttl_type = TTLType.kLatestTime ∧ expire_cnt ≠ 0 ∧ expire_cnt ≤ cnt)
  andlat_ok : ¬(ttl_type = TTLType.kAbsAndLat ∧ (expire_cnt ≠ 0 ∧ expire_cnt ≤ cnt)
    ∧ (expire_time ≠ 0 ∧ e.ts ≤ expire_time))
  orlat_ok : ¬(ttl_type = TTLType.kAbsOrLat ∧ ((expire_cnt ≠ 0 ∧ expire_cnt ≤ cnt)
    ∨ (expire_time ≠ 0 ∧ e.ts ≤ expire_time)))
  end_ok : atleast = 0 ∨ atleast ≤ tmp.length → EndBound real_et_type e.ts real_et = some false

/-! Responses, tasks and the tablet state -/

/-- Modelled from the spec: `FileReceiver`, the receiving end of chunked file
shipping, whose class is outside the sources at hand.  It holds the id of the
last block taken (`GetBlockId`) and the blocks staged so far. -/
structure FileReceiver where
  file_name : String
  dir_name : String
  path : String
  block_id : Nat
  staged : List String
  deriving DecidableEq, Repr

/-- Whether the file operations of one `SendData` call succeed:
`FileReceiver::Init()` returning `true` and `FileReceiver::WriteData` returning
a non-negative value. -/
structure DiskOutcome where
  init_ok : Bool
  write_ok : Bool
  deriving DecidableEq, Repr

/-- Modelled from the spec: `FileReceiver::Init`, "block 0 initializes": the
receiver starts over at block id `0` with nothing staged. -/
def FileReceiver.Init (r : FileReceiver) : FileReceiver :=
  { r with block_id := 0, staged := [] }

/-- Modelled from the spec: `FileReceiver::WriteData(data, block_id)` appends the
block to the staged file and records its id. -/
def FileReceiver.WriteData (r : FileReceiver) (data : String) (block_id : Nat) : FileReceiver :=
  { r with block_id := block_id, staged := r.staged ++ [data] }

/-- A closure handed to one of the thread pools; the index of the task record
stands for the shared `task_ptr`. -/
inductive PoolTask where
  | MakeSnapshotInternal (tid pid : Nat) (offset : Nat) (task : Option Nat)
  | DeleteTableInternal (tid pid : Nat) (task : Option Nat)
  | DeleteRelationalTableInternal (tid pid : Nat) (task : Option Nat)
  deriving DecidableEq, Repr

/-- The members of `TabletImpl` used by the handlers below.  The nested maps
`tid -> pid -> object` are functions of `tid` and `pid`; `task_map_` is the list
of all task records in insertion order, a record being addressed by its index;
`snapshot_pool_` and `task_pool_` hold the closures added so far; `saved_files_`
holds the files `FileReceiver::SaveFile` moved into place, as full name and
blocks.  `table_pids_ tid` lists the keys of the inner map `tables_[tid]` in
ascending order, and is `none` when `tables_` has no entry for `tid`. -/
structure TabletImpl where
  tables_ : Nat → Nat → Option Table
  relational_tables_ : Nat → Nat → Bool
  snapshots_ : Nat → Nat → Bool
  replicators_ : Nat → Nat → Bool
  follower_ : Bool
  task_map_ : List TaskInfo
  file_receiver_map_ : String → Option FileReceiver
  saved_files_ : List (String × List String)
  mode_root_paths_ : StorageMode → List String
  snapshot_pool_ : List PoolTask
  task_pool_ : List PoolTask
  table_pids_ : Nat → Option (List Nat) := fun _ => none
  mode_recycle_root_paths_ : StorageMode → List String := fun _ => []

/-- The functions `TabletImpl::GetTable` and `GetTableUnLock`. -/
def GetTableUnLock (s : TabletImpl) (tid pid : Nat) : Option Table := s.tables_ tid pid

/-- The call `table->SetTableStat(stat)` on the table registered under `(tid, pid)`. -/
def SetTableStat (s : TabletImpl) (tid pid : Nat) (stat : TableStat) : TabletImpl :=
  { s with tables_ := fun t p =>
      if t = tid ∧ p = pid then (s.tables_ tid pid).map (fun tb => { tb with stat := stat })
      else s.tables_ t p }

/-- The function `TabletImpl::FindTask(op_id, task_type)`, as a test. -/
def FindTask (s : TabletImpl) (op_id : Nat) (task_type : TaskType) : Bool :=
  s.task_map_.any (fun t => decide (t.op_id = op_id) && decide (t.task_type = task_type))

/-- The call `task_ptr->set_status(status)` for an optional task record. -/
def SetTaskStatus (s : TabletImpl) (task_ptr : Option Nat) (status : TaskStatus) : TabletImpl :=
  match task_ptr with
  | none => s
  | some i => { s with task_map_ := s.task_map_.modify (fun t => { t with status := status }) i }

/-- The function `TabletImpl::AddOPTask(task_info, task_type, task_ptr)`: the returned value,
the new state and the task record created. -/
def AddOPTask (s : TabletImpl) (task_info : TaskInfo) (task_type : TaskType) :
    Int × TabletImpl × Option Nat :=
  if FindTask s task_info.op_id task_info.task_type then (-1, s, none)
  else
    let ptr := s.task_map_.length
    let s1 := { s with task_map_ := s.task_map_ ++ [{ task_info with status := TaskStatus.kDoing }] }
    if task_info.task_type ≠ task_type then (-1, SetTaskStatus s1 (some ptr) TaskStatus.kFailed, some ptr)
    else (0, s1, some ptr)

/-- The opening of the task-driven handlers: when the request carries a task,
register it with `AddOPTask`.  `Except.error` carries the state a failed
`AddOPTask` left; the handler then returns with code `-1`. -/
def RegisterTask (s : TabletImpl) (task_info : Option TaskInfo) (task_type : TaskType) :
    Except TabletImpl (TabletImpl × Option Nat) :=
  match task_info with
  | none => Except.ok (s, none)
  | some ti =>
    let r := AddOPTask s ti task_type
    if r.1 < 0 then Except.error r.2.1 else Except.ok (r.2.1, r.2.2)

/-- The task a request carries, if any, is registered by `AddOPTask` without
error, so that the handler gets past its opening. -/
def TaskAccepted (s : TabletImpl) (task_info : Option TaskInfo) (task_type : TaskType) : Prop :=
  ∀ ti, task_info = some ti → (AddOPTask s ti task_type).1 = 0

/-- The state `s1` differs from `s` in the task records at most. -/
def OnlyTasksChanged (s s1 : TabletImpl) : Prop :=
  s1 = { s with task_map_ := s1.task_map_ }

/-! The functions `TabletImpl::ChooseDBRootPath` and `TabletImpl::SendData` -/

/-- The constant `SEED`. -/
def SEED : Nat := 0xe17a1465

/-- The function `TabletImpl::ChooseDBRootPath(tid, pid, mode, path)`: the returned flag and
the path assigned.  `hash key seed` stands for
`::rtidb::base::hash(key.c_str(), key.size(), seed)`, defined outside the
sources at hand; `index` is a `uint32_t`. -/
def ChooseDBRootPath (hash : String → Nat → Nat) (s : TabletImpl) (tid pid : Nat)
    (mode : StorageMode) : Bool × String :=
  let paths := s.mode_root_paths_ mode
  if paths.length < 1 then (false, "")
  else if paths.length = 1 then
    let path := paths.getD 0 ""
    (decide (path.utf8ByteSize ≠ 0), path)
  else
    let key := toString tid ++ toString pid
    let index := (hash key SEED % paths.length) % 2 ^ 32
    let path := paths.getD index ""
    (decide (path.utf8ByteSize ≠ 0), path)

/-- The name under which `SendData` keeps the receiver of a file. -/
def CombineKey (request : SendDataRequest) : String :=
  toString request.tid ++ "_" ++ toString request.pid ++ "_" ++ request.file_name

/-- The map `file_receiver_map_` with the entry of `key` set to `r` (`none` erases). -/
def SetReceiver (s : TabletImpl) (key : String) (r : Option FileReceiver) : TabletImpl :=
  { s with file_receiver_map_ := fun k => if k = key then r else s.file_receiver_map_ k }

/-- The part of `TabletImpl::SendData` from the comparison of the block ids on (the check
`if (receiver->GetBlockId() == request->block_id())` and what follows), with
the receiver found or created before. -/
def SendDataBlock (disk : DiskOutcome) (s : TabletImpl) (request : SendDataRequest)
    (attachment : String) (receiver : FileReceiver) : GeneralResponse × TabletImpl :=
  if receiver.block_id = request.block_id then (⟨Code.enum ReturnCode.kOk, "ok"⟩, s)
  else if request.block_id ≠ (receiver.block_id + 1) % 2 ^ 64 then
    (⟨Code.enum ReturnCode.kBlockIdMismatch, "block_id mismatch"⟩, s)
  else if attachment.utf8ByteSize ≠ request.block_size then
    (⟨Code.enum ReturnCode.kReceiveDataError, "receive data error"⟩, s)
  else if !disk.write_ok then
    (⟨Code.enum ReturnCode.kWriteDataFailed, "write data failed"⟩, s)
  else
    let receiver1 := receiver.WriteData attachment request.block_id
    let s1 := SetReceiver s (CombineKey request) (some receiver1)
    if request.eof then
      (⟨Code.enum ReturnCode.kOk, "ok"⟩,
        SetReceiver
          { s1 with saved_files_ :=
              s1.saved_files_ ++ [(receiver1.path ++ receiver1.file_name, receiver1.staged)] }
          (CombineKey request) none)
    else (⟨Code.enum ReturnCode.kOk, "ok"⟩, s1)

/-- The local `dir_name` of `SendData`: the request's `dir_name` when present
and not empty. -/
def SendDataDirName (request : SendDataRequest) : String :=
  match request.dir_name with
  | some d => if 0 < d.utf8ByteSize then d else ""
  | none => ""

/-- The local `path` of `SendData`: the directory the file is received into. -/
def SendDataPath (db_root_path : String) (request : SendDataRequest) : String :=
  let path0 := db_root_path ++ "/" ++ toString request.tid ++ "_" ++ toString request.pid ++ "/"
  let path1 := if request.file_name ≠ "table_meta.txt" then path0 ++ "snapshot/" else path0
  match request.dir_name with
  | some d => if 0 < d.utf8ByteSize then path1 ++ d ++ "/" else path1
  | none => path1

/-- The handler `TabletImpl::SendData(controller, request, response, done)`; `attachment` is
`cntl->request_attachment()`. -/
def SendData (hash : String → Nat → Nat) (disk : DiskOutcome) (s : TabletImpl)
    (request : SendDataRequest) (attachment : String) : GeneralResponse × TabletImpl :=
  let tid := request.tid
  let pid := request.pid
  let mode := request.storage_mode.getD StorageMode.kMemory
  let chosen := ChooseDBRootPath hash s tid pid mode
  if !chosen.1 then
    (⟨Code.enum ReturnCode.kFailToGetDbRootPath, "fail to get db root path"⟩, s)
  else
    let combine_key := CombineKey request
    let path := SendDataPath chosen.2 request
    let dir_name := SendDataDirName request
    if request.block_id = 0 then
      if (GetTableUnLock s tid pid).isSome then
        (⟨Code.enum ReturnCode.kTableAlreadyExists, "table already exists"⟩, s)
      else
        let found := (s.file_receiver_map_ combine_key).getD
          ⟨request.file_name, dir_name, path, 0, []⟩
        if !disk.init_ok then
          (⟨Code.enum ReturnCode.kFileReceiverInitFailed, "file receiver init failed"⟩,
            SetReceiver s combine_key none)
        else
          let receiver := found.Init
          SendDataBlock disk (SetReceiver s combine_key (some receiver)) request attachment
            receiver
    else
      match s.file_receiver_map_ combine_key with
      | none => (⟨Code.enum ReturnCode.kCannotFindReceiver, "cannot find receiver"⟩, s)
      | some receiver => SendDataBlock disk s request attachment receiver

/-! Snapshot handlers and `DropTable` -/

/-- The handler `TabletImpl::PauseSnapshot`. -/
def PauseSnapshot (s : TabletImpl) (request : GeneralRequest) : GeneralResponse × TabletImpl :=
  match RegisterTask s request.task_info TaskType.kPauseSnapshot with
  | Except.error s1 => (⟨Code.raw (-1), "add task failed"⟩, s1)
  | Except.ok (s1, task_ptr) =>
    match GetTableUnLock s1 request.tid request.pid with
    | none =>
      (⟨Code.enum ReturnCode.kTableIsNotExist, "table is not exist"⟩,
        SetTaskStatus s1 task_ptr TaskStatus.kFailed)
    | some table =>
      if table.stat = TableStat.kSnapshotPaused then
        (⟨Code.enum ReturnCode.kOk, "ok"⟩, SetTaskStatus s1 task_ptr TaskStatus.kDone)
      else if table.stat ≠ TableStat.kNormal then
        (⟨Code.enum ReturnCode.kTableStatusIsNotKnormal, "table status is not kNormal"⟩,
          SetTaskStatus s1 task_ptr TaskStatus.kFailed)
      else
        (⟨Code.enum ReturnCode.kOk, "ok"⟩,
          SetTaskStatus (SetTableStat s1 request.tid request.pid TableStat.kSnapshotPaused)
            task_ptr TaskStatus.kDone)

/-- The handler `TabletImpl::RecoverSnapshot`. -/
def RecoverSnapshot (s : TabletImpl) (request : GeneralRequest) : GeneralResponse × TabletImpl :=
  match RegisterTask s request.task_info TaskType.kRecoverSnapshot with
  | Except.error s1 => (⟨Code.raw (-1), "add task failed"⟩, s1)
  | Except.ok (s1, task_ptr) =>
    match GetTableUnLock s1 request.tid request.pid with
    | none =>
      (⟨Code.enum ReturnCode.kTableIsNotExist, "table is not exist"⟩,
        SetTaskStatus s1 task_ptr TaskStatus.kFailed)
    | some table =>
      if table.stat = TableStat.kNormal then
        (⟨Code.enum ReturnCode.kOk, "ok"⟩, SetTaskStatus s1 task_ptr TaskStatus.kDone)
      else if table.stat ≠ TableStat.kSnapshotPaused then
        (⟨Code.enum ReturnCode.kTableStatusIsNotKsnapshotpaused,
            "table status is not kSnapshotPaused"⟩,
          SetTaskStatus s1 task_ptr TaskStatus.kFailed)
      else
        (⟨Code.enum ReturnCode.kOk, "ok"⟩,
          SetTaskStatus (SetTableStat s1 request.tid request.pid TableStat.kNormal)
            task_ptr TaskStatus.kDone)

/-- How far a request handler gets.  `reply r`: the handler returns with the
response `r` from one of its opening checks, having done nothing but look up
the partition and read its state and role.  `tsBody table`: the checks passed
and the handler goes on to its work on the time-series table (index and
iterator lookup, `Put`, `Delete`, the replicator and its binlog).
`relBody`: the handler goes on to its work on a relational table. -/
inductive Dispatch where
  | reply (response : GeneralResponse)
  | tsBody (table : Table)
  | relBody
  deriving DecidableEq, Repr

/-- The response `table is not exist`. -/
def TableIsNotExist : GeneralResponse :=
  ⟨Code.enum ReturnCode.kTableIsNotExist, "table is not exist"⟩

/-- The response `table is loading`. -/
def TableIsLoading : GeneralResponse :=
  ⟨Code.enum ReturnCode.kTableIsLoading, "table is loading"⟩

/-- The handler `TabletImpl::Get` up to and including the check of the table state. -/
def Get (s : TabletImpl) (request : GetRequest) : Dispatch :=
  match GetTableUnLock s request.tid request.pid with
  | none =>
    if !s.relational_tables_ request.tid request.pid then Dispatch.reply TableIsNotExist
    else Dispatch.relBody
  | some table =>
    if table.stat = TableStat.kLoading then Dispatch.reply TableIsLoading
    else Dispatch.tsBody table

/-- The handler `TabletImpl::Scan` up to and including the check of the table state. -/
def Scan (s : TabletImpl) (request : ScanRequest) : Dispatch :=
  if request.st < request.et then
    Dispatch.reply ⟨Code.enum ReturnCode.kStLessThanEt, "starttime less than endtime"⟩
  else
    match GetTableUnLock s request.tid request.pid with
    | none => Dispatch.reply TableIsNotExist
    | some table =>
      if table.stat = TableStat.kLoading then Dispatch.reply TableIsLoading
      else Dispatch.tsBody table

/-- The handler `TabletImpl::Count` up to and including the check of the table state. -/
def Count (s : TabletImpl) (request : CountRequest) : Dispatch :=
  match GetTableUnLock s request.tid request.pid with
  | none => Dispatch.reply TableIsNotExist
  | some table =>
    if table.stat = TableStat.kLoading then Dispatch.reply TableIsLoading
    else Dispatch.tsBody table

/-- The handler `TabletImpl::Traverse` up to and including the check of the table state. -/
def Traverse (s : TabletImpl) (request : TraverseRequest) : Dispatch :=
  match GetTableUnLock s request.tid request.pid with
  | none =>
    if !s.relational_tables_ request.tid request.pid then Dispatch.reply TableIsNotExist
    else Dispatch.relBody
  | some table =>
    if table.stat = TableStat.kLoading then Dispatch.reply TableIsLoading
    else Dispatch.tsBody table

/-- The handler `TabletImpl::Put` up to and including the check of the table state. -/
def Put (s : TabletImpl) (request : PutRequest) : Dispatch :=
  if s.follower_ then
    Dispatch.reply ⟨Code.enum ReturnCode.kIsFollowerCluster, "is follower cluster"⟩
  else
    match GetTableUnLock s request.tid request.pid with
    | none =>
      if !s.relational_tables_ request.tid request.pid then Dispatch.reply TableIsNotExist
      else Dispatch.relBody
    | some table =>
      if request.time = 0 ∧ request.ts_dimensions_size = 0 then
        Dispatch.reply
          ⟨Code.enum ReturnCode.kTsMustBeGreaterThanZero, "ts must be greater than zero"⟩
      else if !table.is_leader then
        Dispatch.reply ⟨Code.enum ReturnCode.kTableIsFollower, "table is follower"⟩
      else if table.stat = TableStat.kLoading then Dispatch.reply TableIsLoading
      else Dispatch.tsBody table

/-- The handler `TabletImpl::Delete` up to and including the check of the table state. -/
def Delete (s : TabletImpl) (request : DeleteRequest) : Dispatch :=
  if s.follower_ then
    Dispatch.reply ⟨Code.enum ReturnCode.kIsFollowerCluster, "is follower cluster"⟩
  else
    match GetTableUnLock s request.tid request.pid with
    | none =>
      if !s.relational_tables_ request.tid request.pid then Dispatch.reply TableIsNotExist
      else Dispatch.relBody
    | some table =>
      if !table.is_leader then
        Dispatch.reply ⟨Code.enum ReturnCode.kTableIsFollower, "table is follower"⟩
      else if table.stat = TableStat.kLoading then Dispatch.reply TableIsLoading
      else Dispatch.tsBody table

/-- The handler `TabletImpl::AppendEntries` up to and including the check of the table
state. -/
def AppendEntries (s : TabletImpl) (request : AppendEntriesRequest) : Dispatch :=
  match GetTableUnLock s request.tid request.pid with
  | none => Dispatch.reply TableIsNotExist
  | some table =>
    if !s.follower_ ∧ table.is_leader then
      Dispatch.reply ⟨Code.enum ReturnCode.kTableIsLeader, "table is leader"⟩
    else if table.stat = TableStat.kLoading then Dispatch.reply TableIsLoading
    else Dispatch.tsBody table

/-! Sample states and requests -/

/-! The time-series branch of `TabletImpl::Traverse` -/

/-- What the time-series branch of `Traverse` takes from outside the file:
`FLAGS_max_traverse_cnt`, and the position the traverse iterator takes on
`Seek(pk, ts)`. -/
structure TraverseEnv where
  max_traverse_cnt : Nat
  Seek : TraverseIterator → String → Nat → TraverseIterator

/-- The locals of the time-series branch of `Traverse` around its loop: the
iterator, `last_time`, `last_pk`, the rows pushed to `value_map` in the order
of the pushes, `total_block_size` and `scount` (both `uint32_t`). -/
structure TraverseState where
  it : TraverseIterator
  last_time : Nat
  last_pk : String
  rows : List TraverseRow
  total_block_size : Nat
  scount : Nat
  deriving DecidableEq, Repr

/-- The loop `for (; it->Valid(); it->Next())` of `Traverse` on the rows left
from the current position; `count` is `it->GetCount()`.  The result holds the
position at which the loop was left. -/
def TraverseLoop (max_traverse_cnt limit : Nat) (remove_duplicated_record : Bool)
    (entries : List TraverseRow) :
    List TraverseRow → Nat → Nat → String → List TraverseRow → Nat → Nat → TraverseState
  | [], count, last_time, last_pk, rows, total_block_size, scount =>
    ⟨⟨entries, [], count⟩, last_time, last_pk, rows, total_block_size, scount⟩
  | e :: rest, count, last_time, last_pk, rows, total_block_size, scount =>
    if 0 < limit ∧ limit - 1 < scount then
      ⟨⟨entries, e :: rest, count⟩, last_time, last_pk, rows, total_block_size, scount⟩
    else if remove_duplicated_record = true ∧ last_time = e.ts ∧ last_pk = e.pk then
      TraverseLoop max_traverse_cnt limit remove_duplicated_record entries rest (count + 1)
        last_time last_pk rows total_block_size scount
    else
      let total1 := (total_block_size + (e.pk.utf8ByteSize + e.value.utf8ByteSize)) % 2 ^ 32
      let scount1 := (scount + 1) % 2 ^ 32
      if max_traverse_cnt ≤ count then
        ⟨⟨entries, e :: rest, count⟩, e.ts, e.pk, rows ++ [e], total1, scount1⟩
      else
        TraverseLoop max_traverse_cnt limit remove_duplicated_record entries rest (count + 1)
          e.ts e.pk (rows ++ [e]) total1 scount1

/-- The answer of the time-series branch of `Traverse`: the fields `count`,
`pk`, `ts` and `is_finish` of the response, the rows encoded into `pairs`, and
the iterator as it stands when the handler is done with it. -/
structure TraverseResult where
  count : Nat
  pk : String
  ts : Nat
  is_finish : Bool
  rows : List TraverseRow
  it : TraverseIterator
  deriving DecidableEq, Repr

/-- The time-series branch of `TabletImpl::Traverse` from the positioning of
the traverse iterator `it` on: seek, loop, and the computation of `is_finish`. -/
def TraverseBody (env : TraverseEnv) (it : TraverseIterator) (request : TraverseRequest) :
    TraverseResult :=
  let seek_pk : Bool :=
    match request.pk with
    | some pk => decide (0 < pk.utf8ByteSize)
    | none => false
  let it1 := if seek_pk then env.Seek it (request.pk.getD "") request.ts else it.SeekToFirst
  let last_pk0 := if seek_pk then request.pk.getD "" else ""
  let last_time0 := if seek_pk then request.ts else 0
  let remove_duplicated_record := request.enable_remove_duplicated_record.getD false
  let st := TraverseLoop env.max_traverse_cnt request.limit remove_duplicated_record
    it1.entries it1.cur it1.count last_time0 last_pk0 [] 0 0
  if env.max_traverse_cnt ≤ st.it.GetCount then
    ⟨st.scount, st.it.GetPK, st.it.GetKey, st.it.GetPK.isEmpty, st.rows, st.it⟩
  else if st.scount < request.limit then
    ⟨st.scount, st.last_pk, st.last_time, true, st.rows, st.it⟩
  else
    ⟨st.scount, st.last_pk, st.last_time, false, st.rows, st.it⟩

/-! The function `TabletImpl::UpdateTableMetaForAddField` -/

/-- What a file `table_meta.txt` holds: a table meta printed by
`TextFormat::PrintToString`, or bytes that `TextFormat::Parse` rejects. -/
inductive MetaFile where
  | meta (m : TableMeta)
  | garbage
  deriving DecidableEq, Repr

/-- The part of the file system that `UpdateTableMetaForAddField` touches:
which paths exist (`::rtidb::base::IsExists`) and what the files hold, by full
path. -/
structure MetaDisk where
  dirs : String → Bool
  files : String → Option MetaFile

/-- The function `TabletImpl::UpdateTableMeta(path, table_meta, for_add_column)` with
`for_add_column = true`: the returned value and the disk.  A `table_meta.txt`
that opens and parses is renamed to `table_meta.txt.<now>`, `now` being
`::rtidb::base::GetNowTime()`; the table meta passed in is left as it is. -/
def UpdateTableMeta (now : String) (disk : MetaDisk) (path : String) : Int × MetaDisk :=
  let full_path := path ++ "/table_meta.txt"
  match disk.files full_path with
  | none => (1, disk)
  | some MetaFile.garbage => (-1, disk)
  | some (MetaFile.meta old_meta) =>
    let new_name := full_path ++ "." ++ now
    (0, { disk with files := fun f =>
            if f = new_name then some (MetaFile.meta old_meta)
            else if f = full_path then none
            else disk.files f })

/-- The function `TabletImpl::WriteTableMeta(path, table_meta)`: the returned value and the
disk.  `write_ok path` tells whether `MkdirRecur`, `fopen` and `fputs` all
succeed for `path`; when one of them fails the function returns `-1`, and the
disk is taken to be as before. -/
def WriteTableMeta (write_ok : String → Bool) (disk : MetaDisk) (path : String)
    (table_meta : TableMeta) : Int × MetaDisk :=
  if !write_ok path then (-1, disk)
  else
    let full_path := path ++ "/table_meta.txt"
    (0, { dirs := fun f => if f = path then true else disk.dirs f
          files := fun f => if f = full_path then some (MetaFile.meta table_meta)
            else disk.files f })

/-- The calls `table->SetTableMeta(table_meta)` and `table->SetSchema(schema)`
on the table registered under `(tid, pid)`. -/
def SetTableMetaAndSchema (s : TabletImpl) (tid pid : Nat) (table_meta : TableMeta)
    (schema : String) : TabletImpl :=
  { s with tables_ := fun t p =>
      if t = tid ∧ p = pid then
        (s.tables_ tid pid).map (fun tb => { tb with table_meta := table_meta, schema := schema })
      else s.tables_ t p }

/-- The test `repeated` of `UpdateTableMetaForAddField`: the column name occurs
in `column_desc` or in `added_column_desc` of the table meta. -/
def FieldRepeated (table_meta : TableMeta) (col_name : String) : Bool :=
  table_meta.column_desc.any (fun column => decide (column.name = col_name))
    || table_meta.added_column_desc.any (fun column => decide (column.name = col_name))

/-- The table meta that `UpdateTableMetaForAddField` builds for a partition:
a copy with the request's column appended to `added_column_desc` and the
request's schema. -/
def AddFieldMeta (table_meta : TableMeta) (request : UpdateTableMetaForAddFieldRequest) :
    TableMeta :=
  { table_meta with
    added_column_desc := table_meta.added_column_desc ++ [request.column_desc]
    schema := request.schema }

/-- The directory of partition `(tid, pid)` under a root path. -/
def DbPath (db_root_path : String) (tid pid : Nat) : String :=
  db_root_path ++ "/" ++ toString tid ++ "_" ++ toString pid

/-- The loop of `UpdateTableMetaForAddField` over the partitions of `tid` that
are left, and the answer after it. -/
def AddFieldLoop (hash : String → Nat → Nat) (now : String) (write_ok : String → Bool)
    (request : UpdateTableMetaForAddFieldRequest) :
    List Nat → TabletImpl → MetaDisk → GeneralResponse × TabletImpl × MetaDisk
  | [], s, disk => (⟨Code.enum ReturnCode.kOk, "ok"⟩, s, disk)
  | pid :: rest, s, disk =>
    match s.tables_ request.tid pid with
    | none => AddFieldLoop hash now write_ok request rest s disk
    | some table =>
      if FieldRepeated table.table_meta request.column_desc.name then
        AddFieldLoop hash now write_ok request rest s disk
      else
        let table_meta := AddFieldMeta table.table_meta request
        let s1 := SetTableMetaAndSchema s request.tid pid table_meta request.schema
        let r := ChooseDBRootPath hash s1 request.tid pid table_meta.storage_mode
        if !r.1 then
          (⟨Code.enum ReturnCode.kFailToGetDbRootPath, "fail to get db root path"⟩, s1, disk)
        else
          let db_path := DbPath r.2 request.tid pid
          if !disk.dirs db_path then
            (⟨Code.enum ReturnCode.kTableDbPathIsNotExist, "table db path is not exist"⟩,
              s1, disk)
          else
            let disk1 := (UpdateTableMeta now disk db_path).2
            let w := WriteTableMeta write_ok disk1 db_path table_meta
            if w.1 < 0 then
              (⟨Code.enum ReturnCode.kWriteDataFailed, "write data failed"⟩, s1, w.2)
            else AddFieldLoop hash now write_ok request rest s1 w.2

/-- The handler `TabletImpl::UpdateTableMetaForAddField`: the response, the tablet and the
disk after it. -/
def UpdateTableMetaForAddField (hash : String → Nat → Nat) (now : String)
    (write_ok : String → Bool) (s : TabletImpl) (disk : MetaDisk)
    (request : UpdateTableMetaForAddFieldRequest) :
    GeneralResponse × TabletImpl × MetaDisk :=
  match s.table_pids_ request.tid with
  | none => (⟨Code.enum ReturnCode.kTableIsNotExist, "table doesn\x60t exist"⟩, s, disk)
  | some pids => AddFieldLoop hash now write_ok request pids s disk

/-! The functions `CreateTableInternal`, `CreateDiskTableInternal` and `DeleteTableInternal` -/

/-- The function `TabletImpl::ChooseRecycleBinRootPath(tid, pid, mode, path)`. -/
def ChooseRecycleBinRootPath (hash : String → Nat → Nat) (s : TabletImpl) (tid pid : Nat)
    (mode : StorageMode) : Bool × String :=
  let paths := s.mode_recycle_root_paths_ mode
  if paths.length < 1 then (false, "")
  else if paths.length = 1 then (true, paths.getD 0 "")
  else
    let key := toString tid ++ toString pid
    let index := (hash key SEED % paths.length) % 2 ^ 32
    (true, paths.getD index "")

/-- What the objects built by a create do: `table` is the table made by
`new MemTable(*table_meta)` or `new DiskTable(*table_meta, db_root_path)` once
its `Init()` has returned `true`, and `none` when that call returns `false`;
`loaded_table` is the same for `LoadTable()`; the flags tell whether
`replicator->Init()` and `snapshot_ptr->Init()` return `true`.  The classes are
outside the sources at hand. -/
structure CreateOutcome where
  table : Option Table
  replicator_init : Bool
  snapshot_init : Bool
  loaded_table : Option Table := none
  deriving DecidableEq, Repr

/-- The conversion of an `int32` field to the `uint32_t` locals `tid` and `pid`. -/
def ToUint32 (x : Int) : Nat := (x % 2 ^ 32).toNat

/-- The keys of an inner map after the insertion of `pid`, in ascending order. -/
def InsertPid (pid : Nat) (pids : List Nat) : List Nat :=
  if pid ∈ pids then pids else pids.orderedInsert (fun a b => a ≤ b) pid

/-- The statement `tables_[tid].insert(std::make_pair(pid, table))`: an entry
that is there already is kept. -/
def InsertTable (s : TabletImpl) (tid pid : Nat) (table : Table) : TabletImpl :=
  { s with
    tables_ := fun t p =>
      if t = tid ∧ p = pid then
        match s.tables_ tid pid with
        | some old => some old
        | none => some table
      else s.tables_ t p
    table_pids_ := fun t =>
      if t = tid then some (InsertPid pid ((s.table_pids_ tid).getD [])) else s.table_pids_ t }

/-- The statement `snapshots_[tid].insert(std::make_pair(pid, snapshot))`. -/
def InsertSnapshot (s : TabletImpl) (tid pid : Nat) : TabletImpl :=
  { s with snapshots_ := fun t p => if t = tid ∧ p = pid then true else s.snapshots_ t p }

/-- The statement `replicators_[tid].insert(std::make_pair(pid, replicator))`. -/
def InsertReplicator (s : TabletImpl) (tid pid : Nat) : TabletImpl :=
  { s with replicators_ := fun t p => if t = tid ∧ p = pid then true else s.replicators_ t p }

/-- The block of `DeleteTableInternal` under `spin_mutex_`: the three `erase`
calls, and the removal of inner maps left empty. -/
def EraseTable (s : TabletImpl) (tid pid : Nat) : TabletImpl :=
  { s with
    tables_ := fun t p => if t = tid ∧ p = pid then none else s.tables_ t p
    replicators_ := fun t p => if t = tid ∧ p = pid then false else s.replicators_ t p
    snapshots_ := fun t p => if t = tid ∧ p = pid then false else s.snapshots_ t p
    table_pids_ := fun t =>
      if t = tid then
        let pids := ((s.table_pids_ tid).getD []).erase pid
        if pids.isEmpty then none else some pids
      else s.table_pids_ t }

/-- The function `TabletImpl::CreateTableInternal(table_meta, msg)`: the returned value, the
string assigned to `msg` (if any) and the tablet.  `std::make_shared` does not
return a null pointer, so the test `if (!replicator)` is left out; the leader
term set on the replicator stays inside that object. -/
def CreateTableInternal (hash : String → Nat → Nat) (out : CreateOutcome) (s : TabletImpl)
    (table_meta : TableMeta) : Int × Option String × TabletImpl :=
  let tid := ToUint32 table_meta.tid
  let pid := ToUint32 table_meta.pid
  if (GetTableUnLock s tid pid).isSome then (-1, none, s)
  else
    match out.table with
    | none => (-1, some "fail to init table", s)
    | some table =>
      let r := ChooseDBRootPath hash s tid pid table.table_meta.storage_mode
      if !r.1 then (-1, some "fail to get table db root path", s)
      else if !out.replicator_init then (-1, some "fail init replicator for table", s)
      else if !out.snapshot_init then (-1, some "fail to init snapshot", s)
      else
        (0, none, InsertReplicator (InsertSnapshot (InsertTable s tid pid table) tid pid) tid pid)

/-- The function `TabletImpl::CreateDiskTableInternal(table_meta, is_load, msg)`: the returned
value, the string assigned to `msg` (if any) and the tablet. -/
def CreateDiskTableInternal (hash : String → Nat → Nat) (out : CreateOutcome) (s : TabletImpl)
    (table_meta : TableMeta) (is_load : Bool) : Int × Option String × TabletImpl :=
  let ttl_type :=
    match table_meta.ttl_desc with
    | some ttl_desc => ttl_desc.ttl_type
    | none => table_meta.ttl_type
  if ttl_type = TTLType.kAbsAndLat ∨ ttl_type = TTLType.kAbsOrLat then
    (-1, some "disktable doesn\x27t support abs&&lat, abs||lat in this version", s)
  else
    let tid := ToUint32 table_meta.tid
    let pid := ToUint32 table_meta.pid
    let r := ChooseDBRootPath hash s tid pid table_meta.storage_mode
    if !r.1 then (-1, some "fail to get table db root path", s)
    else
      match (if is_load then out.loaded_table else out.table) with
      | none => (-1, none, s)
      | some table =>
        if (GetTableUnLock s tid pid).isSome then (-1, none, s)
        else
          let s1 := InsertTable s tid pid table
          if !out.snapshot_init then (-1, some "fail to init snapshot", s1)
          else if !out.replicator_init then (-1, some "fail init replicator for table", s1)
          else
            (0, none,
              InsertReplicator (InsertSnapshot (InsertTable s1 tid pid table) tid pid) tid pid)

/-- The function `TabletImpl::DeleteTableInternal(tid, pid, task_ptr)`: the returned value and
the tablet.  After the maps are updated the function only moves or removes the
partition directory and returns `0` on every path; that part, and
`DelAllReplicateNode` on the replicator object, do not touch the tablet. -/
def DeleteTableInternal (hash : String → Nat → Nat) (s : TabletImpl) (tid pid : Nat)
    (task_ptr : Option Nat) : Int × TabletImpl :=
  match GetTableUnLock s tid pid with
  | none => (-1, SetTaskStatus s task_ptr TaskStatus.kFailed)
  | some table =>
    if !(ChooseDBRootPath hash s tid pid table.table_meta.storage_mode).1 then
      (-1, SetTaskStatus s task_ptr TaskStatus.kFailed)
    else if !(ChooseRecycleBinRootPath hash s tid pid table.table_meta.storage_mode).1 then
      (-1, SetTaskStatus s task_ptr TaskStatus.kFailed)
    else (0, SetTaskStatus (EraseTable s tid pid) task_ptr TaskStatus.kDone)

/-- The maps `tables_`, `snapshots_` and `replicators_` hold the same
`(tid, pid)` keys. -/
def MapsAligned (s : TabletImpl) : Prop :=
  ∀ tid pid, ((s.tables_ tid pid).isSome = s.snapshots_ tid pid)
    ∧ (s.snapshots_ tid pid = s.replicators_ tid pid)

/-! The handler `TabletImpl::GetTableFollower` -/

/-- Modelled from the spec: what `GetTableFollower` asks of a `LogReplicator`,
whose class is outside the sources at hand: its offset (`GetOffset`) and the map
from follower endpoint to synced offset that `GetReplicateInfo` fills, in key
order. -/
structure LogReplicator where
  offset : Nat
  replicate_info : List (String × Nat)
  deriving DecidableEq, Repr

/-- The message `FollowerInfo`. -/
structure FollowerInfo where
  endpoint : String
  offset : Nat
  deriving DecidableEq, Repr

/-- The message `GetTableFollowerRequest`. -/
structure GetTableFollowerRequest where
  tid : Nat
  pid : Nat
  deriving DecidableEq, Repr

/-- The message `GetTableFollowerResponse`; a field that was not set is `none`. -/
structure GetTableFollowerResponse where
  code : Option Code := none
  msg : Option String := none
  offset : Option Nat := none
  follower_info : List FollowerInfo := []
  deriving DecidableEq, Repr

/-- The function `TabletImpl::GetReplicator(tid, pid)`; `replicator_of tid pid` is the
object registered in `replicators_` under `(tid, pid)`. -/
def GetReplicator (replicator_of : Nat → Nat → LogReplicator) (s : TabletImpl)
    (tid pid : Nat) : Option LogReplicator :=
  if s.replicators_ tid pid then some (replicator_of tid pid) else none

/-- The handler `TabletImpl::GetTableFollower`, statement by statement on the response. -/
def GetTableFollower (replicator_of : Nat → Nat → LogReplicator) (s : TabletImpl)
    (request : GetTableFollowerRequest) : GetTableFollowerResponse :=
  let response : GetTableFollowerResponse := {}
  match GetTableUnLock s request.tid request.pid with
  | none =>
    { response with
      code := some (Code.enum ReturnCode.kTableIsNotExist), msg := some "table is not exist" }
  | some table =>
    if !table.is_leader then
      { response with
        msg := some "table is follower", code := some (Code.enum ReturnCode.kTableIsFollower) }
    else
      match GetReplicator replicator_of s request.tid request.pid with
      | none =>
        { response with
          msg := some "replicator is not exist"
          code := some (Code.enum ReturnCode.kReplicatorIsNotExist) }
      | some replicator =>
        let response1 := { response with offset := some replicator.offset }
        let info_map := replicator.replicate_info
        let response2 :=
          if info_map.isEmpty then
            { response1 with
              msg := some "has no follower", code := some (Code.enum ReturnCode.kNoFollower) }
          else response1
        let response3 :=
          { response2 with
            follower_info := response2.follower_info
              ++ info_map.map (fun (kv : String × Nat) =>
                  ({ endpoint := kv.1, offset := kv.2 } : FollowerInfo)) }
        { response3 with msg := some "ok", code := some (Code.enum ReturnCode.kOk) }

/-! The function `TabletImpl::CheckTableMeta` -/

/-- The flags `FLAGS_absolute_ttl_max` and `FLAGS_latest_ttl_max` (both
`uint32`). -/
structure MetaFlags where
  absolute_ttl_max : Nat
  latest_ttl_max : Nat
  deriving DecidableEq, Repr

/-- The call `column_map.insert(std::make_pair(name, type))` on a
`std::map<std::string, std::string>` kept as an association list; `find` is
`List.lookup`.  A key that is present keeps its value. -/
def MapInsert (column_map : List (String × String)) (name type : String) :
    List (String × String) :=
  if (column_map.lookup name).isSome then column_map else column_map ++ [(name, type)]

/-- The call `insert(name)` on a `std::set<std::string>` kept as a list without
repetition; `size()` is the length. -/
def SetInsert (set : List String) (name : String) : List String :=
  if name ∈ set then set else set ++ [name]

/-- The message of `CheckTableMeta` for a pair of ttl values over the flags. -/
def TtlPairMsg (flags : MetaFlags) : String :=
  "ttl is greater than conf value. max abs_ttl is " ++ toString flags.absolute_ttl_max
    ++ ", max lat_ttl is " ++ toString flags.latest_ttl_max

/-- The message of `CheckTableMeta` for a single ttl value over its flag. -/
def TtlMsg (flags : MetaFlags) (type : TTLType) : String :=
  "ttl is greater than conf value. max ttl is "
    ++ toString (if type = TTLType.kAbsoluteTime then flags.absolute_ttl_max
        else flags.latest_ttl_max)

/-- The test of a single `ttl` value of `CheckTableMeta` against the flags. -/
def TtlOver (flags : MetaFlags) (type : TTLType) (ttl : Nat) : Bool :=
  decide ((type = TTLType.kAbsoluteTime ∧ flags.absolute_ttl_max < ttl)
    ∨ (type = TTLType.kLatestTime ∧ flags.latest_ttl_max < ttl))

/-- The branch `if (column_desc.is_ts_col())` of the column loop of
`CheckTableMeta`: the message of a `return -1`, or `ts_set` after the branch. -/
def CheckTsCol (flags : MetaFlags) (type : TTLType) (ts_set : List String)
    (column_desc : ColumnDesc) : Except String (List String) :=
  if column_desc.is_ts_col then
    if column_desc.add_ts_idx then
      Except.error ("can not set add_ts_idx and is_ts_col together. column name "
        ++ column_desc.name)
    else if column_desc.type ≠ "int64" ∧ column_desc.type ≠ "uint64"
        ∧ column_desc.type ≠ "timestamp" then
      Except.error "ttl column type must be int64, uint64, timestamp"
    else if column_desc.abs_ttl.isSome ∨ column_desc.lat_ttl.isSome then
      if flags.absolute_ttl_max < column_desc.abs_ttl.getD 0
          ∨ flags.latest_ttl_max < column_desc.lat_ttl.getD 0 then
        Except.error (TtlPairMsg flags)
      else Except.ok (SetInsert ts_set column_desc.name)
    else if column_desc.ttl.isSome ∧ TtlOver flags type (column_desc.ttl.getD 0) = true then
      Except.error (TtlMsg flags type)
    else Except.ok (SetInsert ts_set column_desc.name)
  else Except.ok ts_set

/-- One turn of the loop of `CheckTableMeta` over `column_desc`: the message of
a `return -1`, or `column_map` and `ts_set` after the turn. -/
def CheckColumnDesc (flags : MetaFlags) (type : TTLType)
    (column_map : List (String × String)) (ts_set : List String) (column_desc : ColumnDesc) :
    Except String (List (String × String) × List String) :=
  if (column_map.lookup column_desc.name).isSome then
    Except.error ("has repeated column name " ++ column_desc.name)
  else
    match CheckTsCol flags type ts_set column_desc with
    | Except.error msg => Except.error msg
    | Except.ok ts_set1 =>
      if column_desc.add_ts_idx = true
          ∧ (column_desc.type = "float" ∨ column_desc.type = "double") then
        Except.error "float or double column can not be index"
      else Except.ok (MapInsert column_map column_desc.name column_desc.type, ts_set1)

/-- The loop of `CheckTableMeta` over `column_desc`. -/
def CheckColumns (flags : MetaFlags) (type : TTLType) :
    List ColumnDesc → List (String × String) → List String →
      Except String (List (String × String) × List String)
  | [], column_map, ts_set => Except.ok (column_map, ts_set)
  | column_desc :: rest, column_map, ts_set =>
    match CheckColumnDesc flags type column_map ts_set column_desc with
    | Except.error msg => Except.error msg
    | Except.ok r => CheckColumns flags type rest r.1 r.2

/-- The loop of `CheckTableMeta` over the `col_name` entries of a column key:
the message of a `return -1`, if any. -/
def CheckColName (column_map : List (String × String)) (ts_set : List String) :
    List String → Option String
  | [] => none
  | column_name :: rest =>
    match column_map.lookup column_name with
    | none => some ("not found column name " ++ column_name)
    | some type =>
      if type = "float" ∨ type = "double" then
        some ("float or double column can not be index" ++ column_name)
      else if column_name ∈ ts_set then
        some ("column name in column key can not set ts col. column name " ++ column_name)
      else CheckColName column_map ts_set rest

/-- The branch `if (!has_col)` of `CheckTableMeta`: the message of a
`return -1`, if any. -/
def CheckIndexName (column_map : List (String × String)) (column_key : ColumnKey) :
    Option String :=
  if column_key.col_name.isEmpty then
    match column_map.lookup column_key.index_name with
    | none => some "index must member of columns when column key col name is empty"
    | some type =>
      if type = "float" ∨ type = "double" then
        some "indxe name column type can not float or column"
      else none
  else none

/-- The loop of `CheckTableMeta` over the `ts_name` entries of a column key:
the message of a `return -1`, if any. -/
def CheckTsName (ts_set : List String) : List String → List String → Option String
  | [], _ => none
  | ts_name :: rest, ts_name_set =>
    if ts_name ∉ ts_set then some ("not found ts_name " ++ ts_name)
    else if ts_name ∈ ts_name_set then some ("has repeated ts_name " ++ ts_name)
    else CheckTsName ts_set rest (SetInsert ts_name_set ts_name)

/-- One turn of the loop of `CheckTableMeta` over `column_key`: the message of
a `return -1`, or `index_set` after the turn. -/
def CheckColumnKey (column_map : List (String × String)) (ts_set index_set : List String)
    (column_key : ColumnKey) : Except String (List String) :=
  if column_key.index_name ∈ index_set then
    Except.error ("has repeated index name " ++ column_key.index_name)
  else
    match CheckColName column_map ts_set column_key.col_name with
    | some msg => Except.error msg
    | none =>
      match CheckIndexName column_map column_key with
      | some msg => Except.error msg
      | none =>
        match CheckTsName ts_set column_key.ts_name [] with
        | some msg => Except.error msg
        | none =>
          if 1 < ts_set.length ∧ column_key.ts_name.length = 0 then
            Except.error "ts column num more than one, must set ts name"
          else Except.ok (SetInsert index_set column_key.index_name)

/-- The loop of `CheckTableMeta` over `column_key`: the message of a
`return -1`, if any. -/
def CheckColumnKeys (column_map : List (String × String)) (ts_set : List String) :
    List ColumnKey → List String → Option String
  | [], _ => none
  | column_key :: rest, index_set =>
    match CheckColumnKey column_map ts_set index_set column_key with
    | Except.error msg => some msg
    | Except.ok index_set1 => CheckColumnKeys column_map ts_set rest index_set1

/-- The opening ttl check of `CheckTableMeta`: the message of a `return -1`, or
the local `type`. -/
def CheckTableTtl (flags : MetaFlags) (table_meta : TableMeta) : Except String TTLType :=
  match table_meta.ttl_desc with
  | some ttl_desc =>
    if flags.absolute_ttl_max < ttl_desc.abs_ttl ∨ flags.latest_ttl_max < ttl_desc.lat_ttl then
      Except.error (TtlPairMsg flags)
    else Except.ok ttl_desc.ttl_type
  | none =>
    match table_meta.ttl with
    | some ttl =>
      if TtlOver flags table_meta.ttl_type ttl = true then
        Except.error (TtlMsg flags table_meta.ttl_type)
      else Except.ok table_meta.ttl_type
    | none => Except.ok TTLType.kAbsoluteTime

/-- The function `TabletImpl::CheckTableMeta(table_meta, msg)`: the returned value and `msg`. -/
def CheckTableMeta (flags : MetaFlags) (table_meta : TableMeta) : Int × String :=
  if table_meta.name.utf8ByteSize ≤ 0 then (-1, "table name is empty")
  else if table_meta.tid ≤ 0 then (-1, "tid is zero")
  else
    match CheckTableTtl flags table_meta with
    | Except.error msg => (-1, msg)
    | Except.ok type =>
      match CheckColumns flags type table_meta.column_desc [] [] with
      | Except.error msg => (-1, msg)
      | Except.ok r =>
        if 0 < table_meta.column_key.length then
          match CheckColumnKeys r.1 r.2 table_meta.column_key [] with
          | some msg => (-1, msg)
          | none => (0, "")
        else if 1 < r.2.length then
          (-1, "column_key should be set when has two or more ts columns")
        else (0, "")

/-- A tablet with one memory root, no partition and no file receiver. -/
def emptyTablet : TabletImpl where
  tables_ := fun _ _ => none
  relational_tables_ := fun _ _ => false
  snapshots_ := fun _ _ => false
  replicators_ := fun _ _ => false
  follower_ := false
  task_map_ := []
  file_receiver_map_ := fun _ => none
  saved_files_ := []
  mode_root_paths_ := fun m => if m = StorageMode.kMemory then ["/rtidb/db"] else []
  snapshot_pool_ := []
  task_pool_ := []

/-- The request that ships block `block_id` of the file `MANIFEST` of partition
`(1, 0)`, three bytes long. -/
def manifestBlock (block_id : Nat) (eof : Bool) : SendDataRequest where
  tid := 1
  pid := 0
  storage_mode := none
  file_name := "MANIFEST"
  dir_name := none
  block_id := block_id
  block_size := 3
  eof := eof

/-- The tablet `emptyTablet` after block `0` of `MANIFEST` was sent. -/
def afterBlock0 : TabletImpl :=
  (SendData (fun _ _ => 0) ⟨true, true⟩ emptyTablet (manifestBlock 0 false) "abc").2

/-- The tablet `afterBlock0` after block `1` was sent as well. -/
def afterBlock1 : TabletImpl :=
  (SendData (fun _ _ => 0) ⟨true, true⟩ afterBlock0 (manifestBlock 1 false) "def").2

/-- A tablet whose only partition is the time-series partition `(1, 0)`, with
table `t`, a snapshot and a replicator. -/
def tabletWith (t : Table) : TabletImpl :=
  { emptyTablet with
    tables_ := fun tid pid => if tid = 1 ∧ pid = 0 then some t else none
    snapshots_ := fun tid pid => decide (tid = 1 ∧ pid = 0)
    replicators_ := fun tid pid => decide (tid = 1 ∧ pid = 0)
    table_pids_ := fun tid => if tid = 1 then some [0] else none }

/-- A table meta with the columns `a` (`string`, with `add_ts_idx`) and `f`
(`float`) and the single column key `a`. -/
def metaWithFloat : TableMeta where
  name := "t"
  tid := 1
  column_desc := [{ name := "a", type := "string", add_ts_idx := true },
    { name := "f", type := "float" }]
  column_key := [{ index_name := "a" }]

/-- A table meta with the column `a` (`string`), the ts columns `ts1` (`int64`)
and `ts2` (`timestamp`), and the single column key `a` over both ts columns. -/
def metaWithTwoTs : TableMeta where
  name := "t"
  tid := 1
  column_desc := [{ name := "a", type := "string", add_ts_idx := true },
    { name := "ts1", type := "int64", is_ts_col := true },
    { name := "ts2", type := "timestamp", is_ts_col := true }]
  column_key := [{ index_name := "a", ts_name := ["ts1", "ts2"] }]

/-- A tablet without partitions whose three storage modes each have the single
root `/rtidb/db`. -/
def diskTablet : TabletImpl :=
  { emptyTablet with mode_root_paths_ := fun _ => ["/rtidb/db"] }

/-- The table meta of the disk partition `(1, 0)` on `kHDD`. -/
def diskMeta : TableMeta where
  name := "t"
  tid := 1
  pid := 0
  storage_mode := StorageMode.kHDD

end tablet

namespace catalog

/-! The class `TabletsAccessor` of `src/catalog/client_manager.h` -/

/-- The class `TabletAccessor` as `AddTabletAccessor` sees it: its name
(`GetName`).  The client pointer plays no part there. -/
structure TabletAccessor where
  name : String
  deriving DecidableEq, Repr

/-- The members of `TabletsAccessor`.  The vectors are lists, the
`std::map<std::string, size_t> name_idx_map_` is an association list read with
`List.lookup`, and the `size_t` counters are natural numbers (a vector cannot
hold `2 ^ 64` elements). -/
structure TabletsAccessor where
  rows_cnt_ : Nat
  accessors_ : List TabletAccessor
  assign_accessor_idxs_ : List Nat
  posinfos_ : List (List Nat)
  name_idx_map_ : List (String × Nat)
  deriving DecidableEq, Repr

namespace TabletsAccessor

/-- The constructor `TabletsAccessor()`. -/
def new : TabletsAccessor := ⟨0, [], [], [], []⟩

/-- The method `TabletsAccessor::AddTabletAccessor(accessor)` for a non-null `accessor`. -/
def AddTabletAccessor (t : TabletsAccessor) (accessor : TabletAccessor) : TabletsAccessor :=
  match t.name_idx_map_.lookup accessor.name with
  | none =>
    let accessors := t.accessors_ ++ [accessor]
    { rows_cnt_ := t.rows_cnt_ + 1
      accessors_ := accessors
      name_idx_map_ := t.name_idx_map_ ++ [(accessor.name, accessors.length - 1)]
      posinfos_ := t.posinfos_ ++ [[t.rows_cnt_]]
      assign_accessor_idxs_ := t.assign_accessor_idxs_ ++ [accessors.length - 1] }
  | some idx =>
    { t with
      posinfos_ := t.posinfos_.modify (fun p => p ++ [t.rows_cnt_]) idx
      assign_accessor_idxs_ := t.assign_accessor_idxs_ ++ [idx]
      rows_cnt_ := t.rows_cnt_ + 1 }

/-- A fresh `TabletsAccessor` after the calls `AddTabletAccessor(a)` for the
accessors `a` of the list, in order. -/
def AddAll (accessors : List TabletAccessor) : TabletsAccessor :=
  accessors.foldl AddTabletAccessor new

/-- What holds between the accessors added so far and the members of the
`TabletsAccessor`. -/
structure Invariant (added : List TabletAccessor) (t : TabletsAccessor) : Prop where
  rows : t.rows_cnt_ = added.length
  assign_len : t.assign_accessor_idxs_.length = added.length
  pos_len : t.posinfos_.length = t.accessors_.length
  keys : t.name_idx_map_.map Prod.fst = t.accessors_.map (fun a => a.name)
  nodup : (t.accessors_.map (fun a => a.name)).Nodup
  idx : ∀ n j, t.name_idx_map_.lookup n = some j →
    (t.accessors_[j]?).map (fun a => a.name) = some n
  names : ∀ n, n ∈ t.accessors_.map (fun a => a.name) ↔ n ∈ added.map (fun a => a.name)
  assign : ∀ i, i < added.length → ∃ j, t.assign_accessor_idxs_[i]? = some j
    ∧ (t.accessors_[j]?).map (fun a => a.name) = (added[i]?).map (fun a => a.name)
  pos : ∀ j, j < t.accessors_.length →
    t.posinfos_[j]? = some ((List.range t.rows_cnt_).filter
      (fun i => decide (t.assign_accessor_idxs_[i]? = some j)))

end TabletsAccessor

end catalog

end rtidb

namespace fesql

/-! The function `TransformTableDef` of `src/plan/planner.cc` -/

namespace node

/-- Modelled from the spec: the enumeration `node::DataType`, declared outside
the sources at hand: the seven members that `TransformTableDef` names, and
`kTypeOther` for any other member, with the text `node::DataTypeName` gives
it. -/
inductive DataType where
  | kTypeBool
  | kTypeInt32
  | kTypeInt64
  | kTypeFloat
  | kTypeDouble
  | kTypeTimestamp
  | kTypeString
  | kTypeOther (type_name : String)
  deriving DecidableEq, Repr

/-- Modelled from the spec: the nodes of a `NodePointVector` as
`TransformTableDef` reads them: a `ColumnDefNode` (type `kColumnDesc`) with its
name and type, a `ColumnIndexNode` (type `kColumnIndex`) with its name, keys,
ts column and ttl, and a node of any other type with the text
`node::NameOfSQLNodeType` gives its type. -/
inductive SQLNode where
  | ColumnDefNode (column_name : String) (column_type : DataType)
  | ColumnIndexNode (name : String) (key : List String) (ts : String) (ttl : Int)
  | Other (type_name : String)
  deriving DecidableEq, Repr

end node

namespace type

/-- The members of the enumeration `type::Type` that `TransformTableDef` sets. -/
inductive ColumnType where
  | kBool
  | kInt32
  | kInt64
  | kFloat
  | kDouble
  | kTimestamp
  | kString
  deriving DecidableEq, Repr

/-- The message `type::ColumnDef`; a field that was not set is `none`. -/
structure ColumnDef where
  name : Option String := none
  type : Option ColumnType := none
  deriving DecidableEq, Repr

/-- The message `type::IndexDef`. -/
structure IndexDef where
  name : String
  ttl : List Int
  first_keys : List String
  second_key : Option String
  deriving DecidableEq, Repr

/-- The message `type::TableDef`. -/
structure TableDef where
  name : Option String := none
  columns : List ColumnDef := []
  indexes : List IndexDef := []
  deriving DecidableEq, Repr

end type

namespace error

/-- The error codes that `TransformTableDef` sets. -/
inductive ErrorType where
  | kCreateErrorDuplicationColumnName
  | kCreateErrorDuplicationIndexName
  | kCreateErrorUnSupportColumnType
  | kAnalyserErrorUnSupport
  deriving DecidableEq, Repr

end error

namespace plan

open node type error

/-- The fields `code` and `msg` that a function sets on its `Status` argument. -/
structure Status where
  code : ErrorType
  msg : String
  deriving DecidableEq, Repr

/-- The function `GenerateName(prefix, id)`; `t` is the value `time(&t)` stores. -/
def GenerateName (pre : String) (id : Nat) (t : Nat) : String :=
  pre ++ "_" ++ toString id ++ "_" ++ toString t

/-- The inner `switch (column_def->GetColumnType())` of `TransformTableDef`:
the type set on the column, or `none` for the `default` branch. -/
def ColumnTypeOf (column_type : DataType) : Option ColumnType :=
  match column_type with
  | DataType.kTypeBool => some ColumnType.kBool
  | DataType.kTypeInt32 => some ColumnType.kInt32
  | DataType.kTypeInt64 => some ColumnType.kInt64
  | DataType.kTypeFloat => some ColumnType.kFloat
  | DataType.kTypeDouble => some ColumnType.kDouble
  | DataType.kTypeTimestamp => some ColumnType.kTimestamp
  | DataType.kTypeString => some ColumnType.kString
  | DataType.kTypeOther _ => none

/-- The function `node::DataTypeName` on the types of the `default` branch; it is not
called on the others. -/
def DataTypeName (column_type : DataType) : String :=
  match column_type with
  | DataType.kTypeOther type_name => type_name
  | _ => ""

/-- The locals of `TransformTableDef` and the table under construction.  The
`std::set` locals are lists without repetition. -/
structure TransformState where
  index_names : List String := []
  column_names : List String := []
  table : TableDef := {}
  deriving DecidableEq, Repr

/-- The loop of `TransformTableDef` over `column_desc_list`: the state when the
loop is left, and the status set by a `return` inside the loop (`none` when the
loop runs to its end).  `time id` is the value of `time(&t)` in the call
`GenerateName("INDEX", id)`. -/
def TransformLoop (time : Nat → Nat) : List SQLNode → TransformState →
    TransformState × Option Status
  | [], st => (st, none)
  | SQLNode.ColumnDefNode column_name column_type :: rest, st =>
    if column_name ∈ st.column_names then
      ({ st with table := { st.table with columns := st.table.columns ++ [{}] } },
        some ⟨ErrorType.kCreateErrorDuplicationColumnName,
          "CREATE error: COLUMN NAME " ++ column_name ++ " duplicate"⟩)
    else
      let column_names :=
        if column_name ∈ st.column_names then st.column_names
        else st.column_names ++ [column_name]
      match ColumnTypeOf column_type with
      | some t =>
        TransformLoop time rest
          { st with
            column_names := column_names
            table := { st.table with
              columns := st.table.columns ++ [{ name := some column_name, type := some t }] } }
      | none =>
        ({ st with
            column_names := column_names
            table := { st.table with
              columns := st.table.columns ++ [{ name := some column_name }] } },
          some ⟨ErrorType.kCreateErrorUnSupportColumnType,
            "CREATE error: column type " ++ DataTypeName column_type ++ " is not supported"⟩)
  | SQLNode.ColumnIndexNode name key ts ttl :: rest, st =>
    let name1 :=
      if name.isEmpty then GenerateName "INDEX" st.table.indexes.length
        (time st.table.indexes.length)
      else name
    if name1 ∈ st.index_names then
      (st, some ⟨ErrorType.kCreateErrorDuplicationIndexName,
        "CREATE error: INDEX NAME " ++ name1 ++ " duplicate"⟩)
    else
      let index_names :=
        if name1 ∈ st.index_names then st.index_names else st.index_names ++ [name1]
      let index : IndexDef :=
        { name := name1
          ttl := if ttl ≠ -1 then [ttl] else []
          first_keys := key
          second_key := if ts.isEmpty then none else some ts }
      TransformLoop time rest
        { st with
          index_names := index_names
          table := { st.table with indexes := st.table.indexes ++ [index] } }
  | SQLNode.Other type_name :: _, st =>
    (st, some ⟨ErrorType.kAnalyserErrorUnSupport,
      "can not support " ++ type_name ++ " when CREATE TABLE"⟩)

/-- The function `TransformTableDef(table_name, column_desc_list, table, status)` on a table
that is empty when passed in: the table afterwards, and the status set (`none`
when the function does not touch `status`). -/
def TransformTableDef (time : Nat → Nat) (table_name : String)
    (column_desc_list : List SQLNode) : TableDef × Option Status :=
  match TransformLoop time column_desc_list {} with
  | (st, some status) => (st.table, some status)
  | (st, none) => ({ st.table with name := some table_name }, none)

/-- The column that `TransformTableDef` writes for a column definition of a
supported type. -/
def ColumnOf (n : SQLNode) : Option ColumnDef :=
  match n with
  | SQLNode.ColumnDefNode column_name column_type =>
    some { name := some column_name, type := ColumnTypeOf column_type }
  | _ => none

/-- The link between the locals of `TransformTableDef` and the table under
construction: the names in `column_names` and `index_names` are those of the
columns and indexes of the table, each once. -/
structure TransformLinked (st : TransformState) : Prop where
  columns : st.table.columns.map (fun c => c.name) = st.column_names.map some
  columns_nodup : st.column_names.Nodup
  indexes : st.table.indexes.map (fun i => i.name) = st.index_names
  indexes_nodup : st.index_names.Nodup

/-- The name of a column definition of the list. -/
def ColumnNameOf (n : SQLNode) : Option String :=
  match n with
  | SQLNode.ColumnDefNode column_name _ => some column_name
  | _ => none

/-- The names under which the loop of `TransformTableDef` looks up the indexes of
the list, in order, when it starts with `id` indexes in the table and reaches
each of them: the name given, or for an empty name the one generated from the
number of indexes before. -/
def IndexNamesFrom (time : Nat → Nat) : List SQLNode → Nat → List String
  | [], _ => []
  | SQLNode.ColumnIndexNode name _ _ _ :: rest, id =>
    (if name.isEmpty then GenerateName "INDEX" id (time id) else name)
      :: IndexNamesFrom time rest (id + 1)
  | _ :: rest, id => IndexNamesFrom time rest id

/-- A node for which neither `switch` of `TransformTableDef` takes its `default`
branch: a column definition of one of the seven types, or an index. -/
def Handled (n : SQLNode) : Bool :=
  match n with
  | SQLNode.ColumnDefNode _ column_type => (ColumnTypeOf column_type).isSome
  | SQLNode.ColumnIndexNode _ _ _ _ => true
  | SQLNode.Other _ => false

end plan

end fesql

/-! Theorems -/

namespace rtidb

namespace tablet

open api storage base common

/-! Auxiliary facts about the iterator and the seek functions -/

theorem SeekWithCountLoop_suffix (time : Nat) (type : GetType) (max_cnt : Nat)
    (l : List Entry) (cnt : Nat) :
    (SeekWithCountLoop time type max_cnt l cnt).2.1 <:+ l := by
  induction l generalizing cnt with
  | nil => simp [SeekWithCountLoop]
  | cons e rest ih =>
    cases type <;> simp only [SeekWithCountLoop] <;> split_ifs <;>
      first
        | exact List.suffix_refl _
        | exact (ih _).trans (List.suffix_cons e rest)

theorem Seek_suffix (it : TableIterator) (time : Nat) (type : GetType) :
    (Seek it time type).2.cur <:+ it.entries := by
  cases type <;> simp only [Seek, TableIterator.Seek, TableIterator.SeekToFirst] <;>
    first
      | exact List.dropWhile_suffix _
      | exact List.suffix_refl _

theorem ScanStart_suffix (expire_cnt : Nat) (ttl_type : TTLType) (it : TableIterator)
    (st : Nat) (real_st_type : GetType) :
    (ScanStart expire_cnt ttl_type it st real_st_type).1.cur <:+ it.entries := by
  unfold ScanStart
  split_ifs with h
  · cases ttl_type <;> simp only [SeekWithCount, TableIterator.SeekToFirst] <;>
      first
        | exact Seek_suffix _ _ _
        | exact SeekWithCountLoop_suffix _ _ _ _ _
  · exact List.suffix_refl _

/-- One turn of the scan loop on a valid iterator does one of four things:
leave the loop with the rows collected so far, skip a duplicate, return an
error code, or append the entry and go on. -/
theorem ScanLoop_cons (env : ScanEnv) (expire_time expire_cnt : Nat) (ttl_type : TTLType)
    (limit atleast : Nat) (rd : Bool) (real_et_type : GetType) (real_et : Nat)
    (e : Entry) (rest : List Entry) (cnt last_time : Nat) (tmp : List Entry) (total : Nat) :
    ScanLoop env expire_time expire_cnt ttl_type limit atleast rd real_et_type real_et
        (e :: rest) cnt last_time tmp total = Except.ok (tmp, total)
    ∨ ((ttl_type = TTLType.kAbsoluteTime ∧ rd = true ∧ 0 < tmp.length ∧ last_time = e.ts)
        ∧ ScanLoop env expire_time expire_cnt ttl_type limit atleast rd real_et_type real_et
          (e :: rest) cnt last_time tmp total
          = ScanLoop env expire_time expire_cnt ttl_type limit atleast rd real_et_type real_et
            rest cnt last_time tmp total)
    ∨ (∃ c, (c = -2 ∨ c = -3)
        ∧ ScanLoop env expire_time expire_cnt ttl_type limit atleast rd real_et_type real_et
          (e :: rest) cnt last_time tmp total = Except.error c)
    ∨ (ScanPush env expire_time expire_cnt ttl_type limit atleast rd real_et_type real_et
          e cnt last_time tmp total
        ∧ ScanLoop env expire_time expire_cnt ttl_type limit atleast rd real_et_type real_et
          (e :: rest) cnt last_time tmp total
          = ScanLoop env expire_time expire_cnt ttl_type limit atleast rd real_et_type real_et
            rest ((cnt + 1) % 2 ^ 32)
            (if ttl_type = TTLType.kAbsoluteTime then e.ts else last_time)
            (tmp ++ [e]) ((total + e.size) % 2 ^ 32)) := by
  rw [ScanLoop]
  by_cases h1 : 0 < limit ∧ limit ≤ tmp.length
  · left; rw [if_pos h1]
  rw [if_neg h1]
  by_cases h2 : ttl_type = TTLType.kAbsoluteTime ∧ expire_time ≠ 0 ∧ e.ts ≤ expire_time
  · left; rw [if_pos h2]
  rw [if_neg h2]
  by_cases h3 : ttl_type = TTLType.kAbsoluteTime ∧ rd = true ∧ 0 < tmp.length ∧ last_time = e.ts
  · right; left; rw [if_pos h3]; exact ⟨h3, rfl⟩
  rw [if_neg h3]
  by_cases h4 : ttl_type = TTLType.kLatestTime ∧ expire_cnt ≠ 0 ∧ expire_cnt ≤ cnt
  · left; rw [if_pos h4]
  rw [if_neg h4]
  by_cases h5 : ttl_type = TTLType.kAbsAndLat ∧ (expire_cnt ≠ 0 ∧ expire_cnt ≤ cnt)
      ∧ (expire_time ≠ 0 ∧ e.ts ≤ expire_time)
  · left; rw [if_pos h5]
  rw [if_neg h5]
  by_cases h6 : ttl_type = TTLType.kAbsOrLat ∧ ((expire_cnt ≠ 0 ∧ expire_cnt ≤ cnt)
      ∨ (expire_time ≠ 0 ∧ e.ts ≤ expire_time))
  · left; rw [if_pos h6]
  rw [if_neg h6]
  dsimp only
  by_cases h7 : atleast = 0 ∨ atleast ≤ tmp.length
  · rw [if_pos h7]
    cases hE : EndBound real_et_type e.ts real_et with
    | none => right; right; left; exact ⟨-2, Or.inl rfl, rfl⟩
    | some b =>
      cases b with
      | true => left; rfl
      | false =>
        dsimp only
        by_cases h8 : env.scan_max_bytes_size < (total + e.size) % 2 ^ 32
        · right; right; left; rw [if_pos h8]; exact ⟨-3, Or.inr rfl, rfl⟩
        · right; right; right; rw [if_neg h8]
          exact ⟨⟨h1, h2, h3, h4, h5, h6, fun _ => hE, Nat.le_of_not_lt h8⟩, rfl⟩
  · rw [if_neg h7]
    dsimp only
    by_cases h8 : env.scan_max_bytes_size < (total + e.size) % 2 ^ 32
    · right; right; left; rw [if_pos h8]; exact ⟨-3, Or.inr rfl, rfl⟩
    · right; right; right; rw [if_neg h8]
      exact ⟨⟨h1, h2, h3, h4, h5, h6, fun h => absurd h h7, Nat.le_of_not_lt h8⟩, rfl⟩

/-- The rows of a scan that leaves its loop normally are the rows collected
before, followed by a subsequence of the entries still ahead. -/
theorem ScanLoop_sublist (env : ScanEnv) (expire_time expire_cnt : Nat) (ttl_type : TTLType)
    (limit atleast : Nat) (rd : Bool) (real_et_type : GetType) (real_et : Nat)
    (cur : List Entry) (cnt last_time : Nat) (tmp : List Entry) (total : Nat)
    (rows : List Entry) (t : Nat)
    (h : ScanLoop env expire_time expire_cnt ttl_type limit atleast rd real_et_type real_et
      cur cnt last_time tmp total = Except.ok (rows, t)) :
    ∃ out, rows = tmp ++ out ∧ out.Sublist cur := by
  induction cur generalizing cnt last_time tmp total with
  | nil =>
    simp only [ScanLoop, Except.ok.injEq, Prod.mk.injEq] at h
    exact ⟨[], by simp [h.1], List.Sublist.refl _⟩
  | cons e rest ih =>
    rcases ScanLoop_cons env expire_time expire_cnt ttl_type limit atleast rd real_et_type
      real_et e rest cnt last_time tmp total with hs | ⟨_, hs⟩ | ⟨c, _, hs⟩ | ⟨_, hs⟩
    · rw [hs] at h
      simp only [Except.ok.injEq, Prod.mk.injEq] at h
      exact ⟨[], by simp [h.1], List.nil_sublist _⟩
    · rw [hs] at h
      obtain ⟨out, h1, h2⟩ := ih _ _ _ _ h
      exact ⟨out, h1, h2.cons e⟩
    · rw [hs] at h; exact absurd h (by simp)
    · rw [hs] at h
      obtain ⟨out, h1, h2⟩ := ih _ _ _ _ h
      exact ⟨e :: out, by simp [h1], h2.cons₂ e⟩

/-- The loop of `ScanIndex` returns no other codes than `-2` and `-3`. -/
theorem ScanLoop_error (env : ScanEnv) (expire_time expire_cnt : Nat) (ttl_type : TTLType)
    (limit atleast : Nat) (rd : Bool) (real_et_type : GetType) (real_et : Nat)
    (cur : List Entry) (cnt last_time : Nat) (tmp : List Entry) (total : Nat) (c : Int)
    (h : ScanLoop env expire_time expire_cnt ttl_type limit atleast rd real_et_type real_et
      cur cnt last_time tmp total = Except.error c) :
    c = -2 ∨ c = -3 := by
  induction cur generalizing cnt last_time tmp total with
  | nil => simp [ScanLoop] at h
  | cons e rest ih =>
    rcases ScanLoop_cons env expire_time expire_cnt ttl_type limit atleast rd real_et_type
      real_et e rest cnt last_time tmp total with hs | ⟨_, hs⟩ | ⟨c1, hc, hs⟩ | ⟨_, hs⟩
    · rw [hs] at h; exact absurd h (by simp)
    · rw [hs] at h; exact ih _ _ _ _ h
    · rw [hs] at h
      simp only [Except.error.injEq] at h
      exact h ▸ hc
    · rw [hs] at h; exact ih _ _ _ _ h

/-- When `ScanIndex` returns `0`, its argument checks passed and its rows are
what the loop collected from the start position. -/
theorem ScanIndex_code_zero (env : ScanEnv) (expire_time expire_cnt : Nat) (ttl_type : TTLType)
    (it : TableIterator) (request : ScanRequest)
    (h : (ScanIndex env expire_time expire_cnt ttl_type it request).code = 0) :
    ¬(0 < request.st ∧ (request.st < expire_time ∨ request.st < request.et))
    ∧ ∃ total, ScanLoop env expire_time expire_cnt ttl_type request.limit request.atleast
        request.enable_remove_duplicated_record
        (RealEtType expire_time request.et request.et_type)
        (RealEt expire_time ttl_type request.et)
        (ScanStart expire_cnt ttl_type it request.st (RealStType request.st_type)).1.cur
        (ScanStart expire_cnt ttl_type it request.st (RealStType request.st_type)).2 0 [] 0
      = Except.ok ((ScanIndex env expire_time expire_cnt ttl_type it request).rows, total) := by
  unfold ScanIndex at h ⊢
  dsimp only at h ⊢
  split_ifs at h ⊢ with h1 h2 h3
  · simp at h
  · simp at h
  · simp at h
  · refine ⟨h3, ?_⟩
    split at h <;> rename_i heq
    · have := ScanLoop_error _ _ _ _ _ _ _ _ _ _ _ _ _ _ _ heq
      simp only at h
      omega
    · rw [heq]
      split_ifs at h ⊢
      · simp at h
      · exact ⟨_, rfl⟩

/-! Get with `Eq` after Put -/

/-- On a newest-first sequence that holds an entry with timestamp `t`, seeking
to `t` lands on the first entry that carries `t`. -/
theorem dropWhile_first_eq (l : List Entry) (t : Nat) (hs : NewestFirst l)
    (hex : ∃ e ∈ l, e.ts = t) :
    ∃ e0 rest, l.dropWhile (fun e => decide (t < e.ts)) = e0 :: rest ∧ e0.ts = t
      ∧ l.find? (fun x => x.ts == t) = some e0 := by
  induction l with
  | nil => simp at hex
  | cons x xs ih =>
    obtain ⟨hhead, htail⟩ := List.pairwise_cons.mp hs
    obtain ⟨e, he, het⟩ := hex
    by_cases hx : t < x.ts
    · have hne : e ≠ x := fun h => by subst h; omega
      have hmem : e ∈ xs := by
        rcases List.mem_cons.mp he with h | h
        · exact absurd h hne
        · exact h
      obtain ⟨e0, rest, h1, h2, h3⟩ := ih htail ⟨e, hmem, het⟩
      refine ⟨e0, rest, ?_, h2, ?_⟩
      · rw [List.dropWhile_cons_of_pos (by simpa using hx)]; exact h1
      · rw [List.find?_cons_of_neg _ (by simp; omega)]; exact h3
    · have hxt : x.ts = t := by
        rcases List.mem_cons.mp he with h | h
        · subst h; exact het
        · have := hhead e h; omega
      refine ⟨x, xs, ?_, hxt, ?_⟩
      · rw [List.dropWhile_cons_of_neg (by simpa using hx)]
      · rw [List.find?_cons_of_pos _ (by simp [hxt])]

/-- C1: with `ttl_type = AbsoluteTime`, on a newest-first iterator that holds an
entry `(ts, v)` with `ts > 0` and `ts > expire_time`, `GetIndex` called with
`st = ts`, `st_type = Eq`, `et = 0`, `et_type = Ge` returns code `0` with the
timestamp `ts` and the value of the first entry that carries `ts`; when every
entry with that timestamp holds `v`, the value returned is `v`. -/
theorem C1_get_eq_after_put (expire_time expire_cnt : Nat) (it : TableIterator)
    (ts : Nat) (v : String)
    (hsorted : NewestFirst it.entries) (hmem : (⟨ts, v⟩ : Entry) ∈ it.entries)
    (hpos : 0 < ts) (hlive : expire_time < ts) :
    (∃ e0, it.entries.find? (fun x => x.ts == ts) = some e0
      ∧ GetIndex expire_time expire_cnt TTLType.kAbsoluteTime it
          ⟨0, 0, ts, GetType.kSubKeyEq, 0, GetType.kSubKeyGe⟩ = ⟨0, some (ts, e0.value)⟩)
    ∧ ((∀ x ∈ it.entries, x.ts = ts → x.value = v) →
        GetIndex expire_time expire_cnt TTLType.kAbsoluteTime it
          ⟨0, 0, ts, GetType.kSubKeyEq, 0, GetType.kSubKeyGe⟩ = ⟨0, some (ts, v)⟩) := by
  obtain ⟨e0, rest, h1, h2, h3⟩ :=
    dropWhile_first_eq it.entries ts hsorted ⟨⟨ts, v⟩, hmem, rfl⟩
  have hget : GetIndex expire_time expire_cnt TTLType.kAbsoluteTime it
      ⟨0, 0, ts, GetType.kSubKeyEq, 0, GetType.kSubKeyGe⟩ = ⟨0, some (ts, e0.value)⟩ := by
    have hnlt : ¬ ts < expire_time := by omega
    simp [GetIndex, Seek, TableIterator.Seek, TableIterator.Valid, TableIterator.GetKey,
      TableIterator.GetValue, GetIndexTail, h1, h2, hpos, hnlt]
  refine ⟨⟨e0, h3, hget⟩, fun hall => ?_⟩
  rw [hget, hall e0 (List.mem_of_find?_eq_some h3) h2]

/-- C1 at the entries `(200, "v2")`, `(100, "v1")`: `Get` with `Eq` at `100`
returns `"v1"`. -/
theorem C1_get_eq_after_put_witness :
    NewestFirst (TableIterator.mk0 [⟨200, "v2"⟩, ⟨100, "v1"⟩]).entries
    ∧ (⟨100, "v1"⟩ : Entry) ∈ (TableIterator.mk0 [⟨200, "v2"⟩, ⟨100, "v1"⟩]).entries
    ∧ GetIndex 50 0 TTLType.kAbsoluteTime (TableIterator.mk0 [⟨200, "v2"⟩, ⟨100, "v1"⟩])
        ⟨0, 0, 100, GetType.kSubKeyEq, 0, GetType.kSubKeyGe⟩ = ⟨0, some (100, "v1")⟩ :=
  ⟨by decide, by decide,
    (C1_get_eq_after_put 50 0 (TableIterator.mk0 [⟨200, "v2"⟩, ⟨100, "v1"⟩]) 100 "v1"
      (by decide) (by decide) (by decide) (by decide)).2 (by decide)⟩

/-! Scan: order of the rows and the absolute TTL bound -/

/-- C2: whenever `ScanIndex` returns `0`, the rows it returns form a subsequence,
in iteration order, of the iterator's entries; hence on a newest-first iterator
the rows are newest-first too: a row with a larger timestamp always comes before
a row with a smaller one. -/
theorem C2_scan_rows_in_iteration_order (env : ScanEnv) (expire_time expire_cnt : Nat)
    (ttl_type : TTLType) (it : TableIterator) (request : ScanRequest)
    (h : (ScanIndex env expire_time expire_cnt ttl_type it request).code = 0) :
    (ScanIndex env expire_time expire_cnt ttl_type it request).rows.Sublist it.entries
    ∧ (NewestFirst it.entries →
        (ScanIndex env expire_time expire_cnt ttl_type it request).rows.Pairwise
          (fun a b => b.ts ≤ a.ts)) := by
  obtain ⟨_, total, hloop⟩ := ScanIndex_code_zero env expire_time expire_cnt ttl_type it request h
  obtain ⟨out, h1, h2⟩ := ScanLoop_sublist _ _ _ _ _ _ _ _ _ _ _ _ _ _ _ _ hloop
  have hsub : (ScanIndex env expire_time expire_cnt ttl_type it request).rows.Sublist
      it.entries := by
    rw [h1, List.nil_append]
    exact h2.trans (ScanStart_suffix _ _ _ _ _).sublist
  exact ⟨hsub, fun hs => List.Pairwise.sublist hsub hs⟩

/-- C2 on the entries `300, 200, 100` scanned from the newest. -/
theorem C2_scan_rows_in_iteration_order_witness :
    (ScanIndex ⟨1024, fun _ _ => 0⟩ 0 0 TTLType.kAbsoluteTime
        (TableIterator.mk0 [⟨300, "c"⟩, ⟨200, "b"⟩, ⟨100, "a"⟩])
        ⟨0, 0, 0, 0, 0, GetType.kSubKeyLe, 150, GetType.kSubKeyGe, false⟩).code = 0
    ∧ (ScanIndex ⟨1024, fun _ _ => 0⟩ 0 0 TTLType.kAbsoluteTime
        (TableIterator.mk0 [⟨300, "c"⟩, ⟨200, "b"⟩, ⟨100, "a"⟩])
        ⟨0, 0, 0, 0, 0, GetType.kSubKeyLe, 150, GetType.kSubKeyGe, false⟩).rows.Sublist
        [⟨300, "c"⟩, ⟨200, "b"⟩, ⟨100, "a"⟩] :=
  ⟨by decide,
    (C2_scan_rows_in_iteration_order ⟨1024, fun _ _ => 0⟩ 0 0 TTLType.kAbsoluteTime
      (TableIterator.mk0 [⟨300, "c"⟩, ⟨200, "b"⟩, ⟨100, "a"⟩])
      ⟨0, 0, 0, 0, 0, GetType.kSubKeyLe, 150, GetType.kSubKeyGe, false⟩ (by decide)).1⟩

/-- With the absolute TTL and a non-zero `expire_time`, every row the loop
appends has a timestamp above `expire_time`. -/
theorem ScanLoop_abs_ttl (env : ScanEnv) (expire_time expire_cnt : Nat)
    (limit atleast : Nat) (rd : Bool) (real_et_type : GetType) (real_et : Nat)
    (hexp : 0 < expire_time)
    (cur : List Entry) (cnt last_time : Nat) (tmp : List Entry) (total : Nat)
    (rows : List Entry) (t : Nat)
    (h : ScanLoop env expire_time expire_cnt TTLType.kAbsoluteTime limit atleast rd
      real_et_type real_et cur cnt last_time tmp total = Except.ok (rows, t)) :
    ∃ out, rows = tmp ++ out ∧ ∀ e ∈ out, expire_time < e.ts := by
  induction cur generalizing cnt last_time tmp total with
  | nil =>
    simp only [ScanLoop, Except.ok.injEq, Prod.mk.injEq] at h
    exact ⟨[], by simp [h.1], by simp⟩
  | cons e rest ih =>
    rcases ScanLoop_cons env expire_time expire_cnt TTLType.kAbsoluteTime limit atleast rd
      real_et_type real_et e rest cnt last_time tmp total with hs | ⟨_, hs⟩ | ⟨c, _, hs⟩ | ⟨hp, hs⟩
    · rw [hs] at h
      simp only [Except.ok.injEq, Prod.mk.injEq] at h
      exact ⟨[], by simp [h.1], by simp⟩
    · rw [hs] at h
      exact ih _ _ _ _ h
    · rw [hs] at h; exact absurd h (by simp)
    · rw [hs] at h
      obtain ⟨out, h1, h2⟩ := ih _ _ _ _ h
      refine ⟨e :: out, by simp [h1], ?_⟩
      intro x hx
      rcases List.mem_cons.mp hx with hx | hx
      · subst hx
        have := hp.abs_ok
        simp only [true_and, not_and, not_le] at this
        exact this (by omega)
      · exact h2 x hx

/-- C3: with `ttl_type = AbsoluteTime` and `expire_time > 0`, whenever
`ScanIndex` returns `0` every row it returns has `ts > expire_time`: no entry
with `ts <= expire_time` is visible through Scan. -/
theorem C3_scan_hides_expired (env : ScanEnv) (expire_time expire_cnt : Nat)
    (it : TableIterator) (request : ScanRequest) (hexp : 0 < expire_time)
    (h : (ScanIndex env expire_time expire_cnt TTLType.kAbsoluteTime it request).code = 0) :
    ∀ e ∈ (ScanIndex env expire_time expire_cnt TTLType.kAbsoluteTime it request).rows,
      expire_time < e.ts := by
  obtain ⟨_, total, hloop⟩ :=
    ScanIndex_code_zero env expire_time expire_cnt TTLType.kAbsoluteTime it request h
  obtain ⟨out, h1, h2⟩ := ScanLoop_abs_ttl _ _ _ _ _ _ _ _ hexp _ _ _ _ _ _ _ hloop
  rw [h1, List.nil_append]
  exact h2

/-- C3 on the entries `300, 200, 100` with `expire_time = 150`. -/
theorem C3_scan_hides_expired_witness :
    0 < 150
    ∧ (ScanIndex ⟨1024, fun _ _ => 0⟩ 150 0 TTLType.kAbsoluteTime
        (TableIterator.mk0 [⟨300, "c"⟩, ⟨200, "b"⟩, ⟨100, "a"⟩])
        ⟨0, 0, 0, 0, 0, GetType.kSubKeyLe, 0, GetType.kSubKeyGe, false⟩).code = 0
    ∧ ∀ e ∈ (ScanIndex ⟨1024, fun _ _ => 0⟩ 150 0 TTLType.kAbsoluteTime
        (TableIterator.mk0 [⟨300, "c"⟩, ⟨200, "b"⟩, ⟨100, "a"⟩])
        ⟨0, 0, 0, 0, 0, GetType.kSubKeyLe, 0, GetType.kSubKeyGe, false⟩).rows, 150 < e.ts :=
  ⟨by decide, by decide,
    C3_scan_hides_expired ⟨1024, fun _ _ => 0⟩ 150 0
      (TableIterator.mk0 [⟨300, "c"⟩, ⟨200, "b"⟩, ⟨100, "a"⟩])
      ⟨0, 0, 0, 0, 0, GetType.kSubKeyLe, 0, GetType.kSubKeyGe, false⟩ (by decide) (by decide)⟩

/-! Get and the absolute TTL bound -/

/-- The loop of `SeekWithCount` walks over a prefix of the entries and counts, in 32 bits,
the entries it walks over; with a non-zero budget `max_cnt` the counter never
passes the budget. -/
theorem SeekWithCountLoop_walked (time : Nat) (type : GetType) (max_cnt : Nat)
    (l : List Entry) (cnt : Nat) :
    ∃ pre, l = pre ++ (SeekWithCountLoop time type max_cnt l cnt).2.1
      ∧ (cnt < 2 ^ 32 →
          (SeekWithCountLoop time type max_cnt l cnt).2.2 = (cnt + pre.length) % 2 ^ 32)
      ∧ (0 < max_cnt → max_cnt < 2 ^ 32 → cnt ≤ max_cnt → cnt + pre.length ≤ max_cnt) := by
  induction l generalizing cnt with
  | nil =>
    refine ⟨[], by simp [SeekWithCountLoop], fun h => ?_, fun _ _ h => by simpa using h⟩
    simp only [SeekWithCountLoop, List.length_nil, Nat.add_zero]
    omega
  | cons e rest ih =>
    have stop : ∀ b : Bool, ∃ pre, e :: rest = pre ++ ((b, e :: rest, cnt) : Bool × List Entry × Nat).2.1
        ∧ (cnt < 2 ^ 32 →
            ((b, e :: rest, cnt) : Bool × List Entry × Nat).2.2 = (cnt + pre.length) % 2 ^ 32)
        ∧ (0 < max_cnt → max_cnt < 2 ^ 32 → cnt ≤ max_cnt → cnt + pre.length ≤ max_cnt) := by
      intro b
      refine ⟨[], by simp, fun h => ?_, fun _ _ h => by simpa using h⟩
      simp only [List.length_nil, Nat.add_zero]
      omega
    have step : (cnt < max_cnt ∨ max_cnt = 0) →
        ∃ pre, e :: rest = pre ++ (SeekWithCountLoop time type max_cnt rest
            ((cnt + 1) % 2 ^ 32)).2.1
        ∧ (cnt < 2 ^ 32 →
            (SeekWithCountLoop time type max_cnt rest ((cnt + 1) % 2 ^ 32)).2.2
              = (cnt + pre.length) % 2 ^ 32)
        ∧ (0 < max_cnt → max_cnt < 2 ^ 32 → cnt ≤ max_cnt → cnt + pre.length ≤ max_cnt) := by
      intro hc
      obtain ⟨pre, h1, h2, h3⟩ := ih ((cnt + 1) % 2 ^ 32)
      refine ⟨e :: pre, by rw [List.cons_append, ← h1], fun h => ?_, fun hm0 hm1 hm2 => ?_⟩
      · rw [h2 (Nat.mod_lt _ (by norm_num))]
        simp only [List.length_cons]
        omega
      · have hlt : cnt < max_cnt := by omega
        have := h3 hm0 hm1 (by omega)
        simp only [List.length_cons]
        omega
    cases type <;> simp only [SeekWithCountLoop] <;> split_ifs with hc <;>
      first
        | exact stop _
        | exact step hc

/-- With `LatestTime` or `AbsOrLat` and `expire_cnt = n > 0`, a scan loop entered
at position `pre.length` with `cnt = pre.length` appends only entries that lie
before position `n`. -/
theorem ScanLoop_latest (env : ScanEnv) (expire_time n : Nat) (ttl_type : TTLType)
    (limit atleast : Nat) (rd : Bool) (real_et_type : GetType) (real_et : Nat)
    (httl : ttl_type = TTLType.kLatestTime ∨ ttl_type = TTLType.kAbsOrLat) (hn : 0 < n)
    (cur pre : List Entry) (hfit : n < 2 ^ 32 ∨ (pre ++ cur).length < 2 ^ 32)
    (last_time : Nat) (tmp : List Entry) (total : Nat) (rows : List Entry) (t : Nat)
    (h : ScanLoop env expire_time n ttl_type limit atleast rd real_et_type real_et
      cur pre.length last_time tmp total = Except.ok (rows, t)) :
    ∃ out, rows = tmp ++ out ∧ out.Sublist (cur.take (n - pre.length)) := by
  induction cur generalizing pre last_time tmp total with
  | nil =>
    simp only [ScanLoop, Except.ok.injEq, Prod.mk.injEq] at h
    exact ⟨[], by simp [h.1], List.nil_sublist _⟩
  | cons e rest ih =>
    rcases ScanLoop_cons env expire_time n ttl_type limit atleast rd real_et_type real_et
      e rest pre.length last_time tmp total with hs | ⟨hd, hs⟩ | ⟨c, _, hs⟩ | ⟨hp, hs⟩
    · rw [hs] at h
      simp only [Except.ok.injEq, Prod.mk.injEq] at h
      exact ⟨[], by simp [h.1], List.nil_sublist _⟩
    · rcases httl with httl | httl <;> rw [httl] at hd <;> exact absurd hd.1 (by decide)
    · rw [hs] at h; exact absurd h (by simp)
    · have hlt : pre.length < n := by
        rcases httl with httl | httl
        · have := hp.lat_ok
          simp only [httl, true_and, not_and, not_le] at this
          exact this (by omega)
        · have := hp.orlat_ok
          simp only [httl, true_and, not_or, not_and, not_le] at this
          exact this.1 (by omega)
      have hlen : (pre.length + 1) % 2 ^ 32 = (pre ++ [e]).length := by
        simp only [List.length_append, List.length_cons, List.length_nil] at hfit ⊢
        omega
      rw [hs, hlen] at h
      obtain ⟨out, h1, h2⟩ := ih (pre ++ [e]) (by simpa using hfit) _ _ _ h
      refine ⟨e :: out, by simp [h1], ?_⟩
      have hsplit : n - pre.length = (n - (pre ++ [e]).length) + 1 := by
        simp only [List.length_append, List.length_cons, List.length_nil]
        omega
      rw [hsplit, List.take_succ_cons]
      exact h2.cons₂ e

/-- A scan that does not return `0` returns no rows. -/
theorem ScanIndex_rows_of_code_ne_zero (env : ScanEnv) (expire_time expire_cnt : Nat)
    (ttl_type : TTLType) (it : TableIterator) (request : ScanRequest)
    (h : (ScanIndex env expire_time expire_cnt ttl_type it request).code ≠ 0) :
    (ScanIndex env expire_time expire_cnt ttl_type it request).rows = [] := by
  unfold ScanIndex at h ⊢
  dsimp only at h ⊢
  split_ifs at h ⊢
  · rfl
  · rfl
  · rfl
  · split at h
    · rfl
    · split_ifs at h ⊢
      · rfl
      · exact absurd rfl h

/-- With a count-based TTL the scan enters its loop at some position of the
entry sequence with `cnt` equal to that position. -/
theorem ScanStart_latest (n : Nat) (ttl_type : TTLType) (it : TableIterator) (st : Nat)
    (real_st_type : GetType)
    (httl : ttl_type = TTLType.kLatestTime ∨ ttl_type = TTLType.kAbsOrLat) (hn : 0 < n)
    (hfit : n < 2 ^ 32 ∨ it.entries.length < 2 ^ 32) :
    ∃ pre, it.entries = pre ++ (ScanStart n ttl_type it st real_st_type).1.cur
      ∧ (ScanStart n ttl_type it st real_st_type).2 = pre.length := by
  have hswc : ∃ pre, it.entries = pre ++ (SeekWithCount it st real_st_type (n % 2 ^ 32) 0).2.1.cur
      ∧ (SeekWithCount it st real_st_type (n % 2 ^ 32) 0).2.2 = pre.length := by
    obtain ⟨pre, h1, h2, h3⟩ :=
      SeekWithCountLoop_walked st real_st_type (n % 2 ^ 32) it.entries 0
    refine ⟨pre, h1, ?_⟩
    have h2 := h2 (by norm_num)
    simp only [SeekWithCount, TableIterator.SeekToFirst]
    rw [h2]
    have hle : pre.length ≤ it.entries.length := by
      have := congrArg List.length h1
      simp only [List.length_append] at this
      omega
    rcases hfit with hfit | hfit
    · have := h3 (by omega) (by omega) (by omega)
      omega
    · omega
  unfold ScanStart
  split_ifs with h0
  · rcases httl with httl | httl <;> subst httl <;> exact hswc
  · exact ⟨[], rfl, rfl⟩

/-- C5: with `ttl_type` `LatestTime` or `AbsOrLat` and `expire_cnt = n > 0`, every
row `ScanIndex` returns is one of the `n` newest entries of the iterator, whatever
`st` is (so also when the start is found by `SeekWithCount`), and it returns at
most `n` rows; for the five entries `5000, 4000, 3000, 2000, 1000`, all inside the
absolute window, and `n = 3` it returns exactly `5000, 4000, 3000`.  The counter
`cnt` of the source is a `uint32_t`: `n`, or the number of entries, is taken to
fit 32 bits. -/
theorem C5_scan_latest_n (env : ScanEnv) (expire_time n : Nat) (ttl_type : TTLType)
    (it : TableIterator) (request : ScanRequest)
    (httl : ttl_type = TTLType.kLatestTime ∨ ttl_type = TTLType.kAbsOrLat) (hn : 0 < n)
    (hfit : n < 2 ^ 32 ∨ it.entries.length < 2 ^ 32) :
    (ScanIndex env expire_time n ttl_type it request).rows.Sublist (it.entries.take n)
    ∧ (ScanIndex env expire_time n ttl_type it request).rows.length ≤ n
    ∧ (∀ expire_time1 < 1000, ∀ ttl1,
        ttl1 = TTLType.kLatestTime ∨ ttl1 = TTLType.kAbsOrLat →
        ScanIndex ⟨1024, fun _ _ => 0⟩ expire_time1 3 ttl1
          (TableIterator.mk0
            [⟨5000, "e"⟩, ⟨4000, "d"⟩, ⟨3000, "c"⟩, ⟨2000, "b"⟩, ⟨1000, "a"⟩])
          ⟨0, 0, 0, 0, 0, GetType.kSubKeyLe, 0, GetType.kSubKeyGe, false⟩
        = ⟨0, [⟨5000, "e"⟩, ⟨4000, "d"⟩, ⟨3000, "c"⟩], 3⟩) := by
  have hsub : (ScanIndex env expire_time n ttl_type it request).rows.Sublist
      (it.entries.take n) := by
    by_cases hc : (ScanIndex env expire_time n ttl_type it request).code = 0
    · obtain ⟨_, total, hloop⟩ := ScanIndex_code_zero env expire_time n ttl_type it request hc
      obtain ⟨pre, hpre, hcnt⟩ :=
        ScanStart_latest n ttl_type it request.st (RealStType request.st_type) httl hn hfit
      rw [hcnt] at hloop
      obtain ⟨out, h1, h2⟩ := ScanLoop_latest _ _ _ _ _ _ _ _ _ httl hn _ pre
        (by rw [← hpre]; exact hfit) _ _ _ _ _ hloop
      rw [h1, List.nil_append, hpre, List.take_append_eq_append_take]
      exact h2.trans (List.sublist_append_right _ _)
    · rw [ScanIndex_rows_of_code_ne_zero _ _ _ _ _ _ hc]
      exact List.nil_sublist _
  refine ⟨hsub, ?_, ?_⟩
  · have := hsub.length_le
    simp only [List.length_take] at this
    omega
  · intro expire_time1 hlt ttl1 httl1
    have s1 : (⟨5000, "e"⟩ : Entry).size = 1 := by decide
    have s2 : (⟨4000, "d"⟩ : Entry).size = 1 := by decide
    have s3 : (⟨3000, "c"⟩ : Entry).size = 1 := by decide
    have e1 : ¬ 5000 ≤ expire_time1 := by omega
    have e2 : ¬ 4000 ≤ expire_time1 := by omega
    have e3 : ¬ 3000 ≤ expire_time1 := by omega
    have e4 : ¬ 5000 < expire_time1 := by omega
    have e5 : ¬ 4000 < expire_time1 := by omega
    have e6 : ¬ 3000 < expire_time1 := by omega
    rcases httl1 with h | h <;> subst h <;>
      simp [ScanIndex, ScanStart, ScanLoop, RealEtType, RealEt, RealStType, EndBound,
        TableIterator.mk0, TableIterator.SeekToFirst, s1, s2, s3, e1, e2, e3, e4, e5, e6]

/-- C5 on the five entries `5000, ..., 1000` with `n = 3` under `AbsOrLat`. -/
theorem C5_scan_latest_n_witness :
    (ScanIndex ⟨1024, fun _ _ => 0⟩ 0 3 TTLType.kAbsOrLat
        (TableIterator.mk0
          [⟨5000, "e"⟩, ⟨4000, "d"⟩, ⟨3000, "c"⟩, ⟨2000, "b"⟩, ⟨1000, "a"⟩])
        ⟨0, 0, 0, 0, 4000, GetType.kSubKeyLe, 0, GetType.kSubKeyGe, false⟩).rows.Sublist
      ((TableIterator.mk0
          [⟨5000, "e"⟩, ⟨4000, "d"⟩, ⟨3000, "c"⟩, ⟨2000, "b"⟩, ⟨1000, "a"⟩]).entries.take 3)
    ∧ (ScanIndex ⟨1024, fun _ _ => 0⟩ 0 3 TTLType.kAbsOrLat
        (TableIterator.mk0
          [⟨5000, "e"⟩, ⟨4000, "d"⟩, ⟨3000, "c"⟩, ⟨2000, "b"⟩, ⟨1000, "a"⟩])
        ⟨0, 0, 0, 0, 4000, GetType.kSubKeyLe, 0, GetType.kSubKeyGe, false⟩).rows
      = [⟨4000, "d"⟩, ⟨3000, "c"⟩] :=
  ⟨(C5_scan_latest_n ⟨1024, fun _ _ => 0⟩ 0 3 TTLType.kAbsOrLat
      (TableIterator.mk0
        [⟨5000, "e"⟩, ⟨4000, "d"⟩, ⟨3000, "c"⟩, ⟨2000, "b"⟩, ⟨1000, "a"⟩])
      ⟨0, 0, 0, 0, 4000, GetType.kSubKeyLe, 0, GetType.kSubKeyGe, false⟩
      (Or.inr rfl) (by decide) (Or.inl (by decide))).1,
    by decide⟩

/-! Snapshot file transfer: `SendData` -/

/-- The block stage of `SendData` leaves the configured root directories and
the table map as they are. -/
theorem SendDataBlock_roots (disk : DiskOutcome) (s : TabletImpl)
    (request : SendDataRequest) (attachment : String) (receiver : FileReceiver) :
    (SendDataBlock disk s request attachment receiver).2.mode_root_paths_ = s.mode_root_paths_
    ∧ (SendDataBlock disk s request attachment receiver).2.tables_ = s.tables_ := by
  unfold SendDataBlock
  split_ifs <;> exact ⟨rfl, rfl⟩

/-- The handler `SendData` leaves the configured root directories and the table map as they
are. -/
theorem SendData_roots (hash : String → Nat → Nat) (disk : DiskOutcome) (s : TabletImpl)
    (request : SendDataRequest) (attachment : String) :
    (SendData hash disk s request attachment).2.mode_root_paths_ = s.mode_root_paths_
    ∧ (SendData hash disk s request attachment).2.tables_ = s.tables_ := by
  unfold SendData
  simp only []
  split_ifs with h1 h2 h3 h4
  · exact ⟨rfl, rfl⟩
  · exact ⟨rfl, rfl⟩
  · exact ⟨rfl, rfl⟩
  · exact SendDataBlock_roots _ _ _ _ _
  · split
    · exact ⟨rfl, rfl⟩
    · exact SendDataBlock_roots _ _ _ _ _

/-- C6: for a file receiver whose current block id is `c` and a `SendData` request
routed to it (its root directory resolves and the receiver is the one registered
under the request's key) with `block_id = b >= 1`, `b != c` and `b != c + 1`,
`SendData` answers `kBlockIdMismatch` and leaves the whole tablet state, so also
the staged data and the receiver's block id, as it was.  On a fresh tablet,
after block `0`, block `2` is answered `kBlockIdMismatch` and the receiver stays
at block `0`; block `1` and then block `2` with `eof` are both answered `kOk`,
after which the file is in place with the two blocks. -/
theorem C6_block_id_mismatch (hash : String → Nat → Nat) (disk : DiskOutcome) (s : TabletImpl)
    (request : SendDataRequest) (attachment : String) (receiver : FileReceiver)
    (hroot : (ChooseDBRootPath hash s request.tid request.pid
      (request.storage_mode.getD StorageMode.kMemory)).1 = true)
    (hrecv : s.file_receiver_map_ (CombineKey request) = some receiver)
    (hc : receiver.block_id < 2 ^ 64)
    (h1 : 1 ≤ request.block_id) (h2 : request.block_id ≠ receiver.block_id)
    (h3 : request.block_id ≠ receiver.block_id + 1) :
    SendData hash disk s request attachment
      = (⟨Code.enum ReturnCode.kBlockIdMismatch, "block_id mismatch"⟩, s)
    ∧ ((SendData (fun _ _ => 0) ⟨true, true⟩ emptyTablet (manifestBlock 0 false) "abc").1.code
          = Code.enum ReturnCode.kOk
      ∧ (SendData (fun _ _ => 0) ⟨true, true⟩ afterBlock0 (manifestBlock 2 false) "ghi").1.code
          = Code.enum ReturnCode.kBlockIdMismatch
      ∧ ((SendData (fun _ _ => 0) ⟨true, true⟩ afterBlock0 (manifestBlock 2 false)
            "ghi").2.file_receiver_map_ "1_0_MANIFEST").map (fun r => (r.block_id, r.staged))
          = some (0, [])
      ∧ (SendData (fun _ _ => 0) ⟨true, true⟩ afterBlock0 (manifestBlock 1 false) "def").1.code
          = Code.enum ReturnCode.kOk
      ∧ (SendData (fun _ _ => 0) ⟨true, true⟩ afterBlock1 (manifestBlock 2 true) "ghi").1.code
          = Code.enum ReturnCode.kOk
      ∧ (SendData (fun _ _ => 0) ⟨true, true⟩ afterBlock1 (manifestBlock 2 true)
            "ghi").2.saved_files_
          = [("/rtidb/db/1_0/snapshot/MANIFEST", ["def", "ghi"])]) := by
  refine ⟨?_, by decide⟩
  have hb : request.block_id ≠ 0 := by omega
  have hm : request.block_id ≠ (receiver.block_id + 1) % 2 ^ 64 := by omega
  have h2' : receiver.block_id ≠ request.block_id := fun h => h2 h.symm
  unfold SendData
  simp only [hroot, Bool.not_true, Bool.false_eq_true, if_false, hb, hrecv, SendDataBlock,
    h2', hm, ne_eq, not_false_eq_true, if_true]

/-- C6 on the tablet that received block `0` of `MANIFEST`: block `2` is refused. -/
theorem C6_block_id_mismatch_witness :
    afterBlock0.file_receiver_map_ (CombineKey (manifestBlock 2 false))
      = some ⟨"MANIFEST", "", "/rtidb/db/1_0/snapshot/", 0, []⟩
    ∧ SendData (fun _ _ => 0) ⟨true, true⟩ afterBlock0 (manifestBlock 2 false) "ghi"
      = (⟨Code.enum ReturnCode.kBlockIdMismatch, "block_id mismatch"⟩, afterBlock0) :=
  ⟨by decide,
    (C6_block_id_mismatch (fun _ _ => 0) ⟨true, true⟩ afterBlock0 (manifestBlock 2 false) "ghi"
      ⟨"MANIFEST", "", "/rtidb/db/1_0/snapshot/", 0, []⟩ (by decide) (by decide) (by decide)
      (by decide) (by decide) (by decide)).1⟩

/-- Setting the receiver of a key to what is registered already changes
nothing. -/
theorem SetReceiver_self (s : TabletImpl) (key : String) (r : Option FileReceiver)
    (h : s.file_receiver_map_ key = r) : SetReceiver s key r = s := by
  cases s
  simp only [SetReceiver] at h ⊢
  congr
  funext k
  split_ifs with hk
  · rw [hk, h]
  · rfl

/-- What `SetReceiver` registers is what a lookup of the key finds. -/
theorem SetReceiver_lookup (s : TabletImpl) (key : String) (r : Option FileReceiver) :
    (SetReceiver s key r).file_receiver_map_ key = r := by
  simp [SetReceiver]

/-- C7 (amended): when a `SendData` request has just been answered `kOk` and has
left its receiver registered (it was not an `eof` block that completed the
file), re-sending the identical request is answered `kOk` again and leaves the
whole tablet state as it is, so no data is written; for block `0` this takes the
receiver to initialise again without a file error. -/
theorem C7_resend_is_noop (hash : String → Nat → Nat) (disk disk2 : DiskOutcome)
    (s : TabletImpl) (request : SendDataRequest) (attachment : String)
    (hok : (SendData hash disk s request attachment).1.code = Code.enum ReturnCode.kOk)
    (hkeep : (SendData hash disk s request attachment).2.file_receiver_map_
      (CombineKey request) ≠ none)
    (hinit : request.block_id = 0 → disk2.init_ok = true) :
    SendData hash disk2 (SendData hash disk s request attachment).2 request attachment
      = (⟨Code.enum ReturnCode.kOk, "ok"⟩, (SendData hash disk s request attachment).2) := by
  by_cases hch : (ChooseDBRootPath hash s request.tid request.pid
      (request.storage_mode.getD StorageMode.kMemory)).1 = true
  swap
  · simp [SendData, hch] at hok
  by_cases hb : request.block_id = 0
  · by_cases ht : (GetTableUnLock s request.tid request.pid).isSome = true
    · simp [SendData, hch, hb, ht] at hok
    by_cases hi : disk.init_ok = true
    swap
    · simp [SendData, hch, hb, ht, hi] at hok
    have hfirst : SendData hash disk s request attachment
        = (⟨Code.enum ReturnCode.kOk, "ok"⟩,
          SetReceiver s (CombineKey request)
            (some ((s.file_receiver_map_ (CombineKey request)).getD
              ⟨request.file_name, SendDataDirName request,
                SendDataPath (ChooseDBRootPath hash s request.tid request.pid
                  (request.storage_mode.getD StorageMode.kMemory)).2 request, 0, []⟩).Init)) := by
      simp [SendData, hch, hb, ht, hi, SendDataBlock, FileReceiver.Init]
    rw [hfirst]
    have hi2 := hinit hb
    have hch2 : (ChooseDBRootPath hash
        (SetReceiver s (CombineKey request)
          (some ((s.file_receiver_map_ (CombineKey request)).getD
            ⟨request.file_name, SendDataDirName request,
              SendDataPath (ChooseDBRootPath hash s request.tid request.pid
                (request.storage_mode.getD StorageMode.kMemory)).2 request, 0, []⟩).Init))
        request.tid request.pid (request.storage_mode.getD StorageMode.kMemory)).1 = true := hch
    have ht2 : (GetTableUnLock
        (SetReceiver s (CombineKey request)
          (some ((s.file_receiver_map_ (CombineKey request)).getD
            ⟨request.file_name, SendDataDirName request,
              SendDataPath (ChooseDBRootPath hash s request.tid request.pid
                (request.storage_mode.getD StorageMode.kMemory)).2 request, 0, []⟩).Init))
        request.tid request.pid).isSome = false := by simpa using ht
    unfold SendData
    simp only [hch2, ht2, hi2, hb, SetReceiver_lookup, Option.getD_some, Bool.not_true,
      Bool.false_eq_true, if_false, if_true]
    simp only [SendDataBlock, FileReceiver.Init, hb, if_true, Prod.mk.injEq, true_and]
    exact SetReceiver_self _ _ _ (SetReceiver_lookup _ _ _)
  · cases hl : s.file_receiver_map_ (CombineKey request) with
    | none => simp [SendData, hch, hb, hl] at hok
    | some receiver =>
      have hfirst : SendData hash disk s request attachment
          = SendDataBlock disk s request attachment receiver := by
        simp [SendData, hch, hb, hl]
      rw [hfirst] at hok hkeep ⊢
      unfold SendDataBlock at hok hkeep ⊢
      split_ifs at hok hkeep ⊢ with h1 h2 h3 h4 h5
      · simp [SendData, hch, hb, hl, SendDataBlock, h1]
      · simp at hok
      · simp at hok
      · simp at hok
      · exact absurd (SetReceiver_lookup _ _ _) hkeep
      · have hch2 : (ChooseDBRootPath hash
            (SetReceiver s (CombineKey request)
              (some (receiver.WriteData attachment request.block_id)))
            request.tid request.pid (request.storage_mode.getD StorageMode.kMemory)).1
            = true := hch
        unfold SendData
        simp only [hch2, hb, SetReceiver_lookup, Bool.not_true, Bool.false_eq_true, if_false]
        simp [SendDataBlock, FileReceiver.WriteData]

/-- C7 (amended) on the tablet that received block `0`: block `1` sent twice. -/
theorem C7_resend_is_noop_witness :
    (SendData (fun _ _ => 0) ⟨true, true⟩ afterBlock0 (manifestBlock 1 false) "def").1.code
      = Code.enum ReturnCode.kOk
    ∧ SendData (fun _ _ => 0) ⟨true, true⟩
        (SendData (fun _ _ => 0) ⟨true, true⟩ afterBlock0 (manifestBlock 1 false) "def").2
        (manifestBlock 1 false) "def"
      = (⟨Code.enum ReturnCode.kOk, "ok"⟩,
        (SendData (fun _ _ => 0) ⟨true, true⟩ afterBlock0 (manifestBlock 1 false) "def").2) :=
  ⟨by decide,
    C7_resend_is_noop (fun _ _ => 0) ⟨true, true⟩ ⟨true, true⟩ afterBlock0
      (manifestBlock 1 false) "def" (by decide) (by decide) (by decide)⟩

/-- C7 as stated fails for an `eof` block: on the tablet that received block `0`
of `MANIFEST`, block `1` with `eof` is answered `kOk` and the receiver is erased;
the identical request sent again is answered `kCannotFindReceiver`. -/
theorem C7_counterexample :
    (SendData (fun _ _ => 0) ⟨true, true⟩ afterBlock0 (manifestBlock 1 true) "def").1.code
      = Code.enum ReturnCode.kOk
    ∧ (SendData (fun _ _ => 0) ⟨true, true⟩ afterBlock0 (manifestBlock 1 true)
        "def").2.file_receiver_map_ (CombineKey (manifestBlock 1 true)) = none
    ∧ (SendData (fun _ _ => 0) ⟨true, true⟩
        (SendData (fun _ _ => 0) ⟨true, true⟩ afterBlock0 (manifestBlock 1 true) "def").2
        (manifestBlock 1 true) "def").1
      = ⟨Code.enum ReturnCode.kCannotFindReceiver, "cannot find receiver"⟩ := by
  decide

/-! The lifecycle handlers -/

theorem OnlyTasksChanged_refl (s : TabletImpl) : OnlyTasksChanged s s := rfl

theorem OnlyTasksChanged_tasks (s : TabletImpl) (tm : List TaskInfo) :
    OnlyTasksChanged s { s with task_map_ := tm } := rfl

theorem SetTaskStatus_eq (s : TabletImpl) (task_ptr : Option Nat) (status : TaskStatus) :
    SetTaskStatus s task_ptr status
      = { s with task_map_ := (SetTaskStatus s task_ptr status).task_map_ } := by
  cases task_ptr <;> rfl

/-- An `AddOPTask` that returns `0` has appended the task record, in state
`kDoing`, and changed nothing else. -/
theorem AddOPTask_zero (s : TabletImpl) (ti : TaskInfo) (task_type : TaskType)
    (h : (AddOPTask s ti task_type).1 = 0) :
    AddOPTask s ti task_type
      = (0, { s with task_map_ := s.task_map_ ++ [{ ti with status := TaskStatus.kDoing }] },
          some s.task_map_.length) := by
  unfold AddOPTask at h ⊢
  by_cases h1 : FindTask s ti.op_id ti.task_type = true
  · rw [if_pos h1] at h; simp at h
  · rw [if_neg h1] at h ⊢
    by_cases h2 : ti.task_type ≠ task_type
    · simp [if_pos h2] at h
    · simp only [if_neg h2]

/-- A request whose task is accepted gets past the opening of its handler, with
no change but to the task records. -/
theorem RegisterTask_accepted (s : TabletImpl) (task_info : Option TaskInfo)
    (task_type : TaskType) (h : TaskAccepted s task_info task_type) :
    ∃ tm task_ptr, RegisterTask s task_info task_type
      = Except.ok ({ s with task_map_ := tm }, task_ptr) := by
  cases task_info with
  | none => exact ⟨s.task_map_, none, rfl⟩
  | some ti =>
    have h0 := AddOPTask_zero s ti task_type (h ti rfl)
    simp only [RegisterTask, h0]
    exact ⟨_, _, rfl⟩

theorem SetTaskStatus_tables (s : TabletImpl) (task_ptr : Option Nat)
    (status : TaskStatus) : (SetTaskStatus s task_ptr status).tables_ = s.tables_ := by
  cases task_ptr <;> rfl

/-- The handler `PauseSnapshot` on an existing partition, for a request whose task is
accepted. -/
theorem PauseSnapshot_accepted (s : TabletImpl) (request : GeneralRequest) (t : Table)
    (htable : GetTableUnLock s request.tid request.pid = some t)
    (hp : TaskAccepted s request.task_info TaskType.kPauseSnapshot) :
    ∃ tm task_ptr, PauseSnapshot s request =
      if t.stat = TableStat.kSnapshotPaused then
        (⟨Code.enum ReturnCode.kOk, "ok"⟩,
          SetTaskStatus { s with task_map_ := tm } task_ptr TaskStatus.kDone)
      else if t.stat ≠ TableStat.kNormal then
        (⟨Code.enum ReturnCode.kTableStatusIsNotKnormal, "table status is not kNormal"⟩,
          SetTaskStatus { s with task_map_ := tm } task_ptr TaskStatus.kFailed)
      else
        (⟨Code.enum ReturnCode.kOk, "ok"⟩,
          SetTaskStatus
            (SetTableStat { s with task_map_ := tm } request.tid request.pid
              TableStat.kSnapshotPaused) task_ptr TaskStatus.kDone) := by
  obtain ⟨tm, task_ptr, hreg⟩ := RegisterTask_accepted s request.task_info _ hp
  refine ⟨tm, task_ptr, ?_⟩
  have ht : GetTableUnLock { s with task_map_ := tm } request.tid request.pid = some t := htable
  simp only [PauseSnapshot, hreg, ht]

/-- The handler `RecoverSnapshot` on an existing partition, for a request whose task is
accepted. -/
theorem RecoverSnapshot_accepted (s : TabletImpl) (request : GeneralRequest) (t : Table)
    (htable : GetTableUnLock s request.tid request.pid = some t)
    (hp : TaskAccepted s request.task_info TaskType.kRecoverSnapshot) :
    ∃ tm task_ptr, RecoverSnapshot s request =
      if t.stat = TableStat.kNormal then
        (⟨Code.enum ReturnCode.kOk, "ok"⟩,
          SetTaskStatus { s with task_map_ := tm } task_ptr TaskStatus.kDone)
      else if t.stat ≠ TableStat.kSnapshotPaused then
        (⟨Code.enum ReturnCode.kTableStatusIsNotKsnapshotpaused,
            "table status is not kSnapshotPaused"⟩,
          SetTaskStatus { s with task_map_ := tm } task_ptr TaskStatus.kFailed)
      else
        (⟨Code.enum ReturnCode.kOk, "ok"⟩,
          SetTaskStatus
            (SetTableStat { s with task_map_ := tm } request.tid request.pid
              TableStat.kNormal) task_ptr TaskStatus.kDone) := by
  obtain ⟨tm, task_ptr, hreg⟩ := RegisterTask_accepted s request.task_info _ hp
  refine ⟨tm, task_ptr, ?_⟩
  have ht : GetTableUnLock { s with task_map_ := tm } request.tid request.pid = some t := htable
  simp only [RecoverSnapshot, hreg, ht]

/-- A request whose task `AddOPTask` refuses does not get past the opening of its
handler: `RegisterTask` fails, with no change but to the task records. -/
theorem RegisterTask_refused (s : TabletImpl) (task_info : Option TaskInfo)
    (task_type : TaskType) (h : ¬TaskAccepted s task_info task_type) :
    ∃ s1, RegisterTask s task_info task_type = Except.error s1
      ∧ OnlyTasksChanged s s1 := by
  cases task_info with
  | none => exact absurd (fun ti hti => by cases hti) h
  | some ti =>
    have hne : (AddOPTask s ti task_type).1 ≠ 0 := by
      intro h0
      exact h (fun ti1 hti => by cases hti; exact h0)
    unfold AddOPTask at hne
    simp only [RegisterTask, AddOPTask]
    by_cases h1 : FindTask s ti.op_id ti.task_type = true
    · rw [if_pos h1]
      exact ⟨s, by simp, rfl⟩
    · rw [if_neg h1] at hne ⊢
      by_cases h2 : ti.task_type ≠ task_type
      · simp only [if_pos h2]
        exact ⟨SetTaskStatus { s with task_map_ := s.task_map_ ++ [{ ti with status := TaskStatus.kDoing }] }
          (some s.task_map_.length) TaskStatus.kFailed, by simp, rfl⟩
      · simp [if_neg h2] at hne

theorem OnlyTasksChanged_tables (s s1 : TabletImpl) (h : OnlyTasksChanged s s1) :
    s1.tables_ = s.tables_ := by
  rw [h]

/-- C8 (amended): on an existing partition, a request whose task `AddOPTask`
refuses (an `(op_id, type)` already registered, or a task of another type) is
answered `-1`, "add task failed", by `PauseSnapshot` and by `RecoverSnapshot`
alike, whatever the state, and changes nothing but the task records.  For
requests that carry no task or whose task is registered, the two handlers
realise exactly the edge between `Normal` and `SnapshotPaused`:
`PauseSnapshot` turns `Normal` into `SnapshotPaused`, is an `kOk` no-op on
`SnapshotPaused`, and in `Loading` or `MakingSnapshot` answers
`kTableStatusIsNotKnormal` and leaves the tables as they are; `RecoverSnapshot`
turns `SnapshotPaused` into `Normal`, is an `kOk` no-op on `Normal`, and in
`Loading` or `MakingSnapshot` answers `kTableStatusIsNotKsnapshotpaused` and
leaves the tables as they are; neither touches another partition; and
`PauseSnapshot` followed by `RecoverSnapshot` brings a `Normal` partition back
to `Normal`, all tables being as before. -/
theorem C8_pause_recover_edge (s : TabletImpl) (pause recover : GeneralRequest) (t : Table)
    (htable : GetTableUnLock s pause.tid pause.pid = some t)
    (htid : recover.tid = pause.tid) (hpid : recover.pid = pause.pid) :
    (¬TaskAccepted s pause.task_info TaskType.kPauseSnapshot →
        (PauseSnapshot s pause).1 = ⟨Code.raw (-1), "add task failed"⟩
        ∧ (PauseSnapshot s pause).2.tables_ = s.tables_
        ∧ OnlyTasksChanged s (PauseSnapshot s pause).2)
    ∧ (¬TaskAccepted s recover.task_info TaskType.kRecoverSnapshot →
        (RecoverSnapshot s recover).1 = ⟨Code.raw (-1), "add task failed"⟩
        ∧ (RecoverSnapshot s recover).2.tables_ = s.tables_
        ∧ OnlyTasksChanged s (RecoverSnapshot s recover).2)
    ∧ (TaskAccepted s pause.task_info TaskType.kPauseSnapshot →
        (t.stat = TableStat.kNormal →
          (PauseSnapshot s pause).1 = ⟨Code.enum ReturnCode.kOk, "ok"⟩
          ∧ GetTableUnLock (PauseSnapshot s pause).2 pause.tid pause.pid
              = some { t with stat := TableStat.kSnapshotPaused })
        ∧ (t.stat = TableStat.kSnapshotPaused →
          (PauseSnapshot s pause).1 = ⟨Code.enum ReturnCode.kOk, "ok"⟩
          ∧ (PauseSnapshot s pause).2.tables_ = s.tables_)
        ∧ (t.stat = TableStat.kLoading ∨ t.stat = TableStat.kMakingSnapshot →
          (PauseSnapshot s pause).1
              = ⟨Code.enum ReturnCode.kTableStatusIsNotKnormal, "table status is not kNormal"⟩
          ∧ (PauseSnapshot s pause).2.tables_ = s.tables_)
        ∧ (∀ tid pid, ¬(tid = pause.tid ∧ pid = pause.pid) →
          (PauseSnapshot s pause).2.tables_ tid pid = s.tables_ tid pid))
    ∧ (TaskAccepted s recover.task_info TaskType.kRecoverSnapshot →
        (t.stat = TableStat.kSnapshotPaused →
          (RecoverSnapshot s recover).1 = ⟨Code.enum ReturnCode.kOk, "ok"⟩
          ∧ GetTableUnLock (RecoverSnapshot s recover).2 pause.tid pause.pid
              = some { t with stat := TableStat.kNormal })
        ∧ (t.stat = TableStat.kNormal →
          (RecoverSnapshot s recover).1 = ⟨Code.enum ReturnCode.kOk, "ok"⟩
          ∧ (RecoverSnapshot s recover).2.tables_ = s.tables_)
        ∧ (t.stat = TableStat.kLoading ∨ t.stat = TableStat.kMakingSnapshot →
          (RecoverSnapshot s recover).1
              = ⟨Code.enum ReturnCode.kTableStatusIsNotKsnapshotpaused,
                  "table status is not kSnapshotPaused"⟩
          ∧ (RecoverSnapshot s recover).2.tables_ = s.tables_)
        ∧ (∀ tid pid, ¬(tid = pause.tid ∧ pid = pause.pid) →
          (RecoverSnapshot s recover).2.tables_ tid pid = s.tables_ tid pid))
    ∧ (TaskAccepted s pause.task_info TaskType.kPauseSnapshot →
        TaskAccepted (PauseSnapshot s pause).2 recover.task_info TaskType.kRecoverSnapshot →
        t.stat = TableStat.kNormal →
        (RecoverSnapshot (PauseSnapshot s pause).2 recover).1
            = ⟨Code.enum ReturnCode.kOk, "ok"⟩
        ∧ (RecoverSnapshot (PauseSnapshot s pause).2 recover).2.tables_ = s.tables_) := by
  have htable_r : GetTableUnLock s recover.tid recover.pid = some t := by
    rw [htid, hpid]; exact htable
  have hget : s.tables_ pause.tid pause.pid = some t := htable
  refine ⟨?_, ?_, ?_, ?_, ?_⟩
  · intro hp
    obtain ⟨s1, hreg, hs1⟩ := RegisterTask_refused s pause.task_info _ hp
    have hpause : PauseSnapshot s pause = (⟨Code.raw (-1), "add task failed"⟩, s1) := by
      simp only [PauseSnapshot, hreg]
    rw [hpause]
    exact ⟨rfl, OnlyTasksChanged_tables s s1 hs1, hs1⟩
  · intro hr
    obtain ⟨s1, hreg, hs1⟩ := RegisterTask_refused s recover.task_info _ hr
    have hrec : RecoverSnapshot s recover = (⟨Code.raw (-1), "add task failed"⟩, s1) := by
      simp only [RecoverSnapshot, hreg]
    rw [hrec]
    exact ⟨rfl, OnlyTasksChanged_tables s s1 hs1, hs1⟩
  · intro hp
    obtain ⟨tm, task_ptr, hpause⟩ := PauseSnapshot_accepted s pause t htable hp
    refine ⟨?_, ?_, ?_, ?_⟩
    · intro hs
      rw [hpause]
      simp [SetTaskStatus_tables, hs, GetTableUnLock, SetTableStat, hget]
    · intro hs
      rw [hpause]
      simp [SetTaskStatus_tables, hs]
    · intro hs
      rw [hpause]
      rcases hs with hs | hs <;> simp [SetTaskStatus_tables, hs]
    · intro tid pid hne
      rw [hpause]
      split_ifs <;> simp [SetTaskStatus_tables, SetTableStat, hne]
  · intro hr
    obtain ⟨tm1, task_ptr1, hrec⟩ := RecoverSnapshot_accepted s recover t htable_r hr
    refine ⟨?_, ?_, ?_, ?_⟩
    · intro hs
      rw [hrec]
      simp [SetTaskStatus_tables, hs, GetTableUnLock, SetTableStat, hget, htid, hpid]
    · intro hs
      rw [hrec]
      simp [SetTaskStatus_tables, hs]
    · intro hs
      rw [hrec]
      rcases hs with hs | hs <;> simp [SetTaskStatus_tables, hs]
    · intro tid pid hne
      rw [hrec]
      split_ifs <;> simp [SetTaskStatus_tables, SetTableStat, hne, htid, hpid]
  · intro hp hr2 hs
    obtain ⟨tm, task_ptr, hpause⟩ := PauseSnapshot_accepted s pause t htable hp
    have hmid : GetTableUnLock (PauseSnapshot s pause).2 recover.tid recover.pid
        = some { t with stat := TableStat.kSnapshotPaused } := by
      rw [htid, hpid, hpause]
      simp [SetTaskStatus_tables, hs, GetTableUnLock, SetTableStat, hget]
    obtain ⟨tm2, task_ptr2, hrec2⟩ :=
      RecoverSnapshot_accepted (PauseSnapshot s pause).2 recover _ hmid hr2
    rw [hrec2]
    simp only [reduceCtorEq, if_false, ne_eq, not_true_eq_false, SetTaskStatus_tables, true_and]
    rw [hpause]
    simp only [hs, reduceCtorEq, if_false, ne_eq, not_true_eq_false]
    funext tid pid
    by_cases hk : tid = pause.tid ∧ pid = pause.pid
    · obtain ⟨h1, h2⟩ := hk
      subst h1 h2
      simp [SetTaskStatus_tables, SetTableStat, htid, hpid, hget, ← hs]
    · simp [SetTaskStatus_tables, SetTableStat, htid, hpid, hk]

/-- C8 (amended) on a tablet whose partition `(1, 0)` is `Normal`, with requests
that carry a task each: the pause is answered `kOk` and leaves the partition
`SnapshotPaused`, the recovery after it restores the tables. -/
theorem C8_pause_recover_edge_witness :
    GetTableUnLock (tabletWith { stat := TableStat.kNormal, is_leader := true }) 1 0 = some { stat := TableStat.kNormal, is_leader := true }
    ∧ (PauseSnapshot (tabletWith { stat := TableStat.kNormal, is_leader := true })
        ⟨1, 0, some ⟨7, TaskType.kPauseSnapshot, TaskStatus.kInited⟩, none⟩).1
      = ⟨Code.enum ReturnCode.kOk, "ok"⟩
    ∧ GetTableUnLock (PauseSnapshot (tabletWith { stat := TableStat.kNormal, is_leader := true })
        ⟨1, 0, some ⟨7, TaskType.kPauseSnapshot, TaskStatus.kInited⟩, none⟩).2 1 0
      = some { stat := TableStat.kSnapshotPaused, is_leader := true }
    ∧ (RecoverSnapshot (PauseSnapshot (tabletWith { stat := TableStat.kNormal, is_leader := true })
          ⟨1, 0, some ⟨7, TaskType.kPauseSnapshot, TaskStatus.kInited⟩, none⟩).2
        ⟨1, 0, some ⟨8, TaskType.kRecoverSnapshot, TaskStatus.kInited⟩, none⟩).2.tables_
      = (tabletWith { stat := TableStat.kNormal, is_leader := true }).tables_ :=
  have h := C8_pause_recover_edge (tabletWith { stat := TableStat.kNormal, is_leader := true })
    ⟨1, 0, some ⟨7, TaskType.kPauseSnapshot, TaskStatus.kInited⟩, none⟩
    ⟨1, 0, some ⟨8, TaskType.kRecoverSnapshot, TaskStatus.kInited⟩, none⟩
    { stat := TableStat.kNormal, is_leader := true } (by decide) rfl rfl
  have hp : TaskAccepted (tabletWith { stat := TableStat.kNormal, is_leader := true })
      (some ⟨7, TaskType.kPauseSnapshot, TaskStatus.kInited⟩) TaskType.kPauseSnapshot := by
    intro ti h; cases h; decide
  ⟨by decide, ((h.2.2.1 hp).1 rfl).1, ((h.2.2.1 hp).1 rfl).2,
    (h.2.2.2.2 hp (by intro ti h; cases h; decide) rfl).2⟩

/-- C8 as stated fails: take the tablet whose partition `(1, 0)` is `Normal`
after a `PauseSnapshot` with task `(7, kPauseSnapshot)` and a `RecoverSnapshot`
with task `(8, kRecoverSnapshot)`.  A `PauseSnapshot` request carrying the task
`(7, kPauseSnapshot)` again is answered `-1`, "add task failed", not `kOk`, and
the partition is still `Normal`, not `SnapshotPaused`. -/
theorem C8_counterexample :
    GetTableUnLock
        (RecoverSnapshot
          (PauseSnapshot (tabletWith { stat := TableStat.kNormal, is_leader := true })
            ⟨1, 0, some ⟨7, TaskType.kPauseSnapshot, TaskStatus.kInited⟩, none⟩).2
          ⟨1, 0, some ⟨8, TaskType.kRecoverSnapshot, TaskStatus.kInited⟩, none⟩).2 1 0
      = some { stat := TableStat.kNormal, is_leader := true }
    ∧ (PauseSnapshot
        (RecoverSnapshot
          (PauseSnapshot (tabletWith { stat := TableStat.kNormal, is_leader := true })
            ⟨1, 0, some ⟨7, TaskType.kPauseSnapshot, TaskStatus.kInited⟩, none⟩).2
          ⟨1, 0, some ⟨8, TaskType.kRecoverSnapshot, TaskStatus.kInited⟩, none⟩).2
        ⟨1, 0, some ⟨7, TaskType.kPauseSnapshot, TaskStatus.kInited⟩, none⟩).1
      = ⟨Code.raw (-1), "add task failed"⟩
    ∧ GetTableUnLock
        (PauseSnapshot
          (RecoverSnapshot
            (PauseSnapshot (tabletWith { stat := TableStat.kNormal, is_leader := true })
              ⟨1, 0, some ⟨7, TaskType.kPauseSnapshot, TaskStatus.kInited⟩, none⟩).2
            ⟨1, 0, some ⟨8, TaskType.kRecoverSnapshot, TaskStatus.kInited⟩, none⟩).2
          ⟨1, 0, some ⟨7, TaskType.kPauseSnapshot, TaskStatus.kInited⟩, none⟩).2 1 0
      = some { stat := TableStat.kNormal, is_leader := true }
    ∧ Code.raw (-1) ≠ Code.enum ReturnCode.kOk
    ∧ TableStat.kNormal ≠ TableStat.kSnapshotPaused := by
  decide

/-- C10 (amended): for a time-series partition in state `Loading`, every `Get`,
`Count` and `Traverse` request addressed to it is answered `kTableIsLoading`; a
`Scan`, `Put`, `Delete` or `AppendEntries` request is answered `kTableIsLoading`
unless an earlier check of its handler answers first (`Scan`: `st < et` gives
`kStLessThanEt`; `Put` and `Delete`: a follower cluster gives
`kIsFollowerCluster`, a `Put` with `time = 0` and no `ts_dimensions` gives
`kTsMustBeGreaterThanZero`, a follower partition gives `kTableIsFollower`;
`AppendEntries`: a leader partition outside a follower cluster gives
`kTableIsLeader`).  In every case the handler returns from its opening checks:
it never reaches the part that reads or modifies the table or its binlog. -/
theorem C10_loading_partition (s : TabletImpl) (tid pid : Nat) (t : Table)
    (htable : GetTableUnLock s tid pid = some t) (hload : t.stat = TableStat.kLoading) :
    (∀ r : GetRequest, r.tid = tid → r.pid = pid → Get s r = Dispatch.reply TableIsLoading)
    ∧ (∀ r : CountRequest, r.tid = tid → r.pid = pid →
        Count s r = Dispatch.reply TableIsLoading)
    ∧ (∀ r : TraverseRequest, r.tid = tid → r.pid = pid →
        Traverse s r = Dispatch.reply TableIsLoading)
    ∧ (∀ r : ScanRequest, r.tid = tid → r.pid = pid →
        Scan s r =
          if r.st < r.et then
            Dispatch.reply ⟨Code.enum ReturnCode.kStLessThanEt, "starttime less than endtime"⟩
          else Dispatch.reply TableIsLoading)
    ∧ (∀ r : PutRequest, r.tid = tid → r.pid = pid →
        Put s r =
          if s.follower_ = true then
            Dispatch.reply ⟨Code.enum ReturnCode.kIsFollowerCluster, "is follower cluster"⟩
          else if r.time = 0 ∧ r.ts_dimensions_size = 0 then
            Dispatch.reply
              ⟨Code.enum ReturnCode.kTsMustBeGreaterThanZero, "ts must be greater than zero"⟩
          else if t.is_leader = false then
            Dispatch.reply ⟨Code.enum ReturnCode.kTableIsFollower, "table is follower"⟩
          else Dispatch.reply TableIsLoading)
    ∧ (∀ r : DeleteRequest, r.tid = tid → r.pid = pid →
        Delete s r =
          if s.follower_ = true then
            Dispatch.reply ⟨Code.enum ReturnCode.kIsFollowerCluster, "is follower cluster"⟩
          else if t.is_leader = false then
            Dispatch.reply ⟨Code.enum ReturnCode.kTableIsFollower, "table is follower"⟩
          else Dispatch.reply TableIsLoading)
    ∧ (∀ r : AppendEntriesRequest, r.tid = tid → r.pid = pid →
        AppendEntries s r =
          if s.follower_ = false ∧ t.is_leader = true then
            Dispatch.reply ⟨Code.enum ReturnCode.kTableIsLeader, "table is leader"⟩
          else Dispatch.reply TableIsLoading)
    ∧ ((∀ r : GetRequest, r.tid = tid → r.pid = pid → ∃ resp, Get s r = Dispatch.reply resp)
      ∧ (∀ r : CountRequest, r.tid = tid → r.pid = pid →
          ∃ resp, Count s r = Dispatch.reply resp)
      ∧ (∀ r : TraverseRequest, r.tid = tid → r.pid = pid →
          ∃ resp, Traverse s r = Dispatch.reply resp)
      ∧ (∀ r : ScanRequest, r.tid = tid → r.pid = pid →
          ∃ resp, Scan s r = Dispatch.reply resp)
      ∧ (∀ r : PutRequest, r.tid = tid → r.pid = pid → ∃ resp, Put s r = Dispatch.reply resp)
      ∧ (∀ r : DeleteRequest, r.tid = tid → r.pid = pid →
          ∃ resp, Delete s r = Dispatch.reply resp)
      ∧ (∀ r : AppendEntriesRequest, r.tid = tid → r.pid = pid →
          ∃ resp, AppendEntries s r = Dispatch.reply resp)) := by
  have hget : ∀ r : GetRequest, r.tid = tid → r.pid = pid →
      Get s r = Dispatch.reply TableIsLoading := by
    intro r h1 h2
    simp [Get, h1, h2, htable, hload]
  have hcount : ∀ r : CountRequest, r.tid = tid → r.pid = pid →
      Count s r = Dispatch.reply TableIsLoading := by
    intro r h1 h2
    simp [Count, h1, h2, htable, hload]
  have htrav : ∀ r : TraverseRequest, r.tid = tid → r.pid = pid →
      Traverse s r = Dispatch.reply TableIsLoading := by
    intro r h1 h2
    simp [Traverse, h1, h2, htable, hload]
  have hscan : ∀ r : ScanRequest, r.tid = tid → r.pid = pid →
      Scan s r =
        if r.st < r.et then
          Dispatch.reply ⟨Code.enum ReturnCode.kStLessThanEt, "starttime less than endtime"⟩
        else Dispatch.reply TableIsLoading := by
    intro r h1 h2
    simp [Scan, h1, h2, htable, hload]
  have hput : ∀ r : PutRequest, r.tid = tid → r.pid = pid →
      Put s r =
        if s.follower_ = true then
          Dispatch.reply ⟨Code.enum ReturnCode.kIsFollowerCluster, "is follower cluster"⟩
        else if r.time = 0 ∧ r.ts_dimensions_size = 0 then
          Dispatch.reply
            ⟨Code.enum ReturnCode.kTsMustBeGreaterThanZero, "ts must be greater than zero"⟩
        else if t.is_leader = false then
          Dispatch.reply ⟨Code.enum ReturnCode.kTableIsFollower, "table is follower"⟩
        else Dispatch.reply TableIsLoading := by
    intro r h1 h2
    simp [Put, h1, h2, htable, hload]
  have hdel : ∀ r : DeleteRequest, r.tid = tid → r.pid = pid →
      Delete s r =
        if s.follower_ = true then
          Dispatch.reply ⟨Code.enum ReturnCode.kIsFollowerCluster, "is follower cluster"⟩
        else if t.is_leader = false then
          Dispatch.reply ⟨Code.enum ReturnCode.kTableIsFollower, "table is follower"⟩
        else Dispatch.reply TableIsLoading := by
    intro r h1 h2
    simp [Delete, h1, h2, htable, hload]
  have happ : ∀ r : AppendEntriesRequest, r.tid = tid → r.pid = pid →
      AppendEntries s r =
        if s.follower_ = false ∧ t.is_leader = true then
          Dispatch.reply ⟨Code.enum ReturnCode.kTableIsLeader, "table is leader"⟩
        else Dispatch.reply TableIsLoading := by
    intro r h1 h2
    simp [AppendEntries, h1, h2, htable, hload]
  refine ⟨hget, hcount, htrav, hscan, hput, hdel, happ, ?_, ?_, ?_, ?_, ?_, ?_, ?_⟩
  · intro r h1 h2; exact ⟨_, hget r h1 h2⟩
  · intro r h1 h2; exact ⟨_, hcount r h1 h2⟩
  · intro r h1 h2; exact ⟨_, htrav r h1 h2⟩
  · intro r h1 h2; rw [hscan r h1 h2]; split_ifs <;> exact ⟨_, rfl⟩
  · intro r h1 h2; rw [hput r h1 h2]; split_ifs <;> exact ⟨_, rfl⟩
  · intro r h1 h2; rw [hdel r h1 h2]; split_ifs <;> exact ⟨_, rfl⟩
  · intro r h1 h2; rw [happ r h1 h2]; split_ifs <;> exact ⟨_, rfl⟩

/-- C10 (amended) on a tablet whose leader partition `(1, 0)` is loading: a `Get`
and a well-formed `Put` are both answered `kTableIsLoading`. -/
theorem C10_loading_partition_witness :
    GetTableUnLock (tabletWith { stat := TableStat.kLoading, is_leader := true }) 1 0
      = some { stat := TableStat.kLoading, is_leader := true }
    ∧ Get (tabletWith { stat := TableStat.kLoading, is_leader := true })
        ⟨1, 0, 100, GetType.kSubKeyEq, 0, GetType.kSubKeyGe⟩ = Dispatch.reply TableIsLoading
    ∧ Put (tabletWith { stat := TableStat.kLoading, is_leader := true }) ⟨1, 0, 100, 0⟩
      = Dispatch.reply TableIsLoading :=
  have h := C10_loading_partition (tabletWith { stat := TableStat.kLoading, is_leader := true }) 1 0
    { stat := TableStat.kLoading, is_leader := true } (by decide) rfl
  ⟨by decide, h.1 _ rfl rfl, (h.2.2.2.2.1 ⟨1, 0, 100, 0⟩ rfl rfl).trans (by decide)⟩

/-- C10 as stated fails: on a tablet whose partition `(1, 0)` is a follower in
state `Loading`, a `Put` with `time = 100` is answered `kTableIsFollower`, and a
`Scan` with `st = 1 < et = 2` is answered `kStLessThanEt`; on a loading leader
partition an `AppendEntries` request is answered `kTableIsLeader`.  None of the
three answers is `kTableIsLoading`. -/
theorem C10_counterexample :
    GetTableUnLock (tabletWith { stat := TableStat.kLoading, is_leader := false }) 1 0
      = some { stat := TableStat.kLoading, is_leader := false }
    ∧ Put (tabletWith { stat := TableStat.kLoading, is_leader := false }) ⟨1, 0, 100, 0⟩
      = Dispatch.reply ⟨Code.enum ReturnCode.kTableIsFollower, "table is follower"⟩
    ∧ Scan (tabletWith { stat := TableStat.kLoading, is_leader := false })
        ⟨1, 0, 0, 0, 1, GetType.kSubKeyLe, 2, GetType.kSubKeyGe, false⟩
      = Dispatch.reply ⟨Code.enum ReturnCode.kStLessThanEt, "starttime less than endtime"⟩
    ∧ AppendEntries (tabletWith { stat := TableStat.kLoading, is_leader := true }) ⟨1, 0⟩
      = Dispatch.reply ⟨Code.enum ReturnCode.kTableIsLeader, "table is leader"⟩
    ∧ Code.enum ReturnCode.kTableIsFollower ≠ Code.enum ReturnCode.kTableIsLoading
    ∧ Code.enum ReturnCode.kStLessThanEt ≠ Code.enum ReturnCode.kTableIsLoading
    ∧ Code.enum ReturnCode.kTableIsLeader ≠ Code.enum ReturnCode.kTableIsLoading := by
  decide

/-! The five seek modes -/

/-- Dropping while a test holds stops on the first entry that fails the test. -/
theorem dropWhile_first (q : Entry → Bool) (l : List Entry) (e : Entry) (rest : List Entry)
    (h : l.dropWhile q = e :: rest) :
    ∃ pre, l = pre ++ e :: rest ∧ (∀ x ∈ pre, q x = true) ∧ q e = false := by
  induction l with
  | nil => simp at h
  | cons x xs ih =>
    by_cases hx : q x = true
    · rw [List.dropWhile_cons_of_pos hx] at h
      obtain ⟨pre, h1, h2, h3⟩ := ih h
      refine ⟨x :: pre, by rw [h1, List.cons_append], ?_, h3⟩
      intro y hy
      rcases List.mem_cons.mp hy with hy | hy
      · rw [hy]; exact hx
      · exact h2 y hy
    · rw [List.dropWhile_cons_of_neg hx] at h
      obtain ⟨h1, h2⟩ := List.cons.inj h
      subst h1 h2
      exact ⟨[], rfl, by simp, by simpa using hx⟩

/-- Dropping while a test holds leaves nothing exactly when every entry passes
the test. -/
theorem dropWhile_nil (q : Entry → Bool) (l : List Entry) :
    l.dropWhile q = [] ↔ ∀ x ∈ l, q x = true := by
  induction l with
  | nil => simp
  | cons x xs ih =>
    by_cases hx : q x = true
    · rw [List.dropWhile_cons_of_pos hx, ih]
      simp [hx]
    · rw [List.dropWhile_cons_of_neg hx]
      simp [hx]

/-- C11: on a newest-first entry list, for `1 <= st` (a `uint64_t`), with the
storage iterator's `Seek(t)` resting on the first entry with `ts <= t`:
`TabletImpl::Seek` returns `true` and leaves the iterator on the first entry
with `ts <= st` for mode `Le`, with `ts < st` for mode `Lt` and with `ts = st`
for mode `Eq` whenever such an entry exists, and returns `false` when none
exists. -/
theorem C11_seek_le_lt_eq (it : TableIterator) (st : Nat)
    (hsorted : NewestFirst it.entries) (hst : 1 ≤ st) (hst64 : st < 2 ^ 64) :
    ((∃ e ∈ it.entries, e.ts ≤ st) →
        (Seek it st GetType.kSubKeyLe).1 = true
        ∧ ∃ pre e rest, it.entries = pre ++ e :: rest ∧ (∀ x ∈ pre, ¬ x.ts ≤ st) ∧ e.ts ≤ st
            ∧ (Seek it st GetType.kSubKeyLe).2.cur = e :: rest)
    ∧ ((¬∃ e ∈ it.entries, e.ts ≤ st) → (Seek it st GetType.kSubKeyLe).1 = false)
    ∧ ((∃ e ∈ it.entries, e.ts < st) →
        (Seek it st GetType.kSubKeyLt).1 = true
        ∧ ∃ pre e rest, it.entries = pre ++ e :: rest ∧ (∀ x ∈ pre, ¬ x.ts < st) ∧ e.ts < st
            ∧ (Seek it st GetType.kSubKeyLt).2.cur = e :: rest)
    ∧ ((¬∃ e ∈ it.entries, e.ts < st) → (Seek it st GetType.kSubKeyLt).1 = false)
    ∧ ((∃ e ∈ it.entries, e.ts = st) →
        (Seek it st GetType.kSubKeyEq).1 = true
        ∧ ∃ pre e rest, it.entries = pre ++ e :: rest ∧ (∀ x ∈ pre, ¬ x.ts = st) ∧ e.ts = st
            ∧ (Seek it st GetType.kSubKeyEq).2.cur = e :: rest)
    ∧ ((¬∃ e ∈ it.entries, e.ts = st) → (Seek it st GetType.kSubKeyEq).1 = false) := by
  have hpred : (st + 2 ^ 64 - 1) % 2 ^ 64 = st - 1 := by omega
  -- the position after the storage seek to `t`, when some entry has `ts <= t`
  have found : ∀ t, (∃ e ∈ it.entries, e.ts ≤ t) →
      ∃ pre e rest, it.entries = pre ++ e :: rest ∧ (∀ x ∈ pre, ¬ x.ts ≤ t) ∧ e.ts ≤ t
        ∧ it.entries.dropWhile (fun e => decide (t < e.ts)) = e :: rest := by
    intro t hex
    cases hd : it.entries.dropWhile (fun e => decide (t < e.ts)) with
    | nil =>
      obtain ⟨e, he, het⟩ := hex
      have := (dropWhile_nil _ _).mp hd e he
      simp only [decide_eq_true_eq] at this
      omega
    | cons e rest =>
      obtain ⟨pre, h1, h2, h3⟩ := dropWhile_first _ _ _ _ hd
      refine ⟨pre, e, rest, h1, ?_, ?_, rfl⟩
      · intro x hx
        have := h2 x hx
        simp only [decide_eq_true_eq] at this
        omega
      · simp only [decide_eq_false_iff_not] at h3
        omega
  have missing : ∀ t, (¬∃ e ∈ it.entries, e.ts ≤ t) →
      it.entries.dropWhile (fun e => decide (t < e.ts)) = [] := by
    intro t hno
    rw [dropWhile_nil]
    intro x hx
    simp only [decide_eq_true_eq]
    by_contra hc
    exact hno ⟨x, hx, by omega⟩
  have hlt : Seek it st GetType.kSubKeyLt = Seek it (st - 1) GetType.kSubKeyLe := by
    simp only [Seek, hpred]
  have le_found : ∀ t, (∃ e ∈ it.entries, e.ts ≤ t) →
      (Seek it t GetType.kSubKeyLe).1 = true
      ∧ ∃ pre e rest, it.entries = pre ++ e :: rest ∧ (∀ x ∈ pre, ¬ x.ts ≤ t) ∧ e.ts ≤ t
          ∧ (Seek it t GetType.kSubKeyLe).2.cur = e :: rest := by
    intro t hex
    obtain ⟨pre, e, rest, h1, h2, h3, h4⟩ := found t hex
    refine ⟨?_, pre, e, rest, h1, h2, h3, ?_⟩
    · simp [Seek, TableIterator.Seek, TableIterator.Valid, h4]
    · simp [Seek, TableIterator.Seek, h4]
  have le_missing : ∀ t, (¬∃ e ∈ it.entries, e.ts ≤ t) →
      (Seek it t GetType.kSubKeyLe).1 = false := by
    intro t hno
    simp [Seek, TableIterator.Seek, TableIterator.Valid, missing t hno]
  refine ⟨le_found st, le_missing st, ?_, ?_, ?_, ?_⟩
  · intro hex
    have hex1 : ∃ e ∈ it.entries, e.ts ≤ st - 1 := by
      obtain ⟨e, he, het⟩ := hex
      exact ⟨e, he, by omega⟩
    obtain ⟨hv, pre, e, rest, h1, h2, h3, h4⟩ := le_found (st - 1) hex1
    rw [hlt]
    refine ⟨hv, pre, e, rest, h1, ?_, by omega, h4⟩
    intro x hx
    have := h2 x hx
    omega
  · intro hno
    have hno1 : ¬∃ e ∈ it.entries, e.ts ≤ st - 1 := by
      rintro ⟨e, he, het⟩
      exact hno ⟨e, he, by omega⟩
    rw [hlt]
    exact le_missing (st - 1) hno1
  · intro hex
    obtain ⟨e0, rest, h1, h2, _⟩ := dropWhile_first_eq it.entries st hsorted hex
    obtain ⟨pre, h3, h4, _⟩ := dropWhile_first _ _ _ _ h1
    refine ⟨?_, pre, e0, rest, h3, ?_, h2, ?_⟩
    · simp [Seek, TableIterator.Seek, TableIterator.Valid, TableIterator.GetKey, h1, h2]
    · intro x hx
      have := h4 x hx
      simp only [decide_eq_true_eq] at this
      omega
    · simp [Seek, TableIterator.Seek, h1]
  · intro hno
    cases hd : it.entries.dropWhile (fun e => decide (st < e.ts)) with
    | nil => simp [Seek, TableIterator.Seek, TableIterator.Valid, hd]
    | cons e rest =>
      obtain ⟨pre, h1, _, _⟩ := dropWhile_first _ _ _ _ hd
      have hne : e.ts ≠ st := fun hc => hno ⟨e, by rw [h1]; simp, hc⟩
      simp [Seek, TableIterator.Seek, TableIterator.Valid, TableIterator.GetKey, hd, hne]

/-- C11 on the entries `300, 200, 200, 100` sought at `200` and `250`. -/
theorem C11_seek_le_lt_eq_witness :
    NewestFirst (TableIterator.mk0 [⟨300, "d"⟩, ⟨200, "c"⟩, ⟨200, "b"⟩, ⟨100, "a"⟩]).entries
    ∧ (Seek (TableIterator.mk0 [⟨300, "d"⟩, ⟨200, "c"⟩, ⟨200, "b"⟩, ⟨100, "a"⟩]) 200
        GetType.kSubKeyLt).1 = true
    ∧ (Seek (TableIterator.mk0 [⟨300, "d"⟩, ⟨200, "c"⟩, ⟨200, "b"⟩, ⟨100, "a"⟩]) 200
        GetType.kSubKeyLt).2.cur = [⟨100, "a"⟩]
    ∧ (Seek (TableIterator.mk0 [⟨300, "d"⟩, ⟨200, "c"⟩, ⟨200, "b"⟩, ⟨100, "a"⟩]) 250
        GetType.kSubKeyEq).1 = false :=
  have h := C11_seek_le_lt_eq
    (TableIterator.mk0 [⟨300, "d"⟩, ⟨200, "c"⟩, ⟨200, "b"⟩, ⟨100, "a"⟩]) 200
    (by decide) (by decide) (by decide)
  have h2 := C11_seek_le_lt_eq
    (TableIterator.mk0 [⟨300, "d"⟩, ⟨200, "c"⟩, ⟨200, "b"⟩, ⟨100, "a"⟩]) 250
    (by decide) (by decide) (by decide)
  ⟨by decide, (h.2.2.1 ⟨⟨100, "a"⟩, by decide, by decide⟩).1, by decide,
    h2.2.2.2.2.2 (by decide)⟩

/-- C13: for every `ttl_type`, `expire_time`, `expire_cnt`, `et` and `et_type`,
`GetIndex` called with `st = 0` and `st_type = Ge` on an iterator over a non-empty
entry sequence returns code `0` with the first (newest) entry; with the entries
`(200, "v2")`, `(100, "v1")` it yields `ts = 200` and the value `"v2"`. -/
theorem C13_get_newest (expire_time expire_cnt : Nat) (ttl_type : TTLType)
    (tid pid et : Nat) (et_type : GetType) (e : Entry) (rest cur : List Entry) :
    GetIndex expire_time expire_cnt ttl_type ⟨e :: rest, cur⟩
        ⟨tid, pid, 0, GetType.kSubKeyGe, et, et_type⟩ = ⟨0, some (e.ts, e.value)⟩
    ∧ GetIndex expire_time expire_cnt ttl_type
        (TableIterator.mk0 [⟨200, "v2"⟩, ⟨100, "v1"⟩])
        ⟨tid, pid, 0, GetType.kSubKeyGe, et, et_type⟩ = ⟨0, some (200, "v2")⟩ := by
  have key : ∀ (e : Entry) (rest cur : List Entry),
      GetIndex expire_time expire_cnt ttl_type ⟨e :: rest, cur⟩
        ⟨tid, pid, 0, GetType.kSubKeyGe, et, et_type⟩ = ⟨0, some (e.ts, e.value)⟩ := by
    intro e rest cur
    simp [GetIndex, GetIndexTail, TableIterator.SeekToFirst, TableIterator.Valid,
      TableIterator.GetKey, TableIterator.GetValue]
  exact ⟨key e rest cur, key _ _ _⟩

/-! Scan: the ordering of `st` and `et`, and the start from the newest entry -/

/-- Without duplicate removal the rows of a scan that leaves its loop normally
are the rows collected before, followed by a prefix of the entries ahead. -/
theorem ScanLoop_no_dup_removal (env : ScanEnv) (expire_time expire_cnt : Nat)
    (ttl_type : TTLType) (limit atleast : Nat) (real_et_type : GetType) (real_et : Nat)
    (cur : List Entry) (cnt last_time : Nat) (tmp : List Entry) (total : Nat)
    (rows : List Entry) (t : Nat)
    (h : ScanLoop env expire_time expire_cnt ttl_type limit atleast false real_et_type real_et
      cur cnt last_time tmp total = Except.ok (rows, t)) :
    ∃ out, rows = tmp ++ out ∧ out <+: cur := by
  induction cur generalizing cnt last_time tmp total with
  | nil =>
    simp only [ScanLoop, Except.ok.injEq, Prod.mk.injEq] at h
    exact ⟨[], by simp [h.1], List.prefix_refl _⟩
  | cons e rest ih =>
    rcases ScanLoop_cons env expire_time expire_cnt ttl_type limit atleast false real_et_type
      real_et e rest cnt last_time tmp total with hs | ⟨hd, hs⟩ | ⟨c, _, hs⟩ | ⟨_, hs⟩
    · rw [hs] at h
      simp only [Except.ok.injEq, Prod.mk.injEq] at h
      exact ⟨[], by simp [h.1], List.nil_prefix⟩
    · exact absurd hd.2.1 (by decide)
    · rw [hs] at h; exact absurd h (by simp)
    · rw [hs] at h
      obtain ⟨out, h1, h2⟩ := ih _ _ _ _ h
      exact ⟨e :: out, by simp [h1], (List.prefix_cons_inj e).mpr h2⟩

/-- C14 (amended): every `Scan` request with `st < et` (also `st = 0` with
`et > 0`) is answered `kStLessThanEt` by the handler before any table is looked
up.  `ScanIndex` rejects every request with `st > 0` and `st < et` without rows:
it returns `-1` when `st_type` is `Eq`, `Le` or `Lt`, and `-2` when `st_type` is
`Ge` or `Gt` (unless `atleast > limit != 0` has given `-1` before).  For `st = 0`
it starts from the newest entry, so that with duplicate removal off its rows are
a prefix of the iterator's entry sequence. -/
theorem C14_scan_st_et (env : ScanEnv) (expire_time expire_cnt : Nat) (ttl_type : TTLType)
    (it : TableIterator) (s : TabletImpl) (request : ScanRequest) :
    (request.st < request.et →
        Scan s request = Dispatch.reply
          ⟨Code.enum ReturnCode.kStLessThanEt, "starttime less than endtime"⟩)
    ∧ (0 < request.st → request.st < request.et →
        (ScanIndex env expire_time expire_cnt ttl_type it request).rows = []
        ∧ ((ScanIndex env expire_time expire_cnt ttl_type it request).code = -1
          ∨ (ScanIndex env expire_time expire_cnt ttl_type it request).code = -2)
        ∧ (request.st_type = GetType.kSubKeyEq ∨ request.st_type = GetType.kSubKeyLe
            ∨ request.st_type = GetType.kSubKeyLt →
          (ScanIndex env expire_time expire_cnt ttl_type it request).code = -1)
        ∧ (request.st_type = GetType.kSubKeyGe ∨ request.st_type = GetType.kSubKeyGt →
          ¬(request.limit < request.atleast ∧ request.limit ≠ 0) →
          (ScanIndex env expire_time expire_cnt ttl_type it request).code = -2))
    ∧ (request.st = 0 → request.enable_remove_duplicated_record = false →
        (ScanIndex env expire_time expire_cnt ttl_type it request).rows <+: it.entries) := by
  refine ⟨?_, ?_, ?_⟩
  · intro h
    simp [Scan, h]
  · intro h0 hlt
    have hrej : 0 < request.st ∧ (request.st < expire_time ∨ request.st < request.et) :=
      ⟨h0, Or.inr hlt⟩
    unfold ScanIndex
    dsimp only
    by_cases h1 : request.limit < request.atleast ∧ request.limit ≠ 0
    · rw [if_pos h1]
      refine ⟨rfl, Or.inl rfl, fun _ => rfl, fun _ hn => absurd h1 hn⟩
    · rw [if_neg h1]
      by_cases h2 : request.st_type ≠ GetType.kSubKeyEq ∧ request.st_type ≠ GetType.kSubKeyLe
          ∧ request.st_type ≠ GetType.kSubKeyLt
      · rw [if_pos h2]
        refine ⟨rfl, Or.inr rfl, ?_, fun _ _ => rfl⟩
        rintro (hc | hc | hc)
        · exact absurd hc h2.1
        · exact absurd hc h2.2.1
        · exact absurd hc h2.2.2
      · rw [if_neg h2, if_pos hrej]
        refine ⟨rfl, Or.inl rfl, fun _ => rfl, ?_⟩
        rintro (hc | hc) _ <;> exact absurd (by rw [hc]; decide) h2
  · intro h0 hrd
    by_cases hc : (ScanIndex env expire_time expire_cnt ttl_type it request).code = 0
    · obtain ⟨_, total, hloop⟩ :=
        ScanIndex_code_zero env expire_time expire_cnt ttl_type it request hc
      have hstart : ScanStart expire_cnt ttl_type it request.st (RealStType request.st_type)
          = (it.SeekToFirst, 0) := by
        simp [ScanStart, h0]
      rw [hstart, hrd] at hloop
      obtain ⟨out, h1, h2⟩ := ScanLoop_no_dup_removal _ _ _ _ _ _ _ _ _ _ _ _ _ _ _ hloop
      rw [h1, List.nil_append]
      exact h2
    · rw [ScanIndex_rows_of_code_ne_zero _ _ _ _ _ _ hc]
      exact List.nil_prefix

/-- C14 (amended) on the entries `300, 200, 100`: a scan from `st = 0` down to
`et = 150` returns the prefix `300, 200`, and a scan with `st = 100 < et = 150`
is rejected with `-1`. -/
theorem C14_scan_st_et_witness :
    (ScanIndex ⟨1024, fun _ _ => 0⟩ 0 0 TTLType.kAbsoluteTime
        (TableIterator.mk0 [⟨300, "c"⟩, ⟨200, "b"⟩, ⟨100, "a"⟩])
        ⟨0, 0, 0, 0, 0, GetType.kSubKeyLe, 150, GetType.kSubKeyGe, false⟩).rows
      = [⟨300, "c"⟩, ⟨200, "b"⟩]
    ∧ (ScanIndex ⟨1024, fun _ _ => 0⟩ 0 0 TTLType.kAbsoluteTime
        (TableIterator.mk0 [⟨300, "c"⟩, ⟨200, "b"⟩, ⟨100, "a"⟩])
        ⟨0, 0, 0, 0, 0, GetType.kSubKeyLe, 150, GetType.kSubKeyGe, false⟩).rows
      <+: (TableIterator.mk0 [⟨300, "c"⟩, ⟨200, "b"⟩, ⟨100, "a"⟩]).entries
    ∧ (ScanIndex ⟨1024, fun _ _ => 0⟩ 0 0 TTLType.kAbsoluteTime
        (TableIterator.mk0 [⟨300, "c"⟩, ⟨200, "b"⟩, ⟨100, "a"⟩])
        ⟨0, 0, 0, 0, 100, GetType.kSubKeyLe, 150, GetType.kSubKeyGe, false⟩).code = -1 :=
  ⟨by decide,
    (C14_scan_st_et ⟨1024, fun _ _ => 0⟩ 0 0 TTLType.kAbsoluteTime
      (TableIterator.mk0 [⟨300, "c"⟩, ⟨200, "b"⟩, ⟨100, "a"⟩]) emptyTablet
      ⟨0, 0, 0, 0, 0, GetType.kSubKeyLe, 150, GetType.kSubKeyGe, false⟩).2.2 rfl rfl,
    ((C14_scan_st_et ⟨1024, fun _ _ => 0⟩ 0 0 TTLType.kAbsoluteTime
      (TableIterator.mk0 [⟨300, "c"⟩, ⟨200, "b"⟩, ⟨100, "a"⟩]) emptyTablet
      ⟨0, 0, 0, 0, 100, GetType.kSubKeyLe, 150, GetType.kSubKeyGe, false⟩).2.1
        (by decide) (by decide)).2.2.1 (Or.inr (Or.inl rfl))⟩

/-- C14 as stated fails for the code of `ScanIndex`: a request with `st = 1`,
`et = 2` and `st_type = Ge` has `st > 0` and `st < et`, and `ScanIndex` returns
`-2`, not `-1`, because the start type is checked first. -/
theorem C14_counterexample :
    0 < (⟨0, 0, 0, 0, 1, GetType.kSubKeyGe, 2, GetType.kSubKeyGe, false⟩ : ScanRequest).st
    ∧ (⟨0, 0, 0, 0, 1, GetType.kSubKeyGe, 2, GetType.kSubKeyGe, false⟩ : ScanRequest).st
      < (⟨0, 0, 0, 0, 1, GetType.kSubKeyGe, 2, GetType.kSubKeyGe, false⟩ : ScanRequest).et
    ∧ (ScanIndex ⟨1024, fun _ _ => 0⟩ 0 0 TTLType.kAbsoluteTime
        (TableIterator.mk0 [⟨300, "c"⟩, ⟨200, "b"⟩, ⟨100, "a"⟩])
        ⟨0, 0, 0, 0, 1, GetType.kSubKeyGe, 2, GetType.kSubKeyGe, false⟩).code = -2 := by
  decide

/-! Scan and the byte budget `scan_max_bytes_size` -/

/-- When the accumulator `total_block_size` holds the size of the rows collected
so far, stays within the budget, and no entry ahead can wrap it, the loop leaves
with the size of its rows, which is within the budget. -/
theorem ScanLoop_total (env : ScanEnv) (expire_time expire_cnt : Nat) (ttl_type : TTLType)
    (limit atleast : Nat) (rd : Bool) (real_et_type : GetType) (real_et : Nat)
    (cur : List Entry) (cnt last_time : Nat) (tmp : List Entry) (total : Nat)
    (rows : List Entry) (t : Nat)
    (hsize : ∀ e ∈ cur, env.scan_max_bytes_size + e.size < 2 ^ 32)
    (hinv : total = (tmp.map Entry.size).sum) (hle : total ≤ env.scan_max_bytes_size)
    (h : ScanLoop env expire_time expire_cnt ttl_type limit atleast rd real_et_type real_et
      cur cnt last_time tmp total = Except.ok (rows, t)) :
    t = (rows.map Entry.size).sum ∧ t ≤ env.scan_max_bytes_size := by
  induction cur generalizing cnt last_time tmp total with
  | nil =>
    simp only [ScanLoop, Except.ok.injEq, Prod.mk.injEq] at h
    rw [← h.1, ← h.2]
    exact ⟨hinv, hle⟩
  | cons e rest ih =>
    have hrest : ∀ x ∈ rest, env.scan_max_bytes_size + x.size < 2 ^ 32 :=
      fun x hx => hsize x (List.mem_cons_of_mem _ hx)
    rcases ScanLoop_cons env expire_time expire_cnt ttl_type limit atleast rd real_et_type
      real_et e rest cnt last_time tmp total with hs | ⟨_, hs⟩ | ⟨c, _, hs⟩ | ⟨hp, hs⟩
    · rw [hs] at h
      simp only [Except.ok.injEq, Prod.mk.injEq] at h
      rw [← h.1, ← h.2]
      exact ⟨hinv, hle⟩
    · rw [hs] at h
      exact ih _ _ _ _ hrest hinv hle h
    · rw [hs] at h; exact absurd h (by simp)
    · rw [hs] at h
      have hb := hsize e (List.mem_cons_self _ _)
      have hmod : (total + e.size) % 2 ^ 32 = total + e.size := Nat.mod_eq_of_lt (by omega)
      have hok := hp.size_ok
      rw [hmod] at hok h
      refine ih _ _ _ _ hrest ?_ hok h
      simp [hinv]

/-- When the accumulator `total_block_size` holds the size of the rows collected
so far and the entries ahead cannot take it out of the range of a `uint32_t`,
the loop leaves with the size of its rows, which is within the budget. -/
theorem ScanLoop_total_sum (env : ScanEnv) (expire_time expire_cnt : Nat) (ttl_type : TTLType)
    (limit atleast : Nat) (rd : Bool) (real_et_type : GetType) (real_et : Nat)
    (cur : List Entry) (cnt last_time : Nat) (tmp : List Entry) (total : Nat)
    (rows : List Entry) (t : Nat)
    (hsum : total + (cur.map Entry.size).sum < 2 ^ 32)
    (hinv : total = (tmp.map Entry.size).sum) (hle : total ≤ env.scan_max_bytes_size)
    (h : ScanLoop env expire_time expire_cnt ttl_type limit atleast rd real_et_type real_et
      cur cnt last_time tmp total = Except.ok (rows, t)) :
    t = (rows.map Entry.size).sum ∧ t ≤ env.scan_max_bytes_size := by
  induction cur generalizing cnt last_time tmp total with
  | nil =>
    simp only [ScanLoop, Except.ok.injEq, Prod.mk.injEq] at h
    rw [← h.1, ← h.2]
    exact ⟨hinv, hle⟩
  | cons e rest ih =>
    rw [List.map_cons, List.sum_cons] at hsum
    rcases ScanLoop_cons env expire_time expire_cnt ttl_type limit atleast rd real_et_type
      real_et e rest cnt last_time tmp total with hs | ⟨_, hs⟩ | ⟨c, _, hs⟩ | ⟨hp, hs⟩
    · rw [hs] at h
      simp only [Except.ok.injEq, Prod.mk.injEq] at h
      rw [← h.1, ← h.2]
      exact ⟨hinv, hle⟩
    · rw [hs] at h
      exact ih _ _ _ _ (by omega) hinv hle h
    · rw [hs] at h; exact absurd h (by simp)
    · rw [hs] at h
      have hmod : (total + e.size) % 2 ^ 32 = total + e.size := Nat.mod_eq_of_lt (by omega)
      have hok := hp.size_ok
      rw [hmod] at hok h
      refine ih _ _ _ _ (by omega) ?_ hok h
      simp [hinv]

/-- An entry that reaches `tmp.push_back` and takes the accumulated size over
the budget makes the loop return `-3` in that very turn. -/
theorem ScanLoop_over_budget (env : ScanEnv) (expire_time expire_cnt : Nat) (ttl_type : TTLType)
    (limit atleast : Nat) (rd : Bool) (real_et_type : GetType) (real_et : Nat)
    (e : Entry) (rest : List Entry) (cnt last_time : Nat) (tmp : List Entry) (total : Nat)
    (ha : ScanAccept expire_time expire_cnt ttl_type limit atleast rd real_et_type real_et
      e cnt last_time tmp)
    (hwrap : total + e.size < 2 ^ 32)
    (hover : env.scan_max_bytes_size < total + e.size) :
    ScanLoop env expire_time expire_cnt ttl_type limit atleast rd real_et_type real_et
      (e :: rest) cnt last_time tmp total = Except.error (-3) := by
  have hmod : (total + e.size) % 2 ^ 32 = total + e.size := Nat.mod_eq_of_lt hwrap
  rw [ScanLoop, if_neg ha.limit_ok, if_neg ha.abs_ok, if_neg ha.dup_ok, if_neg ha.lat_ok,
    if_neg ha.andlat_ok, if_neg ha.orlat_ok]
  by_cases hj : atleast = 0 ∨ atleast ≤ tmp.length
  · simp only [if_pos hj, ha.end_ok hj, hmod, if_pos hover]
  · simp only [if_neg hj, hmod, if_pos hover]

/-- The response of `Scan` has the code `kReacheTheScanMaxBytesSize` exactly when
`ScanIndex` returns `-3`. -/
theorem ScanBody_reports (env : ScanEnv) (expire_time expire_cnt : Nat) (ttl_type : TTLType)
    (it : TableIterator) (request : ScanRequest) :
    (ScanBody env expire_time expire_cnt ttl_type (some it) request).code
        = Code.enum ReturnCode.kReacheTheScanMaxBytesSize
      ↔ (ScanIndex env expire_time expire_cnt ttl_type it request).code = -3 := by
  simp only [ScanBody]
  by_cases h0 : (ScanIndex env expire_time expire_cnt ttl_type it request).code = 0
  · simp [h0]
  by_cases h1 : (ScanIndex env expire_time expire_cnt ttl_type it request).code = -1
  · simp [h1]
  by_cases h2 : (ScanIndex env expire_time expire_cnt ttl_type it request).code = -2
  · simp [h2]
  by_cases h3 : (ScanIndex env expire_time expire_cnt ttl_type it request).code = -3
  · simp [h3]
  by_cases h4 : (ScanIndex env expire_time expire_cnt ttl_type it request).code = -4
  · simp [h4]
  · simp [h0, h1, h2, h3, h4]

/-- A `ScanIndex` that returns an error code returns no rows and the count `0`. -/
theorem ScanIndex_error_rows (env : ScanEnv) (expire_time expire_cnt : Nat)
    (ttl_type : TTLType) (it : TableIterator) (request : ScanRequest)
    (h : (ScanIndex env expire_time expire_cnt ttl_type it request).code ≠ 0) :
    (ScanIndex env expire_time expire_cnt ttl_type it request).rows = []
    ∧ (ScanIndex env expire_time expire_cnt ttl_type it request).count = 0 := by
  unfold ScanIndex at h ⊢
  simp only at h ⊢
  repeat' split
  all_goals first
    | exact ⟨rfl, rfl⟩
    | (exfalso; simp_all)

/-- C15: `ScanIndex` returns `-3`, which `Scan` reports as
`kReacheTheScanMaxBytesSize`, as soon as the size of the values collected
exceeds `scan_max_bytes_size`.  `total_block_size` is a `uint32_t`; this
covers the iterators on which it cannot wrap: each stored value fits into
the range above the budget (`scan_max_bytes_size + size < 2 ^ 32`), or the
values of the iterator come to less than `2 ^ 32` bytes in all.  For these,
whenever `ScanIndex` returns `0` the total size of the returned values is at
most `scan_max_bytes_size`.  In every turn of the loop, an entry that is
appended and takes the accumulated size over `scan_max_bytes_size`, the sum
being below `2 ^ 32`, makes the loop return `-3` at once.  The response of
`Scan` has the code `kReacheTheScanMaxBytesSize` exactly when `ScanIndex`
returns `-3`, and then the message "reach the max scan byte size", no rows and
the count `0`; when `ScanIndex` returns `0` the response has the code `0`, the
rows and the count. -/
theorem C15_scan_max_bytes (env : ScanEnv) (expire_time expire_cnt : Nat) (ttl_type : TTLType)
    (it : TableIterator) (request : ScanRequest)
    (hsize : (∀ e ∈ it.entries, env.scan_max_bytes_size + e.size < 2 ^ 32)
      ∨ (it.entries.map Entry.size).sum < 2 ^ 32) :
    ((ScanIndex env expire_time expire_cnt ttl_type it request).code = 0 →
      ((ScanIndex env expire_time expire_cnt ttl_type it request).rows.map Entry.size).sum
        ≤ env.scan_max_bytes_size)
    ∧ (∀ (e : Entry) (rest : List Entry) (cnt last_time : Nat) (tmp : List Entry) (total : Nat),
        total + e.size < 2 ^ 32 →
        ScanAccept expire_time expire_cnt ttl_type request.limit request.atleast
          request.enable_remove_duplicated_record
          (RealEtType expire_time request.et request.et_type)
          (RealEt expire_time ttl_type request.et) e cnt last_time tmp →
        env.scan_max_bytes_size < total + e.size →
        ScanLoop env expire_time expire_cnt ttl_type request.limit request.atleast
          request.enable_remove_duplicated_record
          (RealEtType expire_time request.et request.et_type)
          (RealEt expire_time ttl_type request.et) (e :: rest) cnt last_time tmp total
          = Except.error (-3))
    ∧ ((ScanBody env expire_time expire_cnt ttl_type (some it) request).code
          = Code.enum ReturnCode.kReacheTheScanMaxBytesSize
        ↔ (ScanIndex env expire_time expire_cnt ttl_type it request).code = -3)
    ∧ ((ScanIndex env expire_time expire_cnt ttl_type it request).code = -3 →
        ScanBody env expire_time expire_cnt ttl_type (some it) request
          = ⟨Code.enum ReturnCode.kReacheTheScanMaxBytesSize, "reach the max scan byte size",
              [], 0⟩)
    ∧ ((ScanIndex env expire_time expire_cnt ttl_type it request).code = 0 →
        ScanBody env expire_time expire_cnt ttl_type (some it) request
          = ⟨Code.raw 0, "", (ScanIndex env expire_time expire_cnt ttl_type it request).rows,
              (ScanIndex env expire_time expire_cnt ttl_type it request).count⟩) := by
  refine ⟨?_, ?_, ?_, ?_, ?_⟩
  · intro hc
    obtain ⟨_, total, hloop⟩ :=
      ScanIndex_code_zero env expire_time expire_cnt ttl_type it request hc
    have hsub := ScanStart_suffix expire_cnt ttl_type it request.st (RealStType request.st_type)
    rcases hsize with hsize | hsize
    · have hcur : ∀ e ∈ (ScanStart expire_cnt ttl_type it request.st
          (RealStType request.st_type)).1.cur, env.scan_max_bytes_size + e.size < 2 ^ 32 :=
        fun e he => hsize e (hsub.subset he)
      have := ScanLoop_total _ _ _ _ _ _ _ _ _ _ _ _ _ _ _ _ hcur (by simp) (Nat.zero_le _) hloop
      omega
    · obtain ⟨pre, hpre⟩ := hsub
      have hcur : 0 + ((ScanStart expire_cnt ttl_type it request.st
          (RealStType request.st_type)).1.cur.map Entry.size).sum < 2 ^ 32 := by
        have := congrArg (fun l => (l.map Entry.size).sum) hpre
        simp only [List.map_append, List.sum_append] at this
        omega
      have := ScanLoop_total_sum _ _ _ _ _ _ _ _ _ _ _ _ _ _ _ _ hcur (by simp)
        (Nat.zero_le _) hloop
      omega
  · intro e rest cnt last_time tmp total hwrap ha hover
    exact ScanLoop_over_budget _ _ _ _ _ _ _ _ _ _ _ _ _ _ _ ha hwrap hover
  · exact ScanBody_reports env expire_time expire_cnt ttl_type it request
  · intro hc
    have hr := ScanIndex_error_rows env expire_time expire_cnt ttl_type it request (by omega)
    simp only [ScanBody, hc, hr.1, hr.2]
    decide
  · intro hc
    simp only [ScanBody, hc, if_true]

/-- C15 on the entries `300, 200, 100` with one-byte values: with a budget of
`2` bytes the third value takes the total over it, `ScanIndex` returns `-3` and
`Scan` answers `kReacheTheScanMaxBytesSize`; with a budget of `3` bytes
`ScanIndex` returns `0` with `3` bytes. -/
theorem C15_scan_max_bytes_witness :
    ((TableIterator.mk0 [⟨300, "c"⟩, ⟨200, "b"⟩, ⟨100, "a"⟩]).entries.map Entry.size).sum
      < 2 ^ 32
    ∧ (ScanIndex ⟨3, fun _ _ => 0⟩ 0 0 TTLType.kAbsoluteTime
        (TableIterator.mk0 [⟨300, "c"⟩, ⟨200, "b"⟩, ⟨100, "a"⟩])
        ⟨0, 0, 0, 0, 0, GetType.kSubKeyLe, 0, GetType.kSubKeyGe, false⟩).code = 0
    ∧ ((ScanIndex ⟨3, fun _ _ => 0⟩ 0 0 TTLType.kAbsoluteTime
        (TableIterator.mk0 [⟨300, "c"⟩, ⟨200, "b"⟩, ⟨100, "a"⟩])
        ⟨0, 0, 0, 0, 0, GetType.kSubKeyLe, 0, GetType.kSubKeyGe, false⟩).rows.map
          Entry.size).sum ≤ 3
    ∧ (ScanIndex ⟨2, fun _ _ => 0⟩ 0 0 TTLType.kAbsoluteTime
        (TableIterator.mk0 [⟨300, "c"⟩, ⟨200, "b"⟩, ⟨100, "a"⟩])
        ⟨0, 0, 0, 0, 0, GetType.kSubKeyLe, 0, GetType.kSubKeyGe, false⟩).code = -3
    ∧ ScanBody ⟨2, fun _ _ => 0⟩ 0 0 TTLType.kAbsoluteTime
        (some (TableIterator.mk0 [⟨300, "c"⟩, ⟨200, "b"⟩, ⟨100, "a"⟩]))
        ⟨0, 0, 0, 0, 0, GetType.kSubKeyLe, 0, GetType.kSubKeyGe, false⟩
      = ⟨Code.enum ReturnCode.kReacheTheScanMaxBytesSize, "reach the max scan byte size",
          [], 0⟩ :=
  ⟨by decide, by decide,
    (C15_scan_max_bytes ⟨3, fun _ _ => 0⟩ 0 0 TTLType.kAbsoluteTime
      (TableIterator.mk0 [⟨300, "c"⟩, ⟨200, "b"⟩, ⟨100, "a"⟩])
      ⟨0, 0, 0, 0, 0, GetType.kSubKeyLe, 0, GetType.kSubKeyGe, false⟩
      (Or.inr (by decide))).1 (by decide),
    by decide,
    (C15_scan_max_bytes ⟨2, fun _ _ => 0⟩ 0 0 TTLType.kAbsoluteTime
      (TableIterator.mk0 [⟨300, "c"⟩, ⟨200, "b"⟩, ⟨100, "a"⟩])
      ⟨0, 0, 0, 0, 0, GetType.kSubKeyLe, 0, GetType.kSubKeyGe, false⟩
      (Or.inr (by decide))).2.2.2.1 (by decide)⟩

/-! Scan and duplicate removal -/

/-- C16 at the failing input: with `enable_remove_duplicated_record = true` and
two entries of timestamp `100`, `ScanIndex` under `kLatestTime` returns both
rows, two consecutive rows with the same timestamp; under `kAbsoluteTime` the
same scan returns only the first of them. -/
theorem C16_dedup_only_absolute_time :
    ScanIndex ⟨1024, fun _ _ => 0⟩ 0 0 TTLType.kLatestTime
        (TableIterator.mk0 [⟨100, "a"⟩, ⟨100, "b"⟩])
        ⟨0, 0, 0, 0, 0, GetType.kSubKeyLe, 0, GetType.kSubKeyGe, true⟩
      = ⟨0, [⟨100, "a"⟩, ⟨100, "b"⟩], 2⟩
    ∧ ScanIndex ⟨1024, fun _ _ => 0⟩ 0 0 TTLType.kAbsoluteTime
        (TableIterator.mk0 [⟨100, "a"⟩, ⟨100, "b"⟩])
        ⟨0, 0, 0, 0, 0, GetType.kSubKeyLe, 0, GetType.kSubKeyGe, true⟩
      = ⟨0, [⟨100, "a"⟩], 1⟩ := by
  decide

/-! Traverse and `is_finish` -/

/-- C17 at the failing input: a time-series `Traverse` with `limit = 0` (no
limit) over a table of one row walks to the end of the table, answers with that
row, and reports `is_finish = false`.  More generally, with `limit = 0` the
answer has `is_finish = false` whenever the iterator has taken fewer than
`max_traverse_cnt` steps, wherever it stands. -/
theorem C17_traverse_no_limit_is_finish :
    (TraverseBody ⟨100, fun it _ _ => it⟩ (TraverseIterator.mk0 [⟨"k", 100, "v"⟩])
        ⟨1, 0, 0, none, 0, none⟩).is_finish = false
    ∧ (TraverseBody ⟨100, fun it _ _ => it⟩ (TraverseIterator.mk0 [⟨"k", 100, "v"⟩])
        ⟨1, 0, 0, none, 0, none⟩).it.Valid = false
    ∧ (TraverseBody ⟨100, fun it _ _ => it⟩ (TraverseIterator.mk0 [⟨"k", 100, "v"⟩])
        ⟨1, 0, 0, none, 0, none⟩).rows = [⟨"k", 100, "v"⟩]
    ∧ (TraverseBody ⟨100, fun it _ _ => it⟩ (TraverseIterator.mk0 [⟨"k", 100, "v"⟩])
        ⟨1, 0, 0, none, 0, none⟩).count = 1
    ∧ ∀ (env : TraverseEnv) (it : TraverseIterator) (request : TraverseRequest),
        request.limit = 0 →
        (TraverseBody env it request).it.GetCount < env.max_traverse_cnt →
        (TraverseBody env it request).is_finish = false := by
  refine ⟨by decide, by decide, by decide, by decide, ?_⟩
  intro env it request hlimit hcount
  unfold TraverseBody at hcount ⊢
  dsimp only at hcount ⊢
  generalize TraverseLoop _ _ _ _ _ _ _ _ _ _ _ = st at hcount ⊢
  by_cases h1 : env.max_traverse_cnt ≤ st.it.GetCount
  · rw [if_pos h1] at hcount
    exact absurd h1 (Nat.not_le.mpr hcount)
  · rw [if_neg h1, hlimit, if_neg (Nat.not_lt_zero _)]

/-! Adding a column: `UpdateTableMetaForAddField` -/

/-- The root path chosen for a partition depends on the tablet through
`mode_root_paths_` only. -/
theorem ChooseDBRootPath_roots (hash : String → Nat → Nat) (s s1 : TabletImpl)
    (h : s1.mode_root_paths_ = s.mode_root_paths_) (tid pid : Nat) (mode : StorageMode) :
    ChooseDBRootPath hash s1 tid pid mode = ChooseDBRootPath hash s tid pid mode := by
  simp only [ChooseDBRootPath, h]

/-- After the request's column was appended, the column counts as repeated. -/
theorem FieldRepeated_AddFieldMeta (table_meta : TableMeta)
    (request : UpdateTableMetaForAddFieldRequest) :
    FieldRepeated (AddFieldMeta table_meta request) request.column_desc.name = true := by
  simp [FieldRepeated, AddFieldMeta]

/-- When every partition left already has the column, the loop changes nothing
and the answer is `kOk`. -/
theorem AddFieldLoop_repeated (hash : String → Nat → Nat) (now : String)
    (write_ok : String → Bool) (request : UpdateTableMetaForAddFieldRequest)
    (pids : List Nat) (s : TabletImpl) (disk : MetaDisk)
    (h : ∀ pid ∈ pids, ∀ table, s.tables_ request.tid pid = some table →
      FieldRepeated table.table_meta request.column_desc.name = true) :
    AddFieldLoop hash now write_ok request pids s disk
      = (⟨Code.enum ReturnCode.kOk, "ok"⟩, s, disk) := by
  induction pids with
  | nil => rfl
  | cons pid rest ih =>
    have hrest := ih (fun p hp => h p (List.mem_cons_of_mem _ hp))
    rw [AddFieldLoop]
    cases htab : s.tables_ request.tid pid with
    | none => exact hrest
    | some table =>
      simp only [h pid (List.mem_cons_self _ _) table htab, if_true]
      exact hrest

/-- When no partition left has the column yet, every root path resolves, every
partition directory exists and every write succeeds, the loop answers `kOk` and
has set the new table meta and schema on exactly the partitions left. -/
theorem AddFieldLoop_fresh (hash : String → Nat → Nat) (now : String)
    (write_ok : String → Bool) (request : UpdateTableMetaForAddFieldRequest)
    (pids : List Nat) (s : TabletImpl) (disk : MetaDisk) (hnodup : pids.Nodup)
    (h : ∀ pid ∈ pids, ∃ table, s.tables_ request.tid pid = some table
      ∧ FieldRepeated table.table_meta request.column_desc.name = false
      ∧ (ChooseDBRootPath hash s request.tid pid table.table_meta.storage_mode).1 = true
      ∧ disk.dirs (DbPath
          (ChooseDBRootPath hash s request.tid pid table.table_meta.storage_mode).2
          request.tid pid) = true
      ∧ write_ok (DbPath
          (ChooseDBRootPath hash s request.tid pid table.table_meta.storage_mode).2
          request.tid pid) = true) :
    (AddFieldLoop hash now write_ok request pids s disk).1 = ⟨Code.enum ReturnCode.kOk, "ok"⟩
    ∧ (AddFieldLoop hash now write_ok request pids s disk).2.1.table_pids_ = s.table_pids_
    ∧ ∀ t p, (AddFieldLoop hash now write_ok request pids s disk).2.1.tables_ t p
        = if t = request.tid ∧ p ∈ pids then
            (s.tables_ t p).map (fun tb =>
              { tb with table_meta := AddFieldMeta tb.table_meta request
                        schema := request.schema })
          else s.tables_ t p := by
  induction pids generalizing s disk with
  | nil =>
    refine ⟨rfl, rfl, ?_⟩
    intro t p
    simp [AddFieldLoop]
  | cons pid rest ih =>
    obtain ⟨hnotin, hnodup1⟩ := List.nodup_cons.mp hnodup
    obtain ⟨table, htab, hrep, hroot, hdir, hw⟩ := h pid (List.mem_cons_self _ _)
    have hmode : (AddFieldMeta table.table_meta request).storage_mode
        = table.table_meta.storage_mode := rfl
    have hs1roots : (SetTableMetaAndSchema s request.tid pid
        (AddFieldMeta table.table_meta request) request.schema).mode_root_paths_
        = s.mode_root_paths_ := rfl
    have hchoose := fun p m => ChooseDBRootPath_roots hash s _ hs1roots request.tid p m
    have hwrite : (WriteTableMeta write_ok
        (UpdateTableMeta now disk (DbPath
          (ChooseDBRootPath hash s request.tid pid table.table_meta.storage_mode).2
          request.tid pid)).2
        (DbPath (ChooseDBRootPath hash s request.tid pid table.table_meta.storage_mode).2
          request.tid pid)
        (AddFieldMeta table.table_meta request)).1 = 0 := by
      simp [WriteTableMeta, hw]
    have hdirs : ∀ f, disk.dirs f = true → (WriteTableMeta write_ok
        (UpdateTableMeta now disk (DbPath
          (ChooseDBRootPath hash s request.tid pid table.table_meta.storage_mode).2
          request.tid pid)).2
        (DbPath (ChooseDBRootPath hash s request.tid pid table.table_meta.storage_mode).2
          request.tid pid)
        (AddFieldMeta table.table_meta request)).2.dirs f = true := by
      intro f hf
      have hu : ∀ path, (UpdateTableMeta now disk path).2.dirs = disk.dirs := by
        intro path
        unfold UpdateTableMeta
        dsimp only
        split <;> rfl
      simp only [WriteTableMeta, hw, Bool.not_true, Bool.false_eq_true, if_false, hu]
      split_ifs
      · rfl
      · exact hf
    have hstep : AddFieldLoop hash now write_ok request (pid :: rest) s disk
        = AddFieldLoop hash now write_ok request rest
            (SetTableMetaAndSchema s request.tid pid (AddFieldMeta table.table_meta request)
              request.schema)
            (WriteTableMeta write_ok
              (UpdateTableMeta now disk (DbPath
                (ChooseDBRootPath hash s request.tid pid table.table_meta.storage_mode).2
                request.tid pid)).2
              (DbPath (ChooseDBRootPath hash s request.tid pid table.table_meta.storage_mode).2
                request.tid pid)
              (AddFieldMeta table.table_meta request)).2 := by
      rw [AddFieldLoop]
      simp only [htab, hrep, hchoose, hmode, hroot, hdir, hwrite, Bool.false_eq_true,
        if_false, Bool.not_true, lt_self_iff_false]
    have hrest : ∀ p ∈ rest, ∃ tb,
        (SetTableMetaAndSchema s request.tid pid (AddFieldMeta table.table_meta request)
          request.schema).tables_ request.tid p = some tb
        ∧ FieldRepeated tb.table_meta request.column_desc.name = false
        ∧ (ChooseDBRootPath hash (SetTableMetaAndSchema s request.tid pid
            (AddFieldMeta table.table_meta request) request.schema)
            request.tid p tb.table_meta.storage_mode).1 = true
        ∧ (WriteTableMeta write_ok
            (UpdateTableMeta now disk (DbPath
              (ChooseDBRootPath hash s request.tid pid table.table_meta.storage_mode).2
              request.tid pid)).2
            (DbPath (ChooseDBRootPath hash s request.tid pid table.table_meta.storage_mode).2
              request.tid pid)
            (AddFieldMeta table.table_meta request)).2.dirs (DbPath
              (ChooseDBRootPath hash (SetTableMetaAndSchema s request.tid pid
                (AddFieldMeta table.table_meta request) request.schema)
                request.tid p tb.table_meta.storage_mode).2 request.tid p) = true
        ∧ write_ok (DbPath
            (ChooseDBRootPath hash (SetTableMetaAndSchema s request.tid pid
              (AddFieldMeta table.table_meta request) request.schema)
              request.tid p tb.table_meta.storage_mode).2 request.tid p) = true := by
      intro p hp
      obtain ⟨tb, h1, h2, h3, h4, h5⟩ := h p (List.mem_cons_of_mem _ hp)
      have hne : p ≠ pid := fun hc => hnotin (hc ▸ hp)
      refine ⟨tb, ?_, h2, ?_, ?_, ?_⟩
      · simp [SetTableMetaAndSchema, hne, h1]
      · rw [hchoose]; exact h3
      · rw [hchoose]; exact hdirs _ h4
      · rw [hchoose]; exact h5
    obtain ⟨r1, r2, r3⟩ := ih _ _ hnodup1 hrest
    rw [hstep]
    refine ⟨r1, r2, ?_⟩
    intro t p
    rw [r3 t p]
    by_cases htp : t = request.tid ∧ p = pid
    · obtain ⟨ht, hp⟩ := htp
      subst hp
      simp [SetTableMetaAndSchema, ht, hnotin, htab]
    · by_cases hmem : t = request.tid ∧ p ∈ rest
      · have hne : p ≠ pid := fun hc => hnotin (hc ▸ hmem.2)
        simp [SetTableMetaAndSchema, hmem.1, hmem.2, hne]
      · have hnot : ¬(t = request.tid ∧ p ∈ pid :: rest) := by
          rintro ⟨ht, hp⟩
          rcases List.mem_cons.mp hp with hp | hp
          · exact htp ⟨ht, hp⟩
          · exact hmem ⟨ht, hp⟩
        simp only [if_neg hmem, if_neg hnot, SetTableMetaAndSchema, if_neg htp]

/-- C18: for a `tid` whose partitions do not contain the request's column yet
(neither in `column_desc` nor in `added_column_desc`), and whose partition
directories resolve, exist and can be written, `UpdateTableMetaForAddField`
answers `kOk` and sets on every partition the table meta with exactly the
request's column appended to `added_column_desc` (and the request's schema); a
second identical call on the resulting tablet and disk answers `kOk` and leaves
the tablet, hence every table meta, and the disk, hence every `table_meta.txt`,
as they are. -/
theorem C18_add_field_idempotent (hash : String → Nat → Nat) (now : String)
    (write_ok : String → Bool) (s : TabletImpl) (disk : MetaDisk)
    (request : UpdateTableMetaForAddFieldRequest) (pids : List Nat)
    (hpids : s.table_pids_ request.tid = some pids) (hnodup : pids.Nodup)
    (hfresh : ∀ pid ∈ pids, ∃ table, s.tables_ request.tid pid = some table
      ∧ FieldRepeated table.table_meta request.column_desc.name = false
      ∧ (ChooseDBRootPath hash s request.tid pid table.table_meta.storage_mode).1 = true
      ∧ disk.dirs (DbPath
          (ChooseDBRootPath hash s request.tid pid table.table_meta.storage_mode).2
          request.tid pid) = true
      ∧ write_ok (DbPath
          (ChooseDBRootPath hash s request.tid pid table.table_meta.storage_mode).2
          request.tid pid) = true) :
    (UpdateTableMetaForAddField hash now write_ok s disk request).1
      = ⟨Code.enum ReturnCode.kOk, "ok"⟩
    ∧ (∀ pid ∈ pids, ∃ table table1, s.tables_ request.tid pid = some table
        ∧ (UpdateTableMetaForAddField hash now write_ok s disk request).2.1.tables_
            request.tid pid = some table1
        ∧ table1.table_meta.added_column_desc
            = table.table_meta.added_column_desc ++ [request.column_desc]
        ∧ table1 = { table with table_meta := AddFieldMeta table.table_meta request
                                schema := request.schema })
    ∧ ∀ (hash2 : String → Nat → Nat) (now2 : String) (write_ok2 : String → Bool),
        UpdateTableMetaForAddField hash2 now2 write_ok2
            (UpdateTableMetaForAddField hash now write_ok s disk request).2.1
            (UpdateTableMetaForAddField hash now write_ok s disk request).2.2 request
          = (⟨Code.enum ReturnCode.kOk, "ok"⟩,
              (UpdateTableMetaForAddField hash now write_ok s disk request).2.1,
              (UpdateTableMetaForAddField hash now write_ok s disk request).2.2) := by
  obtain ⟨r1, r2, r3⟩ := AddFieldLoop_fresh hash now write_ok request pids s disk hnodup hfresh
  have hfirst : UpdateTableMetaForAddField hash now write_ok s disk request
      = AddFieldLoop hash now write_ok request pids s disk := by
    simp only [UpdateTableMetaForAddField, hpids]
  rw [hfirst]
  refine ⟨r1, ?_, ?_⟩
  · intro pid hp
    obtain ⟨table, htab, _⟩ := hfresh pid hp
    refine ⟨table, _, htab, ?_, rfl, rfl⟩
    rw [r3 request.tid pid, if_pos ⟨rfl, hp⟩, htab]
    rfl
  · intro hash2 now2 write_ok2
    have hsecond : UpdateTableMetaForAddField hash2 now2 write_ok2
        (AddFieldLoop hash now write_ok request pids s disk).2.1
        (AddFieldLoop hash now write_ok request pids s disk).2.2 request
        = AddFieldLoop hash2 now2 write_ok2 request pids
            (AddFieldLoop hash now write_ok request pids s disk).2.1
            (AddFieldLoop hash now write_ok request pids s disk).2.2 := by
      simp only [UpdateTableMetaForAddField, r2, hpids]
    rw [hsecond]
    apply AddFieldLoop_repeated
    intro pid hp table1 htab1
    rw [r3 request.tid pid, if_pos ⟨rfl, hp⟩] at htab1
    obtain ⟨table, htab, _⟩ := hfresh pid hp
    rw [htab] at htab1
    simp only [Option.map_some', Option.some.injEq] at htab1
    rw [← htab1]
    exact FieldRepeated_AddFieldMeta _ _

/-- C18 on the tablet with the single partition `(1, 0)` under `/rtidb/db`:
adding the column `c` answers `kOk` and appends `c`, and adding it again
answers `kOk` and changes nothing. -/
theorem C18_add_field_idempotent_witness :
    (UpdateTableMetaForAddField (fun _ _ => 0) "20200101" (fun _ => true)
        (tabletWith { stat := TableStat.kNormal, is_leader := true })
        ⟨fun f => decide (f = "/rtidb/db/1_0"), fun _ => none⟩
        ⟨1, { name := "c", type := "string" }, "schema2"⟩).1
      = ⟨Code.enum ReturnCode.kOk, "ok"⟩
    ∧ ((UpdateTableMetaForAddField (fun _ _ => 0) "20200101" (fun _ => true)
        (tabletWith { stat := TableStat.kNormal, is_leader := true })
        ⟨fun f => decide (f = "/rtidb/db/1_0"), fun _ => none⟩
        ⟨1, { name := "c", type := "string" }, "schema2"⟩).2.1.tables_ 1 0).map
          (fun t => t.table_meta.added_column_desc)
      = some [{ name := "c", type := "string" }]
    ∧ (UpdateTableMetaForAddField (fun _ _ => 0) "20200102" (fun _ => true)
        (UpdateTableMetaForAddField (fun _ _ => 0) "20200101" (fun _ => true)
          (tabletWith { stat := TableStat.kNormal, is_leader := true })
          ⟨fun f => decide (f = "/rtidb/db/1_0"), fun _ => none⟩
          ⟨1, { name := "c", type := "string" }, "schema2"⟩).2.1
        (UpdateTableMetaForAddField (fun _ _ => 0) "20200101" (fun _ => true)
          (tabletWith { stat := TableStat.kNormal, is_leader := true })
          ⟨fun f => decide (f = "/rtidb/db/1_0"), fun _ => none⟩
          ⟨1, { name := "c", type := "string" }, "schema2"⟩).2.2
        ⟨1, { name := "c", type := "string" }, "schema2"⟩).1
      = ⟨Code.enum ReturnCode.kOk, "ok"⟩ := by
  have h := C18_add_field_idempotent (fun _ _ => 0) "20200101" (fun _ => true)
    (tabletWith { stat := TableStat.kNormal, is_leader := true })
    ⟨fun f => decide (f = "/rtidb/db/1_0"), fun _ => none⟩
    ⟨1, { name := "c", type := "string" }, "schema2"⟩ [0] (by decide) (by decide)
    (by
      intro pid hp
      rw [List.mem_singleton] at hp
      subst hp
      exact ⟨{ stat := TableStat.kNormal, is_leader := true }, by decide, by decide, by decide,
        by decide, by decide⟩)
  refine ⟨h.1, by decide, ?_⟩
  rw [h.2.2 (fun _ _ => 0) "20200102" (fun _ => true)]

/-- C19 at the failing input: on the tablet with the single partition `(1, 0)`
whose directory `/rtidb/db/1_0` does not exist, `UpdateTableMetaForAddField`
answers `kTableDbPathIsNotExist`, and on a tablet without a root path it answers
`kFailToGetDbRootPath`; in both cases the partition's table meta has the column
`c` appended and the table meta and the table carry the request's schema,
while the disk is as before. -/
theorem C19_add_field_error_after_update :
    (UpdateTableMetaForAddField (fun _ _ => 0) "20200101" (fun _ => true)
        (tabletWith { stat := TableStat.kNormal, is_leader := true })
        ⟨fun _ => false, fun _ => none⟩
        ⟨1, { name := "c", type := "string" }, "schema2"⟩).1
      = ⟨Code.enum ReturnCode.kTableDbPathIsNotExist, "table db path is not exist"⟩
    ∧ ((tabletWith { stat := TableStat.kNormal, is_leader := true }).tables_ 1 0).map
          (fun t => (t.table_meta.added_column_desc, t.table_meta.schema, t.schema))
      = some ([], "", "")
    ∧ ((UpdateTableMetaForAddField (fun _ _ => 0) "20200101" (fun _ => true)
        (tabletWith { stat := TableStat.kNormal, is_leader := true })
        ⟨fun _ => false, fun _ => none⟩
        ⟨1, { name := "c", type := "string" }, "schema2"⟩).2.1.tables_ 1 0).map
          (fun t => (t.table_meta.added_column_desc, t.table_meta.schema, t.schema))
      = some ([{ name := "c", type := "string" }], "schema2", "schema2")
    ∧ (UpdateTableMetaForAddField (fun _ _ => 0) "20200101" (fun _ => true)
        { tabletWith { stat := TableStat.kNormal, is_leader := true } with
          mode_root_paths_ := fun _ => [] }
        ⟨fun _ => true, fun _ => none⟩
        ⟨1, { name := "c", type := "string" }, "schema2"⟩).1
      = ⟨Code.enum ReturnCode.kFailToGetDbRootPath, "fail to get db root path"⟩
    ∧ ((UpdateTableMetaForAddField (fun _ _ => 0) "20200101" (fun _ => true)
        { tabletWith { stat := TableStat.kNormal, is_leader := true } with
          mode_root_paths_ := fun _ => [] }
        ⟨fun _ => true, fun _ => none⟩
        ⟨1, { name := "c", type := "string" }, "schema2"⟩).2.1.tables_ 1 0).map
          (fun t => (t.table_meta.added_column_desc, t.table_meta.schema, t.schema))
      = some ([{ name := "c", type := "string" }], "schema2", "schema2") := by
  refine ⟨by decide, by decide, by decide, by decide, by decide⟩

/-! Table meta validation: `CheckTableMeta` and the index columns -/

/-- An insertion into `column_map` keeps every entry that was there. -/
theorem MapInsert_keeps (column_map : List (String × String)) (name type k v : String)
    (h : column_map.lookup k = some v) : (MapInsert column_map name type).lookup k = some v := by
  unfold MapInsert
  split_ifs
  · exact h
  · exact (List.prefix_append _ _).lookup_eq_some h

/-- An insertion of a name that was not there records its type. -/
theorem MapInsert_new (column_map : List (String × String)) (name type : String)
    (h : column_map.lookup name = none) :
    (MapInsert column_map name type).lookup name = some type := by
  unfold MapInsert
  rw [h]
  simp [List.lookup_append, h]

/-- A column that passes its turn of the column loop had a new name, is recorded
with its type, and is not a `float` or `double` column with `add_ts_idx`. -/
theorem CheckColumnDesc_ok (flags : MetaFlags) (type : TTLType)
    (column_map : List (String × String)) (ts_set : List String) (column_desc : ColumnDesc)
    (r : List (String × String) × List String)
    (h : CheckColumnDesc flags type column_map ts_set column_desc = Except.ok r) :
    column_map.lookup column_desc.name = none
    ∧ r.1 = MapInsert column_map column_desc.name column_desc.type
    ∧ ¬(column_desc.add_ts_idx = true
        ∧ (column_desc.type = "float" ∨ column_desc.type = "double")) := by
  unfold CheckColumnDesc at h
  by_cases h1 : (column_map.lookup column_desc.name).isSome = true
  · rw [if_pos h1] at h
    exact absurd h (by simp)
  rw [if_neg h1] at h
  have hnone : column_map.lookup column_desc.name = none := by
    cases hl : column_map.lookup column_desc.name with
    | none => rfl
    | some v => rw [hl] at h1; exact absurd rfl h1
  split at h
  · exact absurd h (by simp)
  · by_cases h2 : column_desc.add_ts_idx = true
        ∧ (column_desc.type = "float" ∨ column_desc.type = "double")
    · rw [if_pos h2] at h
      exact absurd h (by simp)
    · rw [if_neg h2] at h
      simp only [Except.ok.injEq] at h
      exact ⟨hnone, by rw [← h], h2⟩

/-- When the column loop passes, `column_map` keeps what it held and records
every column of the loop with its type, and none of these columns is a `float`
or `double` column with `add_ts_idx`. -/
theorem CheckColumns_ok (flags : MetaFlags) (type : TTLType) (cols : List ColumnDesc)
    (column_map : List (String × String)) (ts_set : List String)
    (r : List (String × String) × List String)
    (h : CheckColumns flags type cols column_map ts_set = Except.ok r) :
    (∀ k v, column_map.lookup k = some v → r.1.lookup k = some v)
    ∧ ∀ c ∈ cols, r.1.lookup c.name = some c.type
        ∧ ¬(c.add_ts_idx = true ∧ (c.type = "float" ∨ c.type = "double")) := by
  induction cols generalizing column_map ts_set with
  | nil =>
    simp only [CheckColumns, Except.ok.injEq] at h
    subst h
    exact ⟨fun _ _ hk => hk, fun c hc => absurd hc (List.not_mem_nil c)⟩
  | cons c rest ih =>
    rw [CheckColumns] at h
    split at h
    · exact absurd h (by simp)
    · rename_i r1 hr1
      obtain ⟨hnone, hmap, hidx⟩ := CheckColumnDesc_ok _ _ _ _ _ _ hr1
      obtain ⟨hkeep, hall⟩ := ih _ _ h
      refine ⟨fun k v hk => hkeep k v ?_, ?_⟩
      · rw [hmap]
        exact MapInsert_keeps _ _ _ _ _ hk
      · intro c1 hc1
        rcases List.mem_cons.mp hc1 with hc1 | hc1
        · subst hc1
          refine ⟨hkeep _ _ ?_, hidx⟩
          rw [hmap]
          exact MapInsert_new _ _ _ hnone
        · exact hall c1 hc1

/-- When the loop over the `col_name` entries passes, every name is recorded in
`column_map` with a type other than `float` and `double`. -/
theorem CheckColName_none (column_map : List (String × String)) (ts_set : List String)
    (names : List String) (h : CheckColName column_map ts_set names = none) :
    ∀ n ∈ names, ∃ t, column_map.lookup n = some t ∧ ¬(t = "float" ∨ t = "double") := by
  induction names with
  | nil => exact fun n hn => absurd hn (List.not_mem_nil n)
  | cons name rest ih =>
    rw [CheckColName] at h
    split at h
    · exact absurd h (by simp)
    · rename_i t ht
      by_cases h1 : t = "float" ∨ t = "double"
      · rw [if_pos h1] at h
        exact absurd h (by simp)
      rw [if_neg h1] at h
      by_cases h2 : name ∈ ts_set
      · rw [if_pos h2] at h
        exact absurd h (by simp)
      rw [if_neg h2] at h
      intro n hn
      rcases List.mem_cons.mp hn with hn | hn
      · subst hn
        exact ⟨t, ht, h1⟩
      · exact ih h n hn

/-- When the loop over `column_key` passes, every column key passed the loop
over its `col_name` entries and the check of its `index_name`. -/
theorem CheckColumnKeys_none (column_map : List (String × String)) (ts_set : List String)
    (keys : List ColumnKey) (index_set : List String)
    (h : CheckColumnKeys column_map ts_set keys index_set = none) :
    ∀ k ∈ keys, CheckColName column_map ts_set k.col_name = none
      ∧ CheckIndexName column_map k = none := by
  induction keys generalizing index_set with
  | nil => exact fun k hk => absurd hk (List.not_mem_nil k)
  | cons key rest ih =>
    rw [CheckColumnKeys] at h
    split at h
    · exact absurd h (by simp)
    · rename_i index_set1 hkey
      have hthis : CheckColName column_map ts_set key.col_name = none
          ∧ CheckIndexName column_map key = none := by
        unfold CheckColumnKey at hkey
        by_cases hrep : key.index_name ∈ index_set
        · rw [if_pos hrep] at hkey
          exact absurd hkey (by simp)
        rw [if_neg hrep] at hkey
        split at hkey
        · exact absurd hkey (by simp)
        · rename_i hcol
          split at hkey
          · exact absurd hkey (by simp)
          · rename_i hidx
            exact ⟨hcol, hidx⟩
      intro k hk
      rcases List.mem_cons.mp hk with hk | hk
      · subst hk
        exact hthis
      · exact ih _ h k hk

/-- C20: if `CheckTableMeta` returns `0`, no column of type `float` or `double`
takes part in an index: it is not listed in the `col_name` of any column key, it
is not the column named by the `index_name` of a column key with an empty
`col_name` list, and it does not have `add_ts_idx` set. -/
theorem C20_float_double_not_indexed (flags : MetaFlags) (table_meta : TableMeta)
    (h : (CheckTableMeta flags table_meta).1 = 0) :
    ∀ c ∈ table_meta.column_desc, c.type = "float" ∨ c.type = "double" →
      (∀ k ∈ table_meta.column_key, c.name ∉ k.col_name)
      ∧ (∀ k ∈ table_meta.column_key, k.col_name = [] → k.index_name ≠ c.name)
      ∧ c.add_ts_idx = false := by
  unfold CheckTableMeta at h
  by_cases h1 : table_meta.name.utf8ByteSize ≤ 0
  · rw [if_pos h1] at h
    simp at h
  rw [if_neg h1] at h
  by_cases h2 : table_meta.tid ≤ 0
  · rw [if_pos h2] at h
    simp at h
  rw [if_neg h2] at h
  split at h
  · simp at h
  rename_i type htype
  split at h
  · simp at h
  rename_i r hcols
  obtain ⟨_, hall⟩ := CheckColumns_ok _ _ _ _ _ _ hcols
  intro c hc hfd
  obtain ⟨hlook, hidx⟩ := hall c hc
  have hadd : c.add_ts_idx = false := by
    cases ha : c.add_ts_idx with
    | false => rfl
    | true => exact absurd ⟨ha, hfd⟩ hidx
  by_cases hkeys : 0 < table_meta.column_key.length
  · rw [if_pos hkeys] at h
    split at h
    · simp at h
    rename_i hk
    have hkeys_ok := CheckColumnKeys_none _ _ _ _ hk
    refine ⟨?_, ?_, hadd⟩
    · intro k hkm hmem
      obtain ⟨t, ht, hnot⟩ := CheckColName_none _ _ _ (hkeys_ok k hkm).1 c.name hmem
      rw [hlook] at ht
      simp only [Option.some.injEq] at ht
      exact hnot (ht ▸ hfd)
    · intro k hkm hempty hname
      have hi := (hkeys_ok k hkm).2
      unfold CheckIndexName at hi
      rw [hempty, hname, hlook] at hi
      simp only [List.isEmpty_nil, if_true] at hi
      rw [if_pos hfd] at hi
      exact absurd hi (by simp)
  · have hnil : table_meta.column_key = [] := by
      cases hck : table_meta.column_key with
      | nil => rfl
      | cons a l => rw [hck] at hkeys; simp at hkeys
    rw [hnil]
    exact ⟨fun k hk => absurd hk (List.not_mem_nil k),
      fun k hk => absurd hk (List.not_mem_nil k), hadd⟩

/-- C20 on the table meta `metaWithFloat`, with the columns `a` (`string`,
indexed) and `f` (`float`) and the column key `a`: the check passes, and `f`
takes part in no index. -/
theorem C20_float_double_not_indexed_witness :
    (CheckTableMeta ⟨100, 100⟩ metaWithFloat).1 = 0
    ∧ ∀ c ∈ metaWithFloat.column_desc, c.type = "float" ∨ c.type = "double" →
        (∀ k ∈ metaWithFloat.column_key, c.name ∉ k.col_name)
        ∧ (∀ k ∈ metaWithFloat.column_key, k.col_name = [] → k.index_name ≠ c.name)
        ∧ c.add_ts_idx = false :=
  ⟨by decide, C20_float_double_not_indexed ⟨100, 100⟩ metaWithFloat (by decide)⟩

/-! Table meta validation: the ts columns -/

/-- What the branch on `is_ts_col` does to `ts_set` when it passes: a ts column
has one of the three ts types and its name is inserted, any other column
leaves `ts_set` as it is. -/
theorem CheckTsCol_ok (flags : MetaFlags) (type : TTLType) (ts_set : List String)
    (column_desc : ColumnDesc) (ts_set1 : List String)
    (h : CheckTsCol flags type ts_set column_desc = Except.ok ts_set1) :
    (column_desc.is_ts_col = true →
      ts_set1 = SetInsert ts_set column_desc.name
      ∧ (column_desc.type = "int64" ∨ column_desc.type = "uint64"
          ∨ column_desc.type = "timestamp"))
    ∧ (column_desc.is_ts_col = false → ts_set1 = ts_set) := by
  unfold CheckTsCol at h
  by_cases hts : column_desc.is_ts_col = true
  · rw [if_pos hts] at h
    refine ⟨fun _ => ?_, fun hf => absurd hts (by simp [hf])⟩
    by_cases h1 : column_desc.add_ts_idx = true
    · rw [if_pos h1] at h
      exact absurd h (by simp)
    rw [if_neg h1] at h
    by_cases h2 : column_desc.type ≠ "int64" ∧ column_desc.type ≠ "uint64"
        ∧ column_desc.type ≠ "timestamp"
    · rw [if_pos h2] at h
      exact absurd h (by simp)
    rw [if_neg h2] at h
    have htype : column_desc.type = "int64" ∨ column_desc.type = "uint64"
        ∨ column_desc.type = "timestamp" := by
      by_contra hc
      exact h2 ⟨fun e => hc (Or.inl e), fun e => hc (Or.inr (Or.inl e)),
        fun e => hc (Or.inr (Or.inr e))⟩
    refine ⟨?_, htype⟩
    by_cases h3 : column_desc.abs_ttl.isSome = true ∨ column_desc.lat_ttl.isSome = true
    · rw [if_pos h3] at h
      by_cases h4 : flags.absolute_ttl_max < column_desc.abs_ttl.getD 0
          ∨ flags.latest_ttl_max < column_desc.lat_ttl.getD 0
      · rw [if_pos h4] at h
        exact absurd h (by simp)
      · rw [if_neg h4] at h
        simp only [Except.ok.injEq] at h
        exact h.symm
    · rw [if_neg h3] at h
      by_cases h5 : column_desc.ttl.isSome = true
          ∧ TtlOver flags type (column_desc.ttl.getD 0) = true
      · rw [if_pos h5] at h
        exact absurd h (by simp)
      · rw [if_neg h5] at h
        simp only [Except.ok.injEq] at h
        exact h.symm
  · rw [if_neg hts] at h
    simp only [Except.ok.injEq] at h
    exact ⟨fun ht => absurd ht hts, fun _ => h.symm⟩

/-- What one turn of the column loop does to `ts_set` when it passes. -/
theorem CheckColumnDesc_ts (flags : MetaFlags) (type : TTLType)
    (column_map : List (String × String)) (ts_set : List String) (column_desc : ColumnDesc)
    (r : List (String × String) × List String)
    (h : CheckColumnDesc flags type column_map ts_set column_desc = Except.ok r) :
    CheckTsCol flags type ts_set column_desc = Except.ok r.2 := by
  unfold CheckColumnDesc at h
  by_cases h1 : (column_map.lookup column_desc.name).isSome = true
  · rw [if_pos h1] at h
    exact absurd h (by simp)
  rw [if_neg h1] at h
  split at h
  · exact absurd h (by simp)
  · rename_i ts_set1 hts
    by_cases h2 : column_desc.add_ts_idx = true
        ∧ (column_desc.type = "float" ∨ column_desc.type = "double")
    · rw [if_pos h2] at h
      exact absurd h (by simp)
    · rw [if_neg h2] at h
      simp only [Except.ok.injEq] at h
      rw [hts, ← h]

/-- When the column loop passes from a `ts_set` whose names are all recorded in
`column_map`, the final `ts_set` is the old one followed by the names of the ts
columns of the loop, in order, and every ts column has one of the three ts
types. -/
theorem CheckColumns_ts (flags : MetaFlags) (type : TTLType) (cols : List ColumnDesc)
    (column_map : List (String × String)) (ts_set : List String)
    (r : List (String × String) × List String)
    (hin : ∀ n ∈ ts_set, (column_map.lookup n).isSome = true)
    (h : CheckColumns flags type cols column_map ts_set = Except.ok r) :
    r.2 = ts_set ++ (cols.filter (fun c => c.is_ts_col)).map (fun c => c.name)
    ∧ ∀ c ∈ cols, c.is_ts_col = true →
        c.type = "int64" ∨ c.type = "uint64" ∨ c.type = "timestamp" := by
  induction cols generalizing column_map ts_set with
  | nil =>
    simp only [CheckColumns, Except.ok.injEq] at h
    subst h
    exact ⟨by simp, fun c hc => absurd hc (List.not_mem_nil c)⟩
  | cons c rest ih =>
    rw [CheckColumns] at h
    split at h
    · exact absurd h (by simp)
    · rename_i r1 hr1
      obtain ⟨hnone, hmap, _⟩ := CheckColumnDesc_ok _ _ _ _ _ _ hr1
      obtain ⟨hts, hnts⟩ := CheckTsCol_ok _ _ _ _ _ (CheckColumnDesc_ts _ _ _ _ _ _ hr1)
      have hnotin : c.name ∉ ts_set := by
        intro hmem
        have := hin _ hmem
        rw [hnone] at this
        exact absurd this (by simp)
      have hr1set : r1.2 = ts_set ++ (if c.is_ts_col then [c.name] else []) := by
        cases hc : c.is_ts_col with
        | true =>
          rw [(hts hc).1]
          simp [SetInsert, hnotin]
        | false =>
          rw [hnts hc]
          simp
      have hin1 : ∀ n ∈ r1.2, (r1.1.lookup n).isSome = true := by
        intro n hn
        rw [hr1set] at hn
        rw [hmap]
        rcases List.mem_append.mp hn with hn | hn
        · have h0 := hin n hn
          cases hl : column_map.lookup n with
          | none => rw [hl] at h0; exact absurd h0 (by simp)
          | some v => rw [MapInsert_keeps _ _ _ _ _ hl]; rfl
        · cases hc : c.is_ts_col with
          | true =>
            rw [hc] at hn
            simp only [if_true, List.mem_singleton] at hn
            rw [hn, MapInsert_new _ _ _ hnone]
            rfl
          | false =>
            rw [hc] at hn
            simp at hn
      obtain ⟨hset, htypes⟩ := ih _ _ hin1 h
      refine ⟨?_, ?_⟩
      · rw [hset, hr1set]
        cases hc : c.is_ts_col with
        | true => simp [List.filter_cons, hc]
        | false => simp [List.filter_cons, hc]
      · intro c1 hc1 hts1
        rcases List.mem_cons.mp hc1 with hc1 | hc1
        · subst hc1
          exact (hts hts1).2
        · exact htypes c1 hc1 hts1

/-- When the loop over the `ts_name` entries passes, every name is in `ts_set`. -/
theorem CheckTsName_none (ts_set : List String) (names ts_name_set : List String)
    (h : CheckTsName ts_set names ts_name_set = none) : ∀ n ∈ names, n ∈ ts_set := by
  induction names generalizing ts_name_set with
  | nil => exact fun n hn => absurd hn (List.not_mem_nil n)
  | cons name rest ih =>
    rw [CheckTsName] at h
    by_cases h1 : name ∉ ts_set
    · rw [if_pos h1] at h
      exact absurd h (by simp)
    rw [if_neg h1] at h
    by_cases h2 : name ∈ ts_name_set
    · rw [if_pos h2] at h
      exact absurd h (by simp)
    rw [if_neg h2] at h
    intro n hn
    rcases List.mem_cons.mp hn with hn | hn
    · subst hn
      exact not_not.mp h1
    · exact ih _ h n hn

/-- When the loop over `column_key` passes, every column key passed the loop
over its `ts_name` entries, and lists a `ts_name` when `ts_set` holds more than
one name. -/
theorem CheckColumnKeys_ts (column_map : List (String × String)) (ts_set : List String)
    (keys : List ColumnKey) (index_set : List String)
    (h : CheckColumnKeys column_map ts_set keys index_set = none) :
    ∀ k ∈ keys, CheckTsName ts_set k.ts_name [] = none
      ∧ ¬(1 < ts_set.length ∧ k.ts_name.length = 0) := by
  induction keys generalizing index_set with
  | nil => exact fun k hk => absurd hk (List.not_mem_nil k)
  | cons key rest ih =>
    rw [CheckColumnKeys] at h
    split at h
    · exact absurd h (by simp)
    · rename_i index_set1 hkey
      have hthis : CheckTsName ts_set key.ts_name [] = none
          ∧ ¬(1 < ts_set.length ∧ key.ts_name.length = 0) := by
        unfold CheckColumnKey at hkey
        by_cases hrep : key.index_name ∈ index_set
        · rw [if_pos hrep] at hkey
          exact absurd hkey (by simp)
        rw [if_neg hrep] at hkey
        split at hkey
        · exact absurd hkey (by simp)
        · split at hkey
          · exact absurd hkey (by simp)
          · split at hkey
            · exact absurd hkey (by simp)
            · rename_i hts
              by_cases hmany : 1 < ts_set.length ∧ key.ts_name.length = 0
              · rw [if_pos hmany] at hkey
                exact absurd hkey (by simp)
              · exact ⟨hts, hmany⟩
      intro k hk
      rcases List.mem_cons.mp hk with hk | hk
      · subst hk
        exact hthis
      · exact ih _ h k hk

/-- C21: if `CheckTableMeta` returns `0`, every `ts_name` of every column key is
the name of a column marked `is_ts_col` whose type is `int64`, `uint64` or
`timestamp`; and if more than one column is marked `is_ts_col`, there is at
least one column key and every column key lists at least one `ts_name`. -/
theorem C21_ts_columns (flags : MetaFlags) (table_meta : TableMeta)
    (h : (CheckTableMeta flags table_meta).1 = 0) :
    (∀ k ∈ table_meta.column_key, ∀ n ∈ k.ts_name,
      ∃ c ∈ table_meta.column_desc, c.name = n ∧ c.is_ts_col = true
        ∧ (c.type = "int64" ∨ c.type = "uint64" ∨ c.type = "timestamp"))
    ∧ (1 < (table_meta.column_desc.filter (fun c => c.is_ts_col)).length →
      table_meta.column_key ≠ [] ∧ ∀ k ∈ table_meta.column_key, k.ts_name ≠ []) := by
  unfold CheckTableMeta at h
  by_cases h1 : table_meta.name.utf8ByteSize ≤ 0
  · rw [if_pos h1] at h
    simp at h
  rw [if_neg h1] at h
  by_cases h2 : table_meta.tid ≤ 0
  · rw [if_pos h2] at h
    simp at h
  rw [if_neg h2] at h
  split at h
  · simp at h
  rename_i type htype
  split at h
  · simp at h
  rename_i r hcols
  obtain ⟨hset, htypes⟩ := CheckColumns_ts _ _ _ _ _ _
    (fun n hn => absurd hn (List.not_mem_nil n)) hcols
  rw [List.nil_append] at hset
  have hlen : r.2.length = (table_meta.column_desc.filter (fun c => c.is_ts_col)).length := by
    rw [hset, List.length_map]
  by_cases hkeys : 0 < table_meta.column_key.length
  · rw [if_pos hkeys] at h
    split at h
    · simp at h
    rename_i hk
    have hkeys_ok := CheckColumnKeys_ts _ _ _ _ hk
    refine ⟨?_, ?_⟩
    · intro k hkm n hn
      have hmem := CheckTsName_none _ _ _ (hkeys_ok k hkm).1 n hn
      rw [hset, List.mem_map] at hmem
      obtain ⟨c, hc, hname⟩ := hmem
      rw [List.mem_filter] at hc
      exact ⟨c, hc.1, hname, hc.2, htypes c hc.1 hc.2⟩
    · intro hmany
      refine ⟨fun hnil => ?_, ?_⟩
      · rw [hnil] at hkeys
        simp at hkeys
      · intro k hkm hnil
        apply (hkeys_ok k hkm).2
        rw [hlen, hnil]
        exact ⟨hmany, rfl⟩
  · rw [if_neg hkeys] at h
    have hnil : table_meta.column_key = [] := by
      cases hck : table_meta.column_key with
      | nil => rfl
      | cons a l => rw [hck] at hkeys; simp at hkeys
    refine ⟨?_, ?_⟩
    · rw [hnil]
      exact fun k hk => absurd hk (List.not_mem_nil k)
    · intro hmany
      rw [← hlen] at hmany
      rw [if_pos hmany] at h
      simp at h

/-- C21 on the table meta `metaWithTwoTs`, with two ts columns and one column
key that lists both: the check passes. -/
theorem C21_ts_columns_witness :
    (CheckTableMeta ⟨100, 100⟩ metaWithTwoTs).1 = 0
    ∧ (∀ k ∈ metaWithTwoTs.column_key, ∀ n ∈ k.ts_name,
      ∃ c ∈ metaWithTwoTs.column_desc, c.name = n ∧ c.is_ts_col = true
        ∧ (c.type = "int64" ∨ c.type = "uint64" ∨ c.type = "timestamp"))
    ∧ (1 < (metaWithTwoTs.column_desc.filter (fun c => c.is_ts_col)).length →
      metaWithTwoTs.column_key ≠ [] ∧ ∀ k ∈ metaWithTwoTs.column_key, k.ts_name ≠ []) :=
  ⟨by decide, C21_ts_columns ⟨100, 100⟩ metaWithTwoTs (by decide)⟩

/-! The choice of the root path -/

/-- C22: with no root configured for the mode `ChooseDBRootPath` returns
`false`; with exactly one root it returns that root (and `true` when the root
is not the empty string); with `n >= 2` roots, none empty (and `n` within the
range of the `uint32_t index`), it returns `true` and the root at index
`hash(str(tid) + str(pid), SEED) mod n`, an index below `n`, where `SEED` is
`0xe17a1465`; and the result depends on the tablet through the configured
roots only, so it is the same on every call. -/
theorem C22_choose_db_root_path (hash : String → Nat → Nat) (s : TabletImpl) (tid pid : Nat)
    (mode : StorageMode) :
    SEED = 0xe17a1465
    ∧ (s.mode_root_paths_ mode = [] → (ChooseDBRootPath hash s tid pid mode).1 = false)
    ∧ (∀ root, s.mode_root_paths_ mode = [root] →
        (ChooseDBRootPath hash s tid pid mode).2 = root
        ∧ (root.utf8ByteSize ≠ 0 → (ChooseDBRootPath hash s tid pid mode).1 = true))
    ∧ (2 ≤ (s.mode_root_paths_ mode).length → (s.mode_root_paths_ mode).length ≤ 2 ^ 32 →
        (∀ root ∈ s.mode_root_paths_ mode, root.utf8ByteSize ≠ 0) →
        (ChooseDBRootPath hash s tid pid mode).1 = true
        ∧ hash (toString tid ++ toString pid) SEED % (s.mode_root_paths_ mode).length
            < (s.mode_root_paths_ mode).length
        ∧ (s.mode_root_paths_ mode)[hash (toString tid ++ toString pid) SEED
              % (s.mode_root_paths_ mode).length]?
            = some (ChooseDBRootPath hash s tid pid mode).2)
    ∧ (∀ s1 : TabletImpl, s1.mode_root_paths_ = s.mode_root_paths_ →
        ChooseDBRootPath hash s1 tid pid mode = ChooseDBRootPath hash s tid pid mode) := by
  refine ⟨rfl, ?_, ?_, ?_, ?_⟩
  · intro h
    simp [ChooseDBRootPath, h]
  · intro root h
    simp [ChooseDBRootPath, h]
  · intro h2 h32 hne
    have hpos : 0 < (s.mode_root_paths_ mode).length := by omega
    have hlt := Nat.mod_lt (hash (toString tid ++ toString pid) SEED) hpos
    have hmod : hash (toString tid ++ toString pid) SEED % (s.mode_root_paths_ mode).length
        % 2 ^ 32 = hash (toString tid ++ toString pid) SEED % (s.mode_root_paths_ mode).length :=
      Nat.mod_eq_of_lt (by omega)
    have hget : (s.mode_root_paths_ mode).getD
        (hash (toString tid ++ toString pid) SEED % (s.mode_root_paths_ mode).length) ""
        = (s.mode_root_paths_ mode)[hash (toString tid ++ toString pid) SEED
            % (s.mode_root_paths_ mode).length] := by
      rw [List.getD_eq_getElem?_getD, List.getElem?_eq_getElem hlt]
      rfl
    have hres : ChooseDBRootPath hash s tid pid mode
        = (decide (((s.mode_root_paths_ mode)[hash (toString tid ++ toString pid) SEED
            % (s.mode_root_paths_ mode).length]).utf8ByteSize ≠ 0),
          (s.mode_root_paths_ mode)[hash (toString tid ++ toString pid) SEED
            % (s.mode_root_paths_ mode).length]) := by
      unfold ChooseDBRootPath
      dsimp only
      rw [if_neg (by omega), if_neg (by omega), hmod, hget]
    rw [hres]
    refine ⟨?_, hlt, ?_⟩
    · exact decide_eq_true (hne _ (List.getElem_mem _))
    · exact List.getElem?_eq_getElem hlt
  · intro s1 h
    exact ChooseDBRootPath_roots hash s s1 h tid pid mode

/-- C22 on a tablet with the two memory roots `/a` and `/b` and a hash that
always yields `5`: partition `(1, 0)` is placed under root `5 mod 2 = 1`, that
is `/b`. -/
theorem C22_choose_db_root_path_witness :
    ChooseDBRootPath (fun _ _ => 5)
        { emptyTablet with mode_root_paths_ := fun _ => ["/a", "/b"] } 1 0 StorageMode.kMemory
      = (true, "/b")
    ∧ (["/a", "/b"] : List String)[5 % 2]?
      = some (ChooseDBRootPath (fun _ _ => 5)
          { emptyTablet with mode_root_paths_ := fun _ => ["/a", "/b"] } 1 0
          StorageMode.kMemory).2 :=
  ⟨by decide,
    ((C22_choose_db_root_path (fun _ _ => 5)
      { emptyTablet with mode_root_paths_ := fun _ => ["/a", "/b"] } 1 0
      StorageMode.kMemory).2.2.2.1 (by decide) (by decide) (by decide)).2.2⟩

/-! The bounded seek `SeekWithCount` -/

/-- The loop of `SeekWithCount` for the modes `Eq`, `Le` and `Lt` and a budget
`max_cnt > 0`: it walks over entries that are not the target, counts them
without leaving the budget, and returns `true` only on the target, met before
the budget is used up. -/
theorem SeekWithCountLoop_target (time : Nat) (type : GetType) (max_cnt : Nat)
    (htype : type = GetType.kSubKeyEq ∨ type = GetType.kSubKeyLe ∨ type = GetType.kSubKeyLt)
    (hpos : 0 < max_cnt) (h32 : max_cnt < 2 ^ 32) (l : List Entry) (cnt : Nat)
    (hcnt : cnt ≤ max_cnt) :
    ∃ pre, l = pre ++ (SeekWithCountLoop time type max_cnt l cnt).2.1
      ∧ (SeekWithCountLoop time type max_cnt l cnt).2.2 = cnt + pre.length
      ∧ cnt + pre.length ≤ max_cnt
      ∧ (∀ x ∈ pre, ¬SeekTarget type time x)
      ∧ ((SeekWithCountLoop time type max_cnt l cnt).1 = true →
          cnt + pre.length < max_cnt
          ∧ ∃ e rest, (SeekWithCountLoop time type max_cnt l cnt).2.1 = e :: rest
            ∧ SeekTarget type time e) := by
  induction l generalizing cnt with
  | nil =>
    exact ⟨[], by simp [SeekWithCountLoop], by simp [SeekWithCountLoop], by simpa using hcnt,
      fun x hx => absurd hx (List.not_mem_nil x), fun h => by simp [SeekWithCountLoop] at h⟩
  | cons e rest ih =>
    by_cases hb : cnt < max_cnt ∨ max_cnt = 0
    · have hlt : cnt < max_cnt := by
        rcases hb with hb | hb
        · exact hb
        · omega
      have hmod : (cnt + 1) % 2 ^ 32 = cnt + 1 := Nat.mod_eq_of_lt (by omega)
      have hit : ∀ b : Bool, (b = true → SeekTarget type time e) →
          ∃ pre, e :: rest = pre ++ ((b, e :: rest, cnt) : Bool × List Entry × Nat).2.1
            ∧ ((b, e :: rest, cnt) : Bool × List Entry × Nat).2.2 = cnt + pre.length
            ∧ cnt + pre.length ≤ max_cnt
            ∧ (∀ x ∈ pre, ¬SeekTarget type time x)
            ∧ (((b, e :: rest, cnt) : Bool × List Entry × Nat).1 = true →
                cnt + pre.length < max_cnt
                ∧ ∃ e1 rest1, ((b, e :: rest, cnt) : Bool × List Entry × Nat).2.1 = e1 :: rest1
                  ∧ SeekTarget type time e1) := by
        intro b hbt
        exact ⟨[], rfl, rfl, by simpa using hcnt, fun x hx => absurd hx (List.not_mem_nil x),
          fun h => ⟨by simpa using hlt, e, rest, rfl, hbt h⟩⟩
      have miss : ¬SeekTarget type time e →
          ∃ pre, e :: rest = pre ++ (SeekWithCountLoop time type max_cnt rest (cnt + 1)).2.1
            ∧ (SeekWithCountLoop time type max_cnt rest (cnt + 1)).2.2 = cnt + pre.length
            ∧ cnt + pre.length ≤ max_cnt
            ∧ (∀ x ∈ pre, ¬SeekTarget type time x)
            ∧ ((SeekWithCountLoop time type max_cnt rest (cnt + 1)).1 = true →
                cnt + pre.length < max_cnt
                ∧ ∃ e1 rest1, (SeekWithCountLoop time type max_cnt rest (cnt + 1)).2.1
                    = e1 :: rest1 ∧ SeekTarget type time e1) := by
        intro hmiss
        obtain ⟨pre, h1, h2, h3, h4, h5⟩ := ih (cnt + 1) (by omega)
        refine ⟨e :: pre, by rw [List.cons_append, ← h1], ?_, ?_, ?_, ?_⟩
        · rw [h2, List.length_cons]; omega
        · rw [List.length_cons]; omega
        · intro x hx
          rcases List.mem_cons.mp hx with hx | hx
          · rw [hx]; exact hmiss
          · exact h4 x hx
        · intro ht
          obtain ⟨h6, h7⟩ := h5 ht
          exact ⟨by rw [List.length_cons]; omega, h7⟩
      rcases htype with ht | ht | ht
      · subst ht
        rw [SeekWithCountLoop, if_pos hb]
        by_cases hk : e.ts ≤ time
        · rw [if_pos hk]
          exact hit _ (fun h => by simpa [SeekTarget] using h)
        · rw [if_neg hk, hmod]
          exact miss (by simp only [SeekTarget]; omega)
      · subst ht
        rw [SeekWithCountLoop, if_pos hb]
        by_cases hk : e.ts ≤ time
        · rw [if_pos hk]
          exact hit _ (fun _ => by simpa [SeekTarget] using hk)
        · rw [if_neg hk, hmod]
          exact miss (by simp only [SeekTarget]; omega)
      · subst ht
        rw [SeekWithCountLoop, if_pos hb]
        by_cases hk : e.ts < time
        · rw [if_pos hk]
          exact hit _ (fun _ => by simpa [SeekTarget] using hk)
        · rw [if_neg hk, hmod]
          exact miss (by simp only [SeekTarget]; omega)
    · rcases htype with ht | ht | ht <;> subst ht <;> rw [SeekWithCountLoop, if_neg hb] <;>
        exact ⟨[], rfl, rfl, by simpa using hcnt, fun x hx => absurd hx (List.not_mem_nil x),
          fun h => by simp at h⟩

/-- C23: for the modes `Eq`, `Le` and `Lt` and a budget `0 < max_cnt` (a
`uint32_t`), `SeekWithCount` called with `cnt = 0` leaves the iterator behind a
run `pre` of entries none of which is the target, of length `cnt <= max_cnt`
(the number of times the iterator was advanced).  It returns `true` only if the
iterator then rests on the target, the first entry with `ts <= st`, `ts < st`
or `ts == st`, and that entry is among the first `max_cnt` entries; so it
returns `false` when the target is not among them. -/
theorem C23_seek_with_count (it : TableIterator) (st : Nat) (type : GetType) (max_cnt : Nat)
    (htype : type = GetType.kSubKeyEq ∨ type = GetType.kSubKeyLe ∨ type = GetType.kSubKeyLt)
    (hpos : 0 < max_cnt) (h32 : max_cnt < 2 ^ 32) :
    (∃ pre, it.entries = pre ++ (SeekWithCount it st type max_cnt 0).2.1.cur
      ∧ (SeekWithCount it st type max_cnt 0).2.2 = pre.length
      ∧ pre.length ≤ max_cnt
      ∧ (∀ x ∈ pre, ¬SeekTarget type st x)
      ∧ ((SeekWithCount it st type max_cnt 0).1 = true →
          pre.length < max_cnt
          ∧ ∃ e rest, (SeekWithCount it st type max_cnt 0).2.1.cur = e :: rest
            ∧ SeekTarget type st e))
    ∧ ((¬∃ pre e rest, it.entries = pre ++ e :: rest ∧ pre.length < max_cnt
          ∧ SeekTarget type st e ∧ ∀ x ∈ pre, ¬SeekTarget type st x) →
        (SeekWithCount it st type max_cnt 0).1 = false) := by
  obtain ⟨pre, h1, h2, h3, h4, h5⟩ :=
    SeekWithCountLoop_target st type max_cnt htype hpos h32 it.entries 0 (Nat.zero_le _)
  have hcur : (SeekWithCount it st type max_cnt 0).2.1.cur
      = (SeekWithCountLoop st type max_cnt it.entries 0).2.1 := rfl
  have hcnt : (SeekWithCount it st type max_cnt 0).2.2
      = (SeekWithCountLoop st type max_cnt it.entries 0).2.2 := rfl
  have hflag : (SeekWithCount it st type max_cnt 0).1
      = (SeekWithCountLoop st type max_cnt it.entries 0).1 := rfl
  rw [Nat.zero_add] at h2 h3 h5
  refine ⟨⟨pre, by rw [hcur]; exact h1, by rw [hcnt]; exact h2, h3, h4, ?_⟩, ?_⟩
  · intro ht
    rw [hflag] at ht
    rw [hcur]
    exact h5 ht
  · intro hno
    cases hf : (SeekWithCount it st type max_cnt 0).1 with
    | false => rfl
    | true =>
      rw [hflag] at hf
      obtain ⟨hlt, e, rest, hrest, htar⟩ := h5 hf
      exact absurd ⟨pre, e, rest, by rw [← hrest]; exact h1, hlt, htar, h4⟩ hno

/-- C23 on the entries `300, 200, 100`: with a budget of `2` a seek for
`ts <= 250` stops on `200` after one step, and a seek for `ts <= 150` gives up
after two steps. -/
theorem C23_seek_with_count_witness :
    SeekWithCount (TableIterator.mk0 [⟨300, "c"⟩, ⟨200, "b"⟩, ⟨100, "a"⟩]) 250
        GetType.kSubKeyLe 2 0
      = (true, ⟨[⟨300, "c"⟩, ⟨200, "b"⟩, ⟨100, "a"⟩], [⟨200, "b"⟩, ⟨100, "a"⟩]⟩, 1)
    ∧ SeekWithCount (TableIterator.mk0 [⟨300, "c"⟩, ⟨200, "b"⟩, ⟨100, "a"⟩]) 150
        GetType.kSubKeyLe 2 0
      = (false, ⟨[⟨300, "c"⟩, ⟨200, "b"⟩, ⟨100, "a"⟩], [⟨100, "a"⟩]⟩, 2)
    ∧ ((¬∃ pre e rest, (TableIterator.mk0 [⟨300, "c"⟩, ⟨200, "b"⟩, ⟨100, "a"⟩]).entries
          = pre ++ e :: rest ∧ pre.length < 2
          ∧ SeekTarget GetType.kSubKeyLe 150 e ∧ ∀ x ∈ pre, ¬SeekTarget GetType.kSubKeyLe 150 x) →
        (SeekWithCount (TableIterator.mk0 [⟨300, "c"⟩, ⟨200, "b"⟩, ⟨100, "a"⟩]) 150
          GetType.kSubKeyLe 2 0).1 = false) :=
  ⟨by decide, by decide,
    (C23_seek_with_count (TableIterator.mk0 [⟨300, "c"⟩, ⟨200, "b"⟩, ⟨100, "a"⟩]) 150
      GetType.kSubKeyLe 2 (Or.inr (Or.inl rfl)) (by decide) (by decide)).2⟩

/-! The promotion of a `Gt` end bound below `expire_time` -/

/-- C24 at the failing input.  `ScanIndex` and `CountIndex` decide the promotion
of `Gt` to `Ge` on the request's `et` and compare with `RealEtType` and
`RealEt`: for `et < expire_time` and `et_type = Gt` an entry whose `ts` equals
the effective end bound passes, for every `ttl_type`.  `GetIndex` raises `et`
to `max(et, expire_time)` before it tests `et < expire_time`: under
`kAbsoluteTime` and `kAbsOrLat` the bound stays `Gt`, and the entry with
`ts = 100 = max(50, 100)` is refused with code `1`, where the bound `Ge` would
return it; under `kAbsAndLat` the promotion takes place and the entry with
`ts = 50` is returned. -/
theorem C24_get_index_keeps_gt :
    GetIndex 100 0 TTLType.kAbsoluteTime (TableIterator.mk0 [⟨100, "v"⟩])
        ⟨1, 0, 100, GetType.kSubKeyLe, 50, GetType.kSubKeyGt⟩ = ⟨1, none⟩
    ∧ GetIndexTail (Seek (TableIterator.mk0 [⟨100, "v"⟩]) 100 GetType.kSubKeyLe).2
        GetType.kSubKeyLe GetType.kSubKeyGe 100 = ⟨0, some (100, "v")⟩
    ∧ GetIndex 100 0 TTLType.kAbsOrLat (TableIterator.mk0 [⟨100, "v"⟩])
        ⟨1, 0, 100, GetType.kSubKeyLe, 50, GetType.kSubKeyGt⟩ = ⟨1, none⟩
    ∧ GetIndex 100 0 TTLType.kAbsAndLat (TableIterator.mk0 [⟨50, "v"⟩])
        ⟨1, 0, 0, GetType.kSubKeyLe, 50, GetType.kSubKeyGt⟩ = ⟨0, some (50, "v")⟩
    ∧ ∀ (expire_time et : Nat) (ttl_type : TTLType), et < expire_time →
        EndBound (RealEtType expire_time et GetType.kSubKeyGt)
          (RealEt expire_time ttl_type et) (RealEt expire_time ttl_type et) = some false := by
  refine ⟨by decide, by decide, by decide, by decide, ?_⟩
  intro expire_time et ttl_type h
  simp [RealEtType, h, EndBound]

/-! Scan with start type `Eq` -/

/-- On a newest-first sequence every entry from the position of `Seek(t)` on
has a timestamp of at most `t`. -/
theorem dropWhile_le (l : List Entry) (t : Nat) (hs : NewestFirst l) :
    ∀ x ∈ l.dropWhile (fun e => decide (t < e.ts)), x.ts ≤ t := by
  induction l with
  | nil => exact fun x hx => absurd hx (List.not_mem_nil x)
  | cons y ys ih =>
    obtain ⟨hhead, htail⟩ := List.pairwise_cons.mp hs
    by_cases hy : t < y.ts
    · rw [List.dropWhile_cons_of_pos (by simpa using hy)]
      exact ih htail
    · rw [List.dropWhile_cons_of_neg (by simpa using hy)]
      intro x hx
      rcases List.mem_cons.mp hx with hx | hx
      · rw [hx]; omega
      · have := hhead x hx
        omega

/-- C25 (amended): a `ScanIndex` request with `st_type = Eq` is served exactly
as the same request with `st_type = Le`: same code, same rows, same count.  No
equality filter is applied to the rows; under `kAbsoluteTime`, on a newest-first
iterator and for `st > 0`, every returned entry has `ts <= st`. -/
theorem C25_scan_eq_as_le (env : ScanEnv) (expire_time expire_cnt : Nat) (ttl_type : TTLType)
    (it : TableIterator) (request : ScanRequest)
    (heq : request.st_type = GetType.kSubKeyEq) :
    ScanIndex env expire_time expire_cnt ttl_type it request
      = ScanIndex env expire_time expire_cnt ttl_type it
          { request with st_type := GetType.kSubKeyLe }
    ∧ (ttl_type = TTLType.kAbsoluteTime → NewestFirst it.entries → 0 < request.st →
        ∀ e ∈ (ScanIndex env expire_time expire_cnt ttl_type it request).rows,
          e.ts ≤ request.st) := by
  refine ⟨?_, ?_⟩
  · simp [ScanIndex, heq, RealStType]
  · intro httl hs hst e he
    by_cases hc : (ScanIndex env expire_time expire_cnt ttl_type it request).code = 0
    · obtain ⟨_, total, hloop⟩ :=
        ScanIndex_code_zero env expire_time expire_cnt ttl_type it request hc
      obtain ⟨out, h1, h2⟩ := ScanLoop_sublist _ _ _ _ _ _ _ _ _ _ _ _ _ _ _ _ hloop
      rw [h1, List.nil_append] at he
      have hmem := h2.subset he
      have hstart : (ScanStart expire_cnt ttl_type it request.st
          (RealStType request.st_type)).1.cur
          = it.entries.dropWhile (fun e => decide (request.st < e.ts)) := by
        subst httl
        simp [ScanStart, hst, heq, RealStType, Seek, TableIterator.Seek]
      rw [hstart] at hmem
      exact dropWhile_le _ _ hs e hmem
    · rw [ScanIndex_rows_of_code_ne_zero _ _ _ _ _ _ hc] at he
      exact absurd he (List.not_mem_nil e)

/-- C25 (amended) on the entries `100, 90`: the scan from `st = 100` with start
type `Eq` returns what the scan with start type `Le` returns. -/
theorem C25_scan_eq_as_le_witness :
    ScanIndex ⟨1024, fun _ _ => 0⟩ 0 0 TTLType.kAbsoluteTime
        (TableIterator.mk0 [⟨100, "b"⟩, ⟨90, "a"⟩])
        ⟨0, 0, 0, 0, 100, GetType.kSubKeyEq, 0, GetType.kSubKeyGe, false⟩
      = ScanIndex ⟨1024, fun _ _ => 0⟩ 0 0 TTLType.kAbsoluteTime
        (TableIterator.mk0 [⟨100, "b"⟩, ⟨90, "a"⟩])
        ⟨0, 0, 0, 0, 100, GetType.kSubKeyLe, 0, GetType.kSubKeyGe, false⟩ :=
  (C25_scan_eq_as_le ⟨1024, fun _ _ => 0⟩ 0 0 TTLType.kAbsoluteTime
    (TableIterator.mk0 [⟨100, "b"⟩, ⟨90, "a"⟩])
    ⟨0, 0, 0, 0, 100, GetType.kSubKeyEq, 0, GetType.kSubKeyGe, false⟩ rfl).1

/-- C25 as stated fails: on the entries `100, 90` the scan with `st = 100`,
`st_type = Eq` and the end bound `ts >= 0` returns both entries, and `90` is
not equal to `st`. -/
theorem C25_counterexample :
    ScanIndex ⟨1024, fun _ _ => 0⟩ 0 0 TTLType.kAbsoluteTime
        (TableIterator.mk0 [⟨100, "b"⟩, ⟨90, "a"⟩])
        ⟨0, 0, 0, 0, 100, GetType.kSubKeyEq, 0, GetType.kSubKeyGe, false⟩
      = ⟨0, [⟨100, "b"⟩, ⟨90, "a"⟩], 2⟩
    ∧ ¬∀ e ∈ (ScanIndex ⟨1024, fun _ _ => 0⟩ 0 0 TTLType.kAbsoluteTime
        (TableIterator.mk0 [⟨100, "b"⟩, ⟨90, "a"⟩])
        ⟨0, 0, 0, 0, 100, GetType.kSubKeyEq, 0, GetType.kSubKeyGe, false⟩).rows,
        e.ts = 100 := by
  decide

/-! Count against Scan under `kAbsoluteTime` -/

/-- One turn of the scan loop under `kAbsoluteTime` with `limit = 0` and
`atleast = 0`. -/
theorem ScanLoop_abs_cons (env : ScanEnv) (expire_time expire_cnt : Nat) (rd : Bool)
    (real_et_type : GetType) (real_et : Nat) (e : Entry) (rest : List Entry)
    (cnt last_time : Nat) (tmp : List Entry) (total : Nat) :
    ScanLoop env expire_time expire_cnt TTLType.kAbsoluteTime 0 0 rd real_et_type real_et
        (e :: rest) cnt last_time tmp total
      = if expire_time ≠ 0 ∧ e.ts ≤ expire_time then Except.ok (tmp, total)
        else if rd = true ∧ 0 < tmp.length ∧ last_time = e.ts then
          ScanLoop env expire_time expire_cnt TTLType.kAbsoluteTime 0 0 rd real_et_type real_et
            rest cnt last_time tmp total
        else
          match EndBound real_et_type e.ts real_et with
          | none => Except.error (-2)
          | some true => Except.ok (tmp, total)
          | some false =>
            if env.scan_max_bytes_size < (total + e.size) % 2 ^ 32 then Except.error (-3)
            else
              ScanLoop env expire_time expire_cnt TTLType.kAbsoluteTime 0 0 rd real_et_type
                real_et rest ((cnt + 1) % 2 ^ 32) e.ts (tmp ++ [e]) ((total + e.size) % 2 ^ 32) := by
  have hlimit : ¬(0 < 0 ∧ 0 ≤ tmp.length) := by omega
  rw [ScanLoop]
  simp only [if_neg hlimit, reduceCtorEq, false_and, true_and, true_or, if_false, if_true]

/-- One turn of the count loop under `kAbsoluteTime`. -/
theorem CountLoop_abs_cons (expire_time expire_cnt : Nat) (rd : Bool)
    (real_et_type : GetType) (et : Nat) (e : Entry) (rest : List Entry)
    (cnt last_key internal_cnt : Nat) :
    CountLoop expire_time expire_cnt TTLType.kAbsoluteTime rd real_et_type et
        (e :: rest) cnt last_key internal_cnt
      = if rd = true ∧ 0 < internal_cnt ∧ last_key = e.ts then
          CountLoop expire_time expire_cnt TTLType.kAbsoluteTime rd real_et_type et
            rest ((cnt + 1) % 2 ^ 32) last_key internal_cnt
        else if expire_time ≠ 0 ∧ e.ts ≤ expire_time then Except.ok internal_cnt
        else
          match EndBound real_et_type e.ts et with
          | none => Except.error (-2)
          | some true => Except.ok internal_cnt
          | some false =>
            CountLoop expire_time expire_cnt TTLType.kAbsoluteTime rd real_et_type et
              rest ((cnt + 1) % 2 ^ 32) e.ts ((internal_cnt + 1) % 2 ^ 32) := by
  rw [CountLoop]
  simp only [reduceCtorEq, false_and, true_and, if_false]

/-- Whether the `switch (real_et_type)` takes its `default` branch does not depend
on the key. -/
theorem EndBound_none (real_et_type : GetType) (key key1 real_et : Nat)
    (h : EndBound real_et_type key real_et = none) :
    EndBound real_et_type key1 real_et = none := by
  cases real_et_type <;> simp [EndBound] at h ⊢

/-- Under `kAbsoluteTime`, without limit and `atleast`, the loops of `CountIndex`
and `ScanIndex` go the same way from corresponding states, unless the scan
returns `-3`: `internal_cnt` is the number of rows collected, and `last_key` is
`last_time`. -/
theorem CountLoop_ScanLoop (env : ScanEnv) (expire_time expire_cnt : Nat) (rd : Bool)
    (real_et_type : GetType) (real_et : Nat)
    (cur : List Entry) (cnt cnt1 last_time : Nat) (tmp : List Entry) (total : Nat)
    (hlen : tmp.length + cur.length < 2 ^ 32)
    (hlast : 0 < tmp.length → expire_time ≠ 0 → expire_time < last_time) :
    ScanLoop env expire_time expire_cnt TTLType.kAbsoluteTime 0 0 rd real_et_type real_et
        cur cnt last_time tmp total = Except.error (-3)
    ∨ CountLoop expire_time expire_cnt TTLType.kAbsoluteTime rd real_et_type real_et
        cur cnt1 last_time tmp.length
      = (ScanLoop env expire_time expire_cnt TTLType.kAbsoluteTime 0 0 rd real_et_type real_et
          cur cnt last_time tmp total).map (fun r => r.1.length) := by
  induction cur generalizing cnt cnt1 last_time tmp total with
  | nil => exact Or.inr rfl
  | cons e rest ih =>
    rw [List.length_cons] at hlen
    rw [ScanLoop_abs_cons, CountLoop_abs_cons]
    by_cases httl : expire_time ≠ 0 ∧ e.ts ≤ expire_time
    · have hnd : ¬(rd = true ∧ 0 < tmp.length ∧ last_time = e.ts) := by
        rintro ⟨_, hpos, hl⟩
        have := hlast hpos httl.1
        omega
      rw [if_pos httl, if_neg hnd, if_pos httl]
      exact Or.inr rfl
    · rw [if_neg httl]
      by_cases hdup : rd = true ∧ 0 < tmp.length ∧ last_time = e.ts
      · rw [if_pos hdup, if_pos hdup]
        exact ih cnt ((cnt1 + 1) % 2 ^ 32) last_time tmp total (by omega) hlast
      · rw [if_neg hdup, if_neg hdup, if_neg httl]
        cases hb : EndBound real_et_type e.ts real_et with
        | none => exact Or.inr rfl
        | some b =>
          cases b with
          | true => exact Or.inr rfl
          | false =>
            by_cases hfit : env.scan_max_bytes_size < (total + e.size) % 2 ^ 32
            · left
              simp only [if_pos hfit]
            · have hmodc : (tmp.length + 1) % 2 ^ 32 = tmp.length + 1 :=
                Nat.mod_eq_of_lt (by omega)
              simp only [hmodc, if_neg hfit]
              have hih := ih ((cnt + 1) % 2 ^ 32) ((cnt1 + 1) % 2 ^ 32) e.ts (tmp ++ [e])
                ((total + e.size) % 2 ^ 32)
                (by rw [List.length_append, List.length_singleton]; omega)
                (fun _ h0 => by
                  have : ¬(e.ts ≤ expire_time) := fun hle => httl ⟨h0, hle⟩
                  omega)
              rw [List.length_append, List.length_singleton] at hih
              exact hih

/-- A scan loop whose budget is the largest value of a `uint32_t` and which
leaves with rows whose payload is within the budget of `env` goes the same way
under the budget of `env`. -/
theorem ScanLoop_within_budget (env : ScanEnv) (expire_time expire_cnt : Nat) (rd : Bool)
    (real_et_type : GetType) (real_et : Nat)
    (cur : List Entry) (cnt last_time : Nat) (tmp : List Entry) (total : Nat)
    (rows : List Entry) (t : Nat)
    (hinv : total ≤ (tmp.map Entry.size).sum)
    (hfree : ScanLoop ⟨2 ^ 32 - 1, env.EncodeRows⟩ expire_time expire_cnt
      TTLType.kAbsoluteTime 0 0 rd real_et_type real_et cur cnt last_time tmp total
        = Except.ok (rows, t))
    (hsum : (rows.map Entry.size).sum ≤ env.scan_max_bytes_size) :
    ScanLoop env expire_time expire_cnt TTLType.kAbsoluteTime 0 0 rd real_et_type real_et
        cur cnt last_time tmp total = Except.ok (rows, t) := by
  induction cur generalizing cnt last_time tmp total with
  | nil => exact hfree
  | cons e rest ih =>
    rw [ScanLoop_abs_cons] at hfree ⊢
    by_cases httl : expire_time ≠ 0 ∧ e.ts ≤ expire_time
    · rw [if_pos httl] at hfree ⊢
      exact hfree
    · rw [if_neg httl] at hfree ⊢
      by_cases hdup : rd = true ∧ 0 < tmp.length ∧ last_time = e.ts
      · rw [if_pos hdup] at hfree ⊢
        exact ih _ _ _ _ hinv hfree
      · rw [if_neg hdup] at hfree ⊢
        cases hb : EndBound real_et_type e.ts real_et with
        | none => rw [hb] at hfree; exact hfree
        | some b =>
          rw [hb] at hfree
          cases b with
          | true => exact hfree
          | false =>
            have hmax : ¬((⟨2 ^ 32 - 1, env.EncodeRows⟩ : ScanEnv).scan_max_bytes_size
                < (total + e.size) % 2 ^ 32) := by
              have := Nat.mod_lt (total + e.size) (by decide : 0 < 2 ^ 32)
              simp only
              omega
            simp only [if_neg hmax] at hfree
            obtain ⟨out, hrows, _⟩ := ScanLoop_sublist _ _ _ _ _ _ _ _ _ _ _ _ _ _ _ _ hfree
            have hle : (total + e.size) % 2 ^ 32 ≤ ((tmp ++ [e]).map Entry.size).sum := by
              have := Nat.mod_le (total + e.size) (2 ^ 32)
              simp only [List.map_append, List.sum_append, List.map_cons, List.map_nil,
                List.sum_cons, List.sum_nil]
              omega
            have hfit : ¬(env.scan_max_bytes_size < (total + e.size) % 2 ^ 32) := by
              rw [hrows] at hsum
              simp only [List.map_append, List.sum_append, List.map_cons, List.map_nil,
                List.sum_cons, List.sum_nil] at hsum hle
              omega
            simp only [if_neg hfit]
            exact ih _ _ _ _ hle hfree

/-- A scan loop whose budget is the largest value of a `uint32_t` returns an
error only from the `default` branch of `switch (real_et_type)`. -/
theorem ScanLoop_free_error (enc : List Entry → Nat → Int) (expire_time expire_cnt : Nat)
    (rd : Bool) (real_et_type : GetType) (real_et : Nat)
    (cur : List Entry) (cnt last_time : Nat) (tmp : List Entry) (total : Nat) (c : Int)
    (h : ScanLoop ⟨2 ^ 32 - 1, enc⟩ expire_time expire_cnt
      TTLType.kAbsoluteTime 0 0 rd real_et_type real_et cur cnt last_time tmp total
        = Except.error c) :
    c = -2 ∧ ∀ key, EndBound real_et_type key real_et = none := by
  induction cur generalizing cnt last_time tmp total with
  | nil => simp [ScanLoop] at h
  | cons e rest ih =>
    rw [ScanLoop_abs_cons] at h
    by_cases httl : expire_time ≠ 0 ∧ e.ts ≤ expire_time
    · rw [if_pos httl] at h; exact absurd h (by simp)
    · rw [if_neg httl] at h
      by_cases hdup : rd = true ∧ 0 < tmp.length ∧ last_time = e.ts
      · rw [if_pos hdup] at h
        exact ih _ _ _ _ h
      · rw [if_neg hdup] at h
        cases hb : EndBound real_et_type e.ts real_et with
        | none =>
          rw [hb] at h
          simp only [Except.error.injEq] at h
          exact ⟨h.symm, fun key => EndBound_none _ _ _ _ hb⟩
        | some b =>
          rw [hb] at h
          cases b with
          | true => exact absurd h (by simp)
          | false =>
            have hmax : ¬((⟨2 ^ 32 - 1, enc⟩ : ScanEnv).scan_max_bytes_size
                < (total + e.size) % 2 ^ 32) := by
              have := Nat.mod_lt (total + e.size) (by decide : 0 < 2 ^ 32)
              simp only
              omega
            simp only [if_neg hmax] at h
            exact ih _ _ _ _ h

/-- When `switch (real_et_type)` takes its `default` branch, the loop appends
nothing and so does not return `-3`. -/
theorem ScanLoop_default_branch (env : ScanEnv) (expire_time expire_cnt : Nat) (rd : Bool)
    (real_et_type : GetType) (real_et : Nat)
    (hnone : ∀ key, EndBound real_et_type key real_et = none)
    (cur : List Entry) (cnt last_time : Nat) (tmp : List Entry) (total : Nat) :
    ScanLoop env expire_time expire_cnt TTLType.kAbsoluteTime 0 0 rd real_et_type real_et
        cur cnt last_time tmp total ≠ Except.error (-3) := by
  induction cur generalizing cnt last_time tmp total with
  | nil => simp [ScanLoop]
  | cons e rest ih =>
    rw [ScanLoop_abs_cons]
    by_cases httl : expire_time ≠ 0 ∧ e.ts ≤ expire_time
    · rw [if_pos httl]; simp
    · rw [if_neg httl]
      by_cases hdup : rd = true ∧ 0 < tmp.length ∧ last_time = e.ts
      · rw [if_pos hdup]
        exact ih _ _ _ _
      · rw [if_neg hdup, hnone e.ts]
        simp

/-- Under `kAbsoluteTime`, a scan without limit and `atleast` whose rows, collected
under the largest budget a `uint32_t` holds, have a payload within
`scan_max_bytes_size` does not return `-3`. -/
theorem ScanIndex_within_budget (env : ScanEnv) (expire_time expire_cnt : Nat)
    (it : TableIterator) (request : ScanRequest)
    (hlimit : request.limit = 0) (hatleast : request.atleast = 0)
    (henc : ∀ rows total, env.EncodeRows rows total ≠ -1)
    (hpay : ((ScanIndex ⟨2 ^ 32 - 1, env.EncodeRows⟩ expire_time expire_cnt
        TTLType.kAbsoluteTime it request).rows.map Entry.size).sum
      ≤ env.scan_max_bytes_size) :
    (ScanIndex env expire_time expire_cnt TTLType.kAbsoluteTime it request).code ≠ -3 := by
  revert hpay
  unfold ScanIndex
  dsimp only
  rw [hlimit, hatleast]
  rw [if_neg (by omega : ¬(0 < 0 ∧ 0 ≠ 0)), if_neg (by omega : ¬(0 < 0 ∧ 0 ≠ 0))]
  by_cases htype : request.st_type ≠ GetType.kSubKeyEq ∧ request.st_type ≠ GetType.kSubKeyLe
      ∧ request.st_type ≠ GetType.kSubKeyLt
  · rw [if_pos htype, if_pos htype]
    intro _
    decide
  rw [if_neg htype, if_neg htype]
  by_cases hguard : 0 < request.st ∧ (request.st < expire_time ∨ request.st < request.et)
  · rw [if_pos hguard, if_pos hguard]
    intro _
    decide
  rw [if_neg hguard, if_neg hguard]
  cases hs : ScanLoop ⟨2 ^ 32 - 1, env.EncodeRows⟩ expire_time expire_cnt
      TTLType.kAbsoluteTime 0 0 request.enable_remove_duplicated_record
      (RealEtType expire_time request.et request.et_type)
      (RealEt expire_time TTLType.kAbsoluteTime request.et)
      (ScanStart expire_cnt TTLType.kAbsoluteTime it request.st
        (RealStType request.st_type)).1.cur
      (ScanStart expire_cnt TTLType.kAbsoluteTime it request.st
        (RealStType request.st_type)).2 0 [] 0 with
  | error c =>
    intro _
    have hnone := (ScanLoop_free_error _ _ _ _ _ _ _ _ _ _ _ _ hs).2
    have hne := ScanLoop_default_branch env expire_time expire_cnt
      request.enable_remove_duplicated_record
      (RealEtType expire_time request.et request.et_type)
      (RealEt expire_time TTLType.kAbsoluteTime request.et) hnone
      (ScanStart expire_cnt TTLType.kAbsoluteTime it request.st
        (RealStType request.st_type)).1.cur
      (ScanStart expire_cnt TTLType.kAbsoluteTime it request.st
        (RealStType request.st_type)).2 0 [] 0
    cases hs1 : ScanLoop env expire_time expire_cnt
        TTLType.kAbsoluteTime 0 0 request.enable_remove_duplicated_record
        (RealEtType expire_time request.et request.et_type)
        (RealEt expire_time TTLType.kAbsoluteTime request.et)
        (ScanStart expire_cnt TTLType.kAbsoluteTime it request.st
          (RealStType request.st_type)).1.cur
        (ScanStart expire_cnt TTLType.kAbsoluteTime it request.st
          (RealStType request.st_type)).2 0 [] 0 with
    | error c1 =>
      intro hc
      simp only at hc
      rw [hs1, hc] at hne
      exact hne rfl
    | ok r =>
      obtain ⟨rows, total⟩ := r
      simp only [if_neg (henc rows total)]
      decide
  | ok r =>
    obtain ⟨rows, total⟩ := r
    simp only [if_neg (henc rows total)]
    intro hpay
    have hw := ScanLoop_within_budget env expire_time expire_cnt
      request.enable_remove_duplicated_record
      (RealEtType expire_time request.et request.et_type)
      (RealEt expire_time TTLType.kAbsoluteTime request.et)
      (ScanStart expire_cnt TTLType.kAbsoluteTime it request.st
        (RealStType request.st_type)).1.cur
      (ScanStart expire_cnt TTLType.kAbsoluteTime it request.st
        (RealStType request.st_type)).2 0 [] 0 rows total (Nat.zero_le _) hs hpay
    rw [hw]
    simp only [if_neg (henc rows total)]
    decide

/-- Under `kAbsoluteTime`, `CountIndex` and a `ScanIndex` without limit and
`atleast` that does not return `-3` return the same code, and on code `0` the
count is the number of rows. -/
theorem CountIndex_ScanIndex (env : ScanEnv) (expire_time expire_cnt : Nat)
    (it : TableIterator) (request : CountRequest)
    (hlen : it.entries.length < 2 ^ 32)
    (henc : ∀ rows total, env.EncodeRows rows total ≠ -1)
    (hfit : (ScanIndex env expire_time expire_cnt TTLType.kAbsoluteTime it
          ⟨request.tid, request.pid, 0, 0, request.st, request.st_type, request.et,
            request.et_type, request.enable_remove_duplicated_record⟩).code ≠ -3) :
    (CountIndex expire_time expire_cnt TTLType.kAbsoluteTime it request).code
      = (ScanIndex env expire_time expire_cnt TTLType.kAbsoluteTime it
          ⟨request.tid, request.pid, 0, 0, request.st, request.st_type, request.et,
            request.et_type, request.enable_remove_duplicated_record⟩).code
    ∧ ((ScanIndex env expire_time expire_cnt TTLType.kAbsoluteTime it
          ⟨request.tid, request.pid, 0, 0, request.st, request.st_type, request.et,
            request.et_type, request.enable_remove_duplicated_record⟩).code = 0 →
        (CountIndex expire_time expire_cnt TTLType.kAbsoluteTime it request).count
          = (ScanIndex env expire_time expire_cnt TTLType.kAbsoluteTime it
              ⟨request.tid, request.pid, 0, 0, request.st, request.st_type, request.et,
                request.et_type, request.enable_remove_duplicated_record⟩).rows.length) := by
  revert hfit
  unfold CountIndex ScanIndex
  dsimp only
  rw [if_neg (by omega : ¬(0 < 0 ∧ 0 ≠ 0))]
  by_cases htype : request.st_type ≠ GetType.kSubKeyEq ∧ request.st_type ≠ GetType.kSubKeyLe
      ∧ request.st_type ≠ GetType.kSubKeyLt
  · rw [if_pos htype, if_pos htype]
    exact fun _ => ⟨rfl, fun h => absurd h (by decide)⟩
  rw [if_neg htype, if_neg htype]
  have hreal : RealEt expire_time TTLType.kAbsoluteTime request.et
      = max request.et expire_time := by simp [RealEt]
  by_cases hguard : 0 < request.st ∧ (request.st < expire_time ∨ request.st < request.et)
  · have hguard1 : 0 < request.st
        ∧ request.st < RealEt expire_time TTLType.kAbsoluteTime request.et := by
      rw [hreal]
      refine ⟨hguard.1, ?_⟩
      rcases hguard.2 with h | h
      · exact lt_max_of_lt_right h
      · exact lt_max_of_lt_left h
    rw [if_pos hguard, if_pos hguard1]
    exact fun _ => ⟨rfl, fun h => absurd h (by decide)⟩
  have hguard1 : ¬(0 < request.st
      ∧ request.st < RealEt expire_time TTLType.kAbsoluteTime request.et) := by
    rw [hreal]
    rintro ⟨h0, h⟩
    rcases lt_max_iff.mp h with h | h
    · exact hguard ⟨h0, Or.inr h⟩
    · exact hguard ⟨h0, Or.inl h⟩
  rw [if_neg hguard, if_neg hguard1]
  obtain ⟨pre, hpre⟩ := ScanStart_suffix expire_cnt TTLType.kAbsoluteTime it request.st
    (RealStType request.st_type)
  have hlen1 : ([] : List Entry).length + (ScanStart expire_cnt TTLType.kAbsoluteTime it
      request.st (RealStType request.st_type)).1.cur.length < 2 ^ 32 := by
    have := congrArg List.length hpre
    rw [List.length_append] at this
    simp only [List.length_nil]
    omega
  have hloop := CountLoop_ScanLoop env expire_time expire_cnt
    request.enable_remove_duplicated_record
    (RealEtType expire_time request.et request.et_type)
    (RealEt expire_time TTLType.kAbsoluteTime request.et)
    (ScanStart expire_cnt TTLType.kAbsoluteTime it request.st
      (RealStType request.st_type)).1.cur
    (ScanStart expire_cnt TTLType.kAbsoluteTime it request.st (RealStType request.st_type)).2
    (ScanStart expire_cnt TTLType.kAbsoluteTime it request.st (RealStType request.st_type)).2
    0 [] 0 hlen1 (fun h => absurd h (by simp))
  rw [List.length_nil] at hloop
  rcases hloop with h3 | hloop
  · rw [h3]
    intro hfit
    exact absurd rfl hfit
  rw [hloop]
  cases hs : ScanLoop env expire_time expire_cnt TTLType.kAbsoluteTime 0 0
      request.enable_remove_duplicated_record
      (RealEtType expire_time request.et request.et_type)
      (RealEt expire_time TTLType.kAbsoluteTime request.et)
      (ScanStart expire_cnt TTLType.kAbsoluteTime it request.st
        (RealStType request.st_type)).1.cur
      (ScanStart expire_cnt TTLType.kAbsoluteTime it request.st
        (RealStType request.st_type)).2 0 [] 0 with
  | error c =>
    have hc := ScanLoop_error _ _ _ _ _ _ _ _ _ _ _ _ _ _ _ hs
    refine fun _ => ⟨rfl, fun h => ?_⟩
    simp only [Except.map] at h
    omega
  | ok r =>
    obtain ⟨rows, total⟩ := r
    simp only [Except.map, if_neg (henc rows total)]
    exact fun _ => ⟨trivial, fun _ => trivial⟩

/-- C26: under `kAbsoluteTime`, for every iterator (of fewer than `2 ^ 32`
entries, newest first or not) and every `st`, `st_type`, `et`, `et_type`,
`expire_time` and either value of `enable_remove_duplicated_record`,
`CountIndex` and `ScanIndex` with `limit = 0` and `atleast = 0` return the same
code, and on code `0` the count of `CountIndex` is the number of rows of
`ScanIndex`, provided `EncodeRows` does not fail and the collected payload is
within `scan_max_bytes_size`.  The collected payload is that of the rows the
scan collects when nothing is cut off for size, that is under the budget
`2 ^ 32 - 1`, which no `uint32_t` total exceeds; the payload of entries the scan
does not collect is not bounded.  The same holds whenever `ScanIndex` does not
return `-3`. -/
theorem C26_count_matches_scan (env : ScanEnv) (expire_time expire_cnt : Nat)
    (it : TableIterator) (request : CountRequest)
    (hlen : it.entries.length < 2 ^ 32)
    (henc : ∀ rows total, env.EncodeRows rows total ≠ -1) :
    (((ScanIndex ⟨2 ^ 32 - 1, env.EncodeRows⟩ expire_time expire_cnt TTLType.kAbsoluteTime it
          ⟨request.tid, request.pid, 0, 0, request.st, request.st_type, request.et,
            request.et_type, request.enable_remove_duplicated_record⟩).rows.map
              Entry.size).sum ≤ env.scan_max_bytes_size →
      (CountIndex expire_time expire_cnt TTLType.kAbsoluteTime it request).code
        = (ScanIndex env expire_time expire_cnt TTLType.kAbsoluteTime it
            ⟨request.tid, request.pid, 0, 0, request.st, request.st_type, request.et,
              request.et_type, request.enable_remove_duplicated_record⟩).code
      ∧ ((ScanIndex env expire_time expire_cnt TTLType.kAbsoluteTime it
            ⟨request.tid, request.pid, 0, 0, request.st, request.st_type, request.et,
              request.et_type, request.enable_remove_duplicated_record⟩).code = 0 →
          (CountIndex expire_time expire_cnt TTLType.kAbsoluteTime it request).count
            = (ScanIndex env expire_time expire_cnt TTLType.kAbsoluteTime it
                ⟨request.tid, request.pid, 0, 0, request.st, request.st_type, request.et,
                  request.et_type, request.enable_remove_duplicated_record⟩).rows.length))
    ∧ ((ScanIndex env expire_time expire_cnt TTLType.kAbsoluteTime it
          ⟨request.tid, request.pid, 0, 0, request.st, request.st_type, request.et,
            request.et_type, request.enable_remove_duplicated_record⟩).code ≠ -3 →
      (CountIndex expire_time expire_cnt TTLType.kAbsoluteTime it request).code
        = (ScanIndex env expire_time expire_cnt TTLType.kAbsoluteTime it
            ⟨request.tid, request.pid, 0, 0, request.st, request.st_type, request.et,
              request.et_type, request.enable_remove_duplicated_record⟩).code
      ∧ ((ScanIndex env expire_time expire_cnt TTLType.kAbsoluteTime it
            ⟨request.tid, request.pid, 0, 0, request.st, request.st_type, request.et,
              request.et_type, request.enable_remove_duplicated_record⟩).code = 0 →
          (CountIndex expire_time expire_cnt TTLType.kAbsoluteTime it request).count
            = (ScanIndex env expire_time expire_cnt TTLType.kAbsoluteTime it
                ⟨request.tid, request.pid, 0, 0, request.st, request.st_type, request.et,
                  request.et_type, request.enable_remove_duplicated_record⟩).rows.length)) := by
  refine ⟨fun hpay => ?_, fun hfit => ?_⟩
  · exact CountIndex_ScanIndex env expire_time expire_cnt it request hlen henc
      (ScanIndex_within_budget env expire_time expire_cnt it _ rfl rfl henc hpay)
  · exact CountIndex_ScanIndex env expire_time expire_cnt it request hlen henc hfit

/-- C26 on the entries `300`, `200`, `100` with two-byte values, a budget of `3`
bytes, `expire_time = 150`, `st = 250` and end bound `ts >= 0`: the scan
collects the entry `200` alone, two bytes of the six the iterator holds, and
count and scan both return code `0` and one entry. -/
theorem C26_count_matches_scan_witness :
    (CountIndex 150 0 TTLType.kAbsoluteTime
        (TableIterator.mk0 [⟨300, "dd"⟩, ⟨200, "cc"⟩, ⟨100, "aa"⟩])
        ⟨1, 0, 250, GetType.kSubKeyLe, 0, GetType.kSubKeyGe, true⟩) = ⟨0, 1⟩
    ∧ (ScanIndex ⟨3, fun _ _ => 0⟩ 150 0 TTLType.kAbsoluteTime
        (TableIterator.mk0 [⟨300, "dd"⟩, ⟨200, "cc"⟩, ⟨100, "aa"⟩])
        ⟨1, 0, 0, 0, 250, GetType.kSubKeyLe, 0, GetType.kSubKeyGe, true⟩)
      = ⟨0, [⟨200, "cc"⟩], 1⟩
    ∧ (([⟨300, "dd"⟩, ⟨200, "cc"⟩, ⟨100, "aa"⟩] : List Entry).map Entry.size).sum = 6
    ∧ (CountIndex 150 0 TTLType.kAbsoluteTime
        (TableIterator.mk0 [⟨300, "dd"⟩, ⟨200, "cc"⟩, ⟨100, "aa"⟩])
        ⟨1, 0, 250, GetType.kSubKeyLe, 0, GetType.kSubKeyGe, true⟩).code
      = (ScanIndex ⟨3, fun _ _ => 0⟩ 150 0 TTLType.kAbsoluteTime
        (TableIterator.mk0 [⟨300, "dd"⟩, ⟨200, "cc"⟩, ⟨100, "aa"⟩])
        ⟨1, 0, 0, 0, 250, GetType.kSubKeyLe, 0, GetType.kSubKeyGe, true⟩).code :=
  ⟨by decide, by decide, by decide,
    ((C26_count_matches_scan ⟨3, fun _ _ => 0⟩ 150 0
      (TableIterator.mk0 [⟨300, "dd"⟩, ⟨200, "cc"⟩, ⟨100, "aa"⟩])
      ⟨1, 0, 250, GetType.kSubKeyLe, 0, GetType.kSubKeyGe, true⟩
      (by decide) (fun _ _ => by simp)).1 (by decide)).1⟩

/-! The maps `tables_`, `snapshots_` and `replicators_` -/

/-- Setting the status of a task leaves the three maps as they are. -/
theorem SetTaskStatus_aligned (s : TabletImpl) (task_ptr : Option Nat) (status : TaskStatus)
    (h : MapsAligned s) : MapsAligned (SetTaskStatus s task_ptr status) := by
  cases task_ptr with
  | none => exact h
  | some i => exact h

/-- The three insertions at the end of a create keep the maps aligned. -/
theorem Insert_aligned (s : TabletImpl) (tid pid : Nat) (table : Table)
    (h : MapsAligned s) :
    MapsAligned (InsertReplicator (InsertSnapshot (InsertTable s tid pid table) tid pid)
      tid pid) := by
  intro t p
  by_cases htp : t = tid ∧ p = pid
  · simp only [InsertReplicator, InsertSnapshot, InsertTable, if_pos htp]
    cases s.tables_ tid pid <;> simp
  · simp only [InsertReplicator, InsertSnapshot, InsertTable, if_neg htp]
    exact h t p

/-- The insertions of a disk create that succeeds keep the maps aligned. -/
theorem InsertTwice_aligned (s : TabletImpl) (tid pid : Nat) (table table1 : Table)
    (h : MapsAligned s) :
    MapsAligned (InsertReplicator (InsertSnapshot
      (InsertTable (InsertTable s tid pid table) tid pid table1) tid pid) tid pid) := by
  intro t p
  by_cases htp : t = tid ∧ p = pid
  · simp only [InsertReplicator, InsertSnapshot, InsertTable, if_pos htp, and_self, if_true]
    cases s.tables_ tid pid <;> simp
  · simp only [InsertReplicator, InsertSnapshot, InsertTable, if_neg htp]
    exact h t p

/-- Whatever its outcome, `CreateTableInternal` keeps the maps aligned. -/
theorem CreateTableInternal_aligned (hash : String → Nat → Nat) (out : CreateOutcome)
    (s : TabletImpl) (table_meta : TableMeta) (h : MapsAligned s) :
    MapsAligned (CreateTableInternal hash out s table_meta).2.2 := by
  unfold CreateTableInternal
  dsimp only
  repeat' split
  all_goals first | exact h | exact Insert_aligned _ _ _ _ h

/-- Whatever its outcome, `DeleteTableInternal` keeps the maps aligned. -/
theorem DeleteTableInternal_aligned (hash : String → Nat → Nat) (s : TabletImpl)
    (tid pid : Nat) (task_ptr : Option Nat) (h : MapsAligned s) :
    MapsAligned (DeleteTableInternal hash s tid pid task_ptr).2 := by
  have herase : MapsAligned (EraseTable s tid pid) := by
    intro t p
    by_cases htp : t = tid ∧ p = pid
    · simp [EraseTable, htp]
    · simp only [EraseTable, if_neg htp]
      exact h t p
  unfold DeleteTableInternal
  repeat' split
  all_goals first
    | exact SetTaskStatus_aligned _ _ _ h
    | exact SetTaskStatus_aligned _ _ _ herase

/-- A `CreateDiskTableInternal` that returns `0` keeps the maps aligned. -/
theorem CreateDiskTableInternal_aligned (hash : String → Nat → Nat) (out : CreateOutcome)
    (s : TabletImpl) (table_meta : TableMeta) (is_load : Bool) (h : MapsAligned s)
    (hok : (CreateDiskTableInternal hash out s table_meta is_load).1 = 0) :
    MapsAligned (CreateDiskTableInternal hash out s table_meta is_load).2.2 := by
  revert hok
  unfold CreateDiskTableInternal
  dsimp only
  repeat' split
  all_goals first
    | (intro hok; exact InsertTwice_aligned _ _ _ _ _ h)
    | (intro hok; simp at hok)

/-- C27 at the failing input: on a tablet without partitions (maps aligned),
`CreateDiskTableInternal` for partition `(1, 0)` whose snapshot fails to
initialise returns `-1` with the table registered in `tables_` and nothing in
`snapshots_` and `replicators_`; the same happens when the replicator fails to
initialise.  The maps are no longer aligned.  `CreateTableInternal` with the
same outcome registers nothing. -/
theorem C27_disk_create_leaves_table :
    MapsAligned diskTablet
    ∧ (CreateDiskTableInternal (fun _ _ => 0)
        { table := some { stat := TableStat.kNormal, is_leader := true, table_meta := diskMeta }
          replicator_init := true, snapshot_init := false } diskTablet diskMeta false).1 = -1
    ∧ ((CreateDiskTableInternal (fun _ _ => 0)
        { table := some { stat := TableStat.kNormal, is_leader := true, table_meta := diskMeta }
          replicator_init := true, snapshot_init := false } diskTablet diskMeta false).2.2.tables_
          1 0).isSome = true
    ∧ (CreateDiskTableInternal (fun _ _ => 0)
        { table := some { stat := TableStat.kNormal, is_leader := true, table_meta := diskMeta }
          replicator_init := true, snapshot_init := false } diskTablet diskMeta
          false).2.2.snapshots_ 1 0 = false
    ∧ (CreateDiskTableInternal (fun _ _ => 0)
        { table := some { stat := TableStat.kNormal, is_leader := true, table_meta := diskMeta }
          replicator_init := true, snapshot_init := false } diskTablet diskMeta
          false).2.2.replicators_ 1 0 = false
    ∧ ¬MapsAligned (CreateDiskTableInternal (fun _ _ => 0)
        { table := some { stat := TableStat.kNormal, is_leader := true, table_meta := diskMeta }
          replicator_init := true, snapshot_init := false } diskTablet diskMeta false).2.2
    ∧ ¬MapsAligned (CreateDiskTableInternal (fun _ _ => 0)
        { table := some { stat := TableStat.kNormal, is_leader := true, table_meta := diskMeta }
          replicator_init := false, snapshot_init := true } diskTablet diskMeta false).2.2
    ∧ (CreateTableInternal (fun _ _ => 0)
        { table := some { stat := TableStat.kNormal, is_leader := true, table_meta := diskMeta }
          replicator_init := true, snapshot_init := false } diskTablet diskMeta).2.2.tables_ 1 0
        = none := by
  refine ⟨?_, by decide, by decide, by decide, by decide, ?_, ?_, by decide⟩
  · intro tid pid
    exact ⟨rfl, rfl⟩
  · intro h
    have := (h 1 0).1
    revert this
    decide
  · intro h
    have := (h 1 0).1
    revert this
    decide

/-! The followers of a leader partition -/

/-- C29: for a leader partition that has a replicator, `GetTableFollower`
answers `kOk` with msg `ok`, the replicator's offset, and one `follower_info`
(endpoint, offset) per entry of the replicator's replicate-info map, in order;
when the map is empty the answer is still `kOk`, not `kNoFollower`. -/
theorem C29_get_table_follower (replicator_of : Nat → Nat → LogReplicator) (s : TabletImpl)
    (request : GetTableFollowerRequest) (table : Table)
    (htable : s.tables_ request.tid request.pid = some table)
    (hleader : table.is_leader = true)
    (hrep : s.replicators_ request.tid request.pid = true) :
    GetTableFollower replicator_of s request
      = { code := some (Code.enum ReturnCode.kOk)
          msg := some "ok"
          offset := some (replicator_of request.tid request.pid).offset
          follower_info := (replicator_of request.tid request.pid).replicate_info.map
            (fun (kv : String × Nat) => ({ endpoint := kv.1, offset := kv.2 } : FollowerInfo)) }
    ∧ (GetTableFollower replicator_of s request).follower_info.length
        = (replicator_of request.tid request.pid).replicate_info.length
    ∧ ((replicator_of request.tid request.pid).replicate_info = [] →
        (GetTableFollower replicator_of s request).code = some (Code.enum ReturnCode.kOk)
        ∧ (GetTableFollower replicator_of s request).code
          ≠ some (Code.enum ReturnCode.kNoFollower)) := by
  have hres : GetTableFollower replicator_of s request
      = { code := some (Code.enum ReturnCode.kOk)
          msg := some "ok"
          offset := some (replicator_of request.tid request.pid).offset
          follower_info := (replicator_of request.tid request.pid).replicate_info.map
            (fun (kv : String × Nat) => ({ endpoint := kv.1, offset := kv.2 } : FollowerInfo)) } := by
    unfold GetTableFollower
    simp only [GetTableUnLock, htable, hleader, GetReplicator, hrep, Bool.not_true,
      Bool.false_eq_true, if_false, if_true]
    cases (replicator_of request.tid request.pid).replicate_info <;> simp
  rw [hres]
  exact ⟨rfl, by simp, fun _ => ⟨rfl, by simp⟩⟩

/-- C29 on the leader partition `(1, 0)` of `tabletWith`: with the followers
`ep1` at offset `7` and `ep2` at offset `5` both are listed, and with no
follower the answer is `kOk` with an empty list. -/
theorem C29_get_table_follower_witness :
    GetTableFollower (fun _ _ => ⟨9, [("ep1", 7), ("ep2", 5)]⟩)
        (tabletWith { stat := TableStat.kNormal, is_leader := true }) ⟨1, 0⟩
      = { code := some (Code.enum ReturnCode.kOk), msg := some "ok", offset := some 9,
          follower_info := [⟨"ep1", 7⟩, ⟨"ep2", 5⟩] }
    ∧ (GetTableFollower (fun _ _ => ⟨9, []⟩)
        (tabletWith { stat := TableStat.kNormal, is_leader := true }) ⟨1, 0⟩).code
      = some (Code.enum ReturnCode.kOk) :=
  ⟨(C29_get_table_follower (fun _ _ => ⟨9, [("ep1", 7), ("ep2", 5)]⟩)
      (tabletWith { stat := TableStat.kNormal, is_leader := true }) ⟨1, 0⟩
      { stat := TableStat.kNormal, is_leader := true } (by decide) rfl (by decide)).1,
    ((C29_get_table_follower (fun _ _ => ⟨9, []⟩)
      (tabletWith { stat := TableStat.kNormal, is_leader := true }) ⟨1, 0⟩
      { stat := TableStat.kNormal, is_leader := true } (by decide) rfl (by decide)).2.2 rfl).1⟩

end tablet

namespace catalog

namespace TabletsAccessor

/-! The invariant of `TabletsAccessor` -/

/-- An index at which `accessors_` holds an accessor is within range. -/
theorem index_of_name (accessors : List TabletAccessor) (j : Nat) (n : String)
    (h : (accessors[j]?).map (fun a => a.name) = some n) : j < accessors.length := by
  by_contra hc
  rw [List.getElem?_eq_none (by omega)] at h
  simp at h

/-- The invariant holds for a fresh `TabletsAccessor`. -/
theorem Invariant_new : Invariant [] new where
  rows := rfl
  assign_len := rfl
  pos_len := rfl
  keys := rfl
  nodup := List.nodup_nil
  idx := fun n j h => by simp [new] at h
  names := fun n => by simp [new]
  assign := fun i hi => by simp at hi
  pos := fun j hj => by simp [new] at hj

/-- The invariant is kept when an accessor with a new name is added. -/
theorem Invariant_add_new (added : List TabletAccessor) (t : TabletsAccessor)
    (a : TabletAccessor) (h : Invariant added t)
    (hl : t.name_idx_map_.lookup a.name = none) :
    Invariant (added ++ [a]) (AddTabletAccessor t a) := by
  have hnotin : a.name ∉ t.accessors_.map (fun a => a.name) := by
    rw [← h.keys]
    intro hmem
    obtain ⟨p, hp, hpn⟩ := List.mem_map.mp hmem
    have := List.lookup_eq_none_iff.mp hl p hp
    simp [hpn] at this
  have hadd : AddTabletAccessor t a =
      { rows_cnt_ := t.rows_cnt_ + 1
        accessors_ := t.accessors_ ++ [a]
        name_idx_map_ := t.name_idx_map_ ++ [(a.name, t.accessors_.length)]
        posinfos_ := t.posinfos_ ++ [[t.rows_cnt_]]
        assign_accessor_idxs_ := t.assign_accessor_idxs_ ++ [t.accessors_.length] } := by
    simp [AddTabletAccessor, hl]
  rw [hadd]
  have hassign_lt : ∀ i, i < added.length → ∀ j, t.assign_accessor_idxs_[i]? = some j →
      j < t.accessors_.length := by
    intro i hi j hj
    obtain ⟨j1, h1, h2⟩ := h.assign i hi
    rw [hj] at h1
    simp only [Option.some.injEq] at h1
    subst h1
    rw [List.getElem?_eq_getElem hi] at h2
    exact index_of_name _ _ _ h2
  refine ⟨?_, ?_, ?_, ?_, ?_, ?_, ?_, ?_, ?_⟩
  · simp [h.rows]
  · simp [h.assign_len]
  · simp [h.pos_len]
  · simp [h.keys]
  · simp only [List.map_append, List.map_cons, List.map_nil]
    exact List.Nodup.append h.nodup (List.nodup_singleton _)
      (by simpa [List.Disjoint] using hnotin)
  · intro n j hj
    simp only [List.lookup_append] at hj
    cases hold : t.name_idx_map_.lookup n with
    | some j0 =>
      rw [hold] at hj
      simp only [Option.or_some, Option.some.injEq] at hj
      subst hj
      have h1 := h.idx n j0 hold
      have hlt := index_of_name _ _ _ h1
      simp only [List.getElem?_append_left hlt]
      exact h1
    | none =>
      rw [hold] at hj
      simp only [Option.none_or, List.lookup_cons, List.lookup_nil] at hj
      by_cases hn : n = a.name
      · subst hn
        simp only [beq_self_eq_true, Option.some.injEq] at hj
        subst hj
        simp
      · have : (n == a.name) = false := by simpa using hn
        simp [this] at hj
  · intro n
    simp only [List.map_append, List.mem_append, List.map_cons, List.map_nil]
    rw [h.names n]
  · intro i hi
    simp only [List.length_append, List.length_singleton] at hi
    by_cases hlt : i < added.length
    · obtain ⟨j, h1, h2⟩ := h.assign i hlt
      refine ⟨j, ?_, ?_⟩
      · simp only [List.getElem?_append_left (h.assign_len ▸ hlt)]
        exact h1
      · have hj := hassign_lt i hlt j h1
        simp only [List.getElem?_append_left hj, List.getElem?_append_left hlt]
        exact h2
    · have hi1 : i = added.length := by omega
      subst hi1
      refine ⟨t.accessors_.length, ?_, ?_⟩
      · rw [← h.assign_len]
        simp
      · simp
  · intro j hj
    simp only [List.length_append, List.length_singleton] at hj
    simp only [List.range_succ, List.filter_append]
    have hfilter : ∀ k, (List.range t.rows_cnt_).filter
        (fun i => decide ((t.assign_accessor_idxs_ ++ [t.accessors_.length])[i]? = some k))
        = (List.range t.rows_cnt_).filter
          (fun i => decide (t.assign_accessor_idxs_[i]? = some k)) := by
      intro k
      apply List.filter_congr
      intro i hi
      rw [List.mem_range, h.rows, ← h.assign_len] at hi
      simp only [List.getElem?_append_left hi]
    have hlast : (t.assign_accessor_idxs_ ++ [t.accessors_.length])[t.rows_cnt_]?
        = some t.accessors_.length := by
      rw [h.rows, ← h.assign_len]
      simp
    rw [hfilter]
    by_cases hlt : j < t.accessors_.length
    · simp only [List.getElem?_append_left (h.pos_len ▸ hlt)]
      rw [h.pos j hlt]
      have hne : t.accessors_.length ≠ j := by omega
      simp [hlast, hne]
    · have hj1 : j = t.accessors_.length := by omega
      subst hj1
      have hempty : (List.range t.rows_cnt_).filter
          (fun i => decide (t.assign_accessor_idxs_[i]? = some t.accessors_.length)) = [] := by
        rw [List.filter_eq_nil_iff]
        intro i hi
        rw [List.mem_range, h.rows] at hi
        intro hc
        have hc1 : t.assign_accessor_idxs_[i]? = some t.accessors_.length := by simpa using hc
        have := hassign_lt i hi _ hc1
        omega
      rw [hempty, ← h.pos_len]
      simp [hlast, h.pos_len]

/-- The invariant is kept when an accessor with a known name is added. -/
theorem Invariant_add_known (added : List TabletAccessor) (t : TabletsAccessor)
    (a : TabletAccessor) (idx : Nat) (h : Invariant added t)
    (hl : t.name_idx_map_.lookup a.name = some idx) :
    Invariant (added ++ [a]) (AddTabletAccessor t a) := by
  have hidx := h.idx a.name idx hl
  have hidx_lt := index_of_name _ _ _ hidx
  have hadd : AddTabletAccessor t a =
      { t with
        posinfos_ := t.posinfos_.modify (fun p => p ++ [t.rows_cnt_]) idx
        assign_accessor_idxs_ := t.assign_accessor_idxs_ ++ [idx]
        rows_cnt_ := t.rows_cnt_ + 1 } := by
    simp [AddTabletAccessor, hl]
  rw [hadd]
  have hmem : a.name ∈ t.accessors_.map (fun a => a.name) := by
    rw [List.getElem?_eq_getElem hidx_lt] at hidx
    simp only [Option.map_some', Option.some.injEq] at hidx
    rw [← hidx]
    exact List.mem_map_of_mem _ (List.getElem_mem _)
  refine ⟨?_, ?_, ?_, h.keys, h.nodup, h.idx, ?_, ?_, ?_⟩
  · simp [h.rows]
  · simp [h.assign_len]
  · simp [h.pos_len]
  · intro n
    simp only [List.map_append, List.mem_append, List.map_cons, List.map_nil,
      List.mem_singleton]
    rw [← h.names n]
    constructor
    · exact fun hn => Or.inl hn
    · rintro (hn | hn)
      · exact hn
      · rw [hn]; exact hmem
  · intro i hi
    simp only [List.length_append, List.length_singleton] at hi
    by_cases hlt : i < added.length
    · obtain ⟨j, h1, h2⟩ := h.assign i hlt
      refine ⟨j, ?_, ?_⟩
      · simp only [List.getElem?_append_left (h.assign_len ▸ hlt)]
        exact h1
      · simp only [List.getElem?_append_left hlt]
        exact h2
    · have hi1 : i = added.length := by omega
      subst hi1
      refine ⟨idx, ?_, ?_⟩
      · rw [← h.assign_len]
        simp
      · simp only [hidx]
        simp
  · intro j hj
    simp only [List.range_succ, List.filter_append]
    have hfilter : ∀ k, (List.range t.rows_cnt_).filter
        (fun i => decide ((t.assign_accessor_idxs_ ++ [idx])[i]? = some k))
        = (List.range t.rows_cnt_).filter
          (fun i => decide (t.assign_accessor_idxs_[i]? = some k)) := by
      intro k
      apply List.filter_congr
      intro i hi
      rw [List.mem_range, h.rows, ← h.assign_len] at hi
      simp only [List.getElem?_append_left hi]
    have hlast : (t.assign_accessor_idxs_ ++ [idx])[t.rows_cnt_]? = some idx := by
      rw [h.rows, ← h.assign_len]
      simp
    rw [hfilter]
    by_cases hji : j = idx
    · subst hji
      rw [List.getElem?_modify_eq, h.pos j hj]
      simp [hlast]
    · rw [List.getElem?_modify_ne _ _ (fun hc => hji hc.symm), h.pos j hj]
      have hne : idx ≠ j := fun hc => hji hc.symm
      simp [hlast, hne]

/-- The invariant holds after every sequence of `AddTabletAccessor` calls on a
fresh `TabletsAccessor`. -/
theorem Invariant_AddAll (added : List TabletAccessor) : Invariant added (AddAll added) := by
  induction added using List.reverseRecOn with
  | nil => exact Invariant_new
  | append_singleton l a ih =>
    have hstep : AddAll (l ++ [a]) = AddTabletAccessor (AddAll l) a := by
      simp [AddAll, List.foldl_append]
    rw [hstep]
    cases hl : (AddAll l).name_idx_map_.lookup a.name with
    | none => exact Invariant_add_new l _ a ih hl
    | some idx => exact Invariant_add_known l _ a idx ih hl

/-- C28: after the calls `AddTabletAccessor` for the accessors of `added`, in
order, on a fresh `TabletsAccessor`: `rows_cnt_` is the number of calls and the
length of `assign_accessor_idxs_`; `accessors_`, `posinfos_` and
`name_idx_map_` have one entry per distinct accessor name (the names of
`accessors_` are pairwise distinct and are the keys of `name_idx_map_`); for
every row `i`, `j = assign_accessor_idxs_[i]` is a valid index, `accessors_[j]`
has the name of the `i`-th added accessor and `posinfos_[j]` contains `i`; every
list of `posinfos_` is strictly increasing with members below `rows_cnt_`, and
no row is in two of them. -/
theorem C28_tablets_accessor_invariant (added : List TabletAccessor) :
    (AddAll added).rows_cnt_ = added.length
    ∧ (AddAll added).assign_accessor_idxs_.length = added.length
    ∧ (AddAll added).accessors_.length = (added.map (fun a => a.name)).toFinset.card
    ∧ (AddAll added).posinfos_.length = (added.map (fun a => a.name)).toFinset.card
    ∧ (AddAll added).name_idx_map_.length = (added.map (fun a => a.name)).toFinset.card
    ∧ ((AddAll added).accessors_.map (fun a => a.name)).Nodup
    ∧ (AddAll added).name_idx_map_.map Prod.fst
        = (AddAll added).accessors_.map (fun a => a.name)
    ∧ (∀ (i : Nat) (hi : i < added.length), ∃ (j : Nat) (acc : TabletAccessor) (p : List Nat),
        (AddAll added).assign_accessor_idxs_[i]? = some j
        ∧ (AddAll added).accessors_[j]? = some acc ∧ acc.name = added[i].name
        ∧ (AddAll added).posinfos_[j]? = some p ∧ i ∈ p)
    ∧ (∀ p ∈ (AddAll added).posinfos_,
        p.Pairwise (fun a b => a < b) ∧ ∀ i ∈ p, i < (AddAll added).rows_cnt_)
    ∧ (∀ (i j1 j2 : Nat) (p1 p2 : List Nat), (AddAll added).posinfos_[j1]? = some p1 →
        (AddAll added).posinfos_[j2]? = some p2 → i ∈ p1 → i ∈ p2 → j1 = j2) := by
  have h := Invariant_AddAll added
  have hcard : (AddAll added).accessors_.length
      = (added.map (fun a => a.name)).toFinset.card := by
    have hset : ((AddAll added).accessors_.map (fun a => a.name)).toFinset
        = (added.map (fun a => a.name)).toFinset := by
      ext n
      simp only [List.mem_toFinset]
      exact h.names n
    rw [← hset, List.toFinset_card_of_nodup h.nodup, List.length_map]
  have hpos : ∀ j p, (AddAll added).posinfos_[j]? = some p →
      p = (List.range (AddAll added).rows_cnt_).filter
        (fun i => decide ((AddAll added).assign_accessor_idxs_[i]? = some j)) := by
    intro j p hp
    have hj : j < (AddAll added).accessors_.length := by
      rw [← h.pos_len]
      by_contra hc
      rw [List.getElem?_eq_none (by omega)] at hp
      simp at hp
    rw [h.pos j hj] at hp
    simp only [Option.some.injEq] at hp
    exact hp.symm
  refine ⟨h.rows, h.assign_len, hcard, ?_, ?_, h.nodup, h.keys, ?_, ?_, ?_⟩
  · rw [h.pos_len, hcard]
  · rw [← hcard, ← List.length_map (AddAll added).name_idx_map_ Prod.fst, h.keys,
      List.length_map]
  · intro i hi
    obtain ⟨j, h1, h2⟩ := h.assign i hi
    rw [List.getElem?_eq_getElem hi] at h2
    have hj := index_of_name _ _ _ h2
    rw [List.getElem?_eq_getElem hj] at h2
    simp only [Option.map_some', Option.some.injEq] at h2
    refine ⟨j, (AddAll added).accessors_[j], _, h1, List.getElem?_eq_getElem hj, h2,
      h.pos j hj, ?_⟩
    rw [List.mem_filter, List.mem_range, h.rows]
    exact ⟨hi, by simpa using h1⟩
  · intro p hp
    obtain ⟨j, hj⟩ := List.mem_iff_getElem?.mp hp
    rw [hpos j p hj]
    refine ⟨(List.pairwise_lt_range _).sublist (List.filter_sublist _), ?_⟩
    intro i hi
    exact List.mem_range.mp (List.mem_filter.mp hi).1
  · intro i j1 j2 p1 p2 hp1 hp2 hi1 hi2
    rw [hpos j1 p1 hp1] at hi1
    rw [hpos j2 p2 hp2] at hi2
    have e1 := (List.mem_filter.mp hi1).2
    have e2 := (List.mem_filter.mp hi2).2
    simp only [decide_eq_true_eq] at e1 e2
    rw [e1] at e2
    exact Option.some.inj e2

/-- Three calls, for the accessors `a`, `b` and `a` again: two accessors are
kept, rows `0` and `2` go to the first and row `1` to the second. -/
theorem AddAll_example :
    AddAll [⟨"a"⟩, ⟨"b"⟩, ⟨"a"⟩]
      = ⟨3, [⟨"a"⟩, ⟨"b"⟩], [0, 1, 0], [[0, 2], [1]], [("a", 0), ("b", 1)]⟩ := by
  decide

end TabletsAccessor

end catalog

end rtidb

namespace fesql

namespace plan

open node type error

/-! The table definition built by `TransformTableDef` -/

/-- When the loop runs to its end, the link is kept, the columns of the table
are the old ones followed by the column definitions of the list in order, and
the name of the table is untouched. -/
theorem TransformLoop_ok (time : Nat → Nat) (l : List SQLNode) (st st1 : TransformState)
    (hst : TransformLinked st) (h : TransformLoop time l st = (st1, none)) :
    TransformLinked st1
    ∧ st1.table.columns = st.table.columns ++ l.filterMap ColumnOf
    ∧ st1.table.name = st.table.name
    ∧ ∀ n ∈ l, ∀ column_name column_type, n = SQLNode.ColumnDefNode column_name column_type →
        (ColumnTypeOf column_type).isSome = true := by
  induction l generalizing st with
  | nil =>
    simp only [TransformLoop, Prod.mk.injEq, and_true] at h
    subst h
    exact ⟨hst, by simp, rfl, fun n hn => absurd hn (List.not_mem_nil n)⟩
  | cons n rest ih =>
    cases n with
    | ColumnDefNode column_name column_type =>
      rw [TransformLoop] at h
      by_cases hdup : column_name ∈ st.column_names
      · rw [if_pos hdup] at h
        simp at h
      · rw [if_neg hdup] at h
        simp only [if_neg hdup] at h
        cases ht : ColumnTypeOf column_type with
        | none =>
          rw [ht] at h
          simp at h
        | some t =>
          rw [ht] at h
          have hlinked : TransformLinked
              { st with
                column_names := st.column_names ++ [column_name]
                table := { st.table with
                  columns := st.table.columns
                    ++ [{ name := some column_name, type := some t }] } } :=
            ⟨by simp [hst.columns],
              List.Nodup.append hst.columns_nodup (List.nodup_singleton _)
                (List.disjoint_singleton.mpr hdup),
              hst.indexes, hst.indexes_nodup⟩
          obtain ⟨h1, h2, h3, h4⟩ := ih _ hlinked h
          refine ⟨h1, ?_, h3, ?_⟩
          · rw [h2]
            simp [ColumnOf, ht]
          · intro n hn cn ct hnc
            rcases List.mem_cons.mp hn with hn | hn
            · rw [hn] at hnc
              injection hnc with e1 e2
              rw [← e2, ht]
              rfl
            · exact h4 n hn cn ct hnc
    | ColumnIndexNode name key ts ttl =>
      rw [TransformLoop] at h
      dsimp only at h
      by_cases hdup : (if name.isEmpty = true then
          GenerateName "INDEX" st.table.indexes.length (time st.table.indexes.length)
          else name) ∈ st.index_names
      · rw [if_pos hdup] at h
        simp at h
      · rw [if_neg hdup] at h
        simp only [if_neg hdup] at h
        have hlinked : TransformLinked
            { st with
              index_names := st.index_names ++ [if name.isEmpty = true then
                GenerateName "INDEX" st.table.indexes.length (time st.table.indexes.length)
                else name]
              table := { st.table with
                indexes := st.table.indexes ++ [
                  { name := if name.isEmpty = true then
                      GenerateName "INDEX" st.table.indexes.length
                        (time st.table.indexes.length)
                      else name
                    ttl := if ttl ≠ -1 then [ttl] else []
                    first_keys := key
                    second_key := if ts.isEmpty = true then none else some ts }] } } :=
          ⟨hst.columns, hst.columns_nodup, by simp [hst.indexes],
            List.Nodup.append hst.indexes_nodup (List.nodup_singleton _)
              (List.disjoint_singleton.mpr hdup)⟩
        obtain ⟨h1, h2, h3, h4⟩ := ih _ hlinked h
        refine ⟨h1, ?_, h3, ?_⟩
        · rw [h2]
          simp [ColumnOf]
        · intro n hn cn ct hnc
          rcases List.mem_cons.mp hn with hn | hn
          · rw [hn] at hnc
            exact absurd hnc (by simp)
          · exact h4 n hn cn ct hnc
    | Other type_name =>
      rw [TransformLoop] at h
      simp at h

/-- The loop over a list that continues a list handled without error goes on
from the state reached. -/
theorem TransformLoop_append (time : Nat → Nat) (l more : List SQLNode)
    (st st1 : TransformState) (h : TransformLoop time l st = (st1, none)) :
    TransformLoop time (l ++ more) st = TransformLoop time more st1 := by
  induction l generalizing st with
  | nil =>
    simp only [TransformLoop, Prod.mk.injEq, and_true] at h
    subst h
    rfl
  | cons n rest ih =>
    cases n with
    | ColumnDefNode column_name column_type =>
      rw [List.cons_append, TransformLoop]
      rw [TransformLoop] at h
      by_cases hdup : column_name ∈ st.column_names
      · rw [if_pos hdup] at h
        simp at h
      · rw [if_neg hdup] at h ⊢
        cases ht : ColumnTypeOf column_type with
        | none =>
          rw [ht] at h
          simp at h
        | some t =>
          rw [ht] at h
          exact ih _ h
    | ColumnIndexNode name key ts ttl =>
      rw [List.cons_append, TransformLoop]
      rw [TransformLoop] at h
      dsimp only at h ⊢
      by_cases hdup : (if name.isEmpty = true then
          GenerateName "INDEX" st.table.indexes.length (time st.table.indexes.length)
          else name) ∈ st.index_names
      · rw [if_pos hdup] at h
        simp at h
      · rw [if_neg hdup] at h ⊢
        exact ih _ h
    | Other type_name =>
      rw [TransformLoop] at h
      simp at h

/-- A list transformed without error is one on which the loop runs to its end,
and the table returned is the table of the final state with its name set. -/
theorem TransformTableDef_ok (time : Nat → Nat) (table_name : String) (l : List SQLNode)
    (h : (TransformTableDef time table_name l).2 = none) :
    ∃ st1, TransformLoop time l {} = (st1, none)
      ∧ (TransformTableDef time table_name l).1 = { st1.table with name := some table_name } := by
  unfold TransformTableDef at h ⊢
  cases hl : TransformLoop time l {} with
  | mk st1 status =>
    rw [hl] at h
    cases status with
    | some e => simp at h
    | none => exact ⟨st1, rfl, rfl⟩

/-- The loop from a linked state runs to its end exactly on the lists all of
whose nodes are handled, whose column names are new and pairwise distinct, and
whose index names, as looked up, are new and pairwise distinct. -/
theorem TransformLoop_none_iff (time : Nat → Nat) (l : List SQLNode) (st : TransformState)
    (hst : TransformLinked st) :
    (TransformLoop time l st).2 = none
      ↔ (∀ n ∈ l, Handled n = true)
        ∧ (st.column_names ++ l.filterMap ColumnNameOf).Nodup
        ∧ (st.index_names ++ IndexNamesFrom time l st.table.indexes.length).Nodup := by
  induction l generalizing st with
  | nil =>
    simp only [TransformLoop, List.not_mem_nil, false_implies, implies_true,
      List.filterMap_nil, List.append_nil, IndexNamesFrom, true_and, true_iff]
    exact ⟨hst.columns_nodup, hst.indexes_nodup⟩
  | cons n rest ih =>
    cases n with
    | ColumnDefNode column_name column_type =>
      rw [TransformLoop]
      by_cases hdup : column_name ∈ st.column_names
      · rw [if_pos hdup]
        constructor
        · intro h; simp at h
        · rintro ⟨_, h, _⟩
          exfalso
          rw [List.filterMap_cons_some (by rfl : ColumnNameOf
            (SQLNode.ColumnDefNode column_name column_type) = some column_name)] at h
          exact (List.nodup_append.mp h).2.2 hdup (List.mem_cons_self _ _)
      · rw [if_neg hdup]
        simp only [if_neg hdup]
        cases ht : ColumnTypeOf column_type with
        | none =>
          constructor
          · intro h; simp at h
          · rintro ⟨h, _, _⟩
            have := h _ (List.mem_cons_self _ _)
            simp [Handled, ht] at this
        | some t =>
          have hlinked : TransformLinked
              { st with
                column_names := st.column_names ++ [column_name]
                table := { st.table with
                  columns := st.table.columns
                    ++ [{ name := some column_name, type := some t }] } } :=
            ⟨by simp [hst.columns],
              List.Nodup.append hst.columns_nodup (List.nodup_singleton _)
                (List.disjoint_singleton.mpr hdup),
              hst.indexes, hst.indexes_nodup⟩
          rw [ih _ hlinked]
          simp only [List.mem_cons, forall_eq_or_imp, Handled, ht, Option.isSome_some,
            true_and, List.append_assoc, List.singleton_append,
            List.filterMap_cons_some (by rfl : ColumnNameOf
              (SQLNode.ColumnDefNode column_name column_type) = some column_name),
            IndexNamesFrom]
    | ColumnIndexNode name key ts ttl =>
      rw [TransformLoop]
      dsimp only
      by_cases hdup : (if name.isEmpty = true then
          GenerateName "INDEX" st.table.indexes.length (time st.table.indexes.length)
          else name) ∈ st.index_names
      · rw [if_pos hdup]
        constructor
        · intro h; simp at h
        · rintro ⟨_, _, h⟩
          exfalso
          rw [IndexNamesFrom] at h
          exact (List.nodup_append.mp h).2.2 hdup (List.mem_cons_self _ _)
      · rw [if_neg hdup]
        simp only [if_neg hdup]
        have hlinked : TransformLinked
            { st with
              index_names := st.index_names ++ [if name.isEmpty = true then
                GenerateName "INDEX" st.table.indexes.length (time st.table.indexes.length)
                else name]
              table := { st.table with
                indexes := st.table.indexes ++ [
                  { name := if name.isEmpty = true then
                      GenerateName "INDEX" st.table.indexes.length
                        (time st.table.indexes.length)
                      else name
                    ttl := if ttl ≠ -1 then [ttl] else []
                    first_keys := key
                    second_key := if ts.isEmpty = true then none else some ts }] } } :=
          ⟨hst.columns, hst.columns_nodup, by simp [hst.indexes],
            List.Nodup.append hst.indexes_nodup (List.nodup_singleton _)
              (List.disjoint_singleton.mpr hdup)⟩
        rw [ih _ hlinked]
        simp only [List.mem_cons, forall_eq_or_imp, Handled, true_and, List.append_assoc,
          List.singleton_append, List.length_append, List.length_singleton,
          List.filterMap_cons_none (by rfl : ColumnNameOf
            (SQLNode.ColumnIndexNode name key ts ttl) = none),
          IndexNamesFrom]
    | Other type_name =>
      rw [TransformLoop]
      constructor
      · intro h; simp at h
      · rintro ⟨h, _, _⟩
        have := h _ (List.mem_cons_self _ _)
        simp [Handled] at this

/-- C30: `TransformTableDef` completes without setting a status exactly on the
lists all of whose nodes are column definitions of a supported type or indexes,
with pairwise distinct column names and pairwise distinct index names (the
name given, or the one generated for an empty name).  If it completes without
setting a status, the columns of the table are the column definitions of the
list in order, each with its name and its type set, with pairwise distinct
names, and the indexes of the table have pairwise distinct names.  After a
list handled without error, a column definition whose name is the name of a
column already there yields `kCreateErrorDuplicationColumnName`, a
column definition with a new name and an unsupported type yields
`kCreateErrorUnSupportColumnType`, and an index whose name (given, or generated
when empty) is the name of an index already there yields
`kCreateErrorDuplicationIndexName`. -/
theorem C30_transform_table_def (time : Nat → Nat) (table_name : String) :
    (∀ l : List SQLNode, (TransformTableDef time table_name l).2 = none
      ↔ (∀ n ∈ l, Handled n = true)
        ∧ (l.filterMap ColumnNameOf).Nodup
        ∧ (IndexNamesFrom time l 0).Nodup)
    ∧ (∀ l : List SQLNode, (TransformTableDef time table_name l).2 = none →
      (TransformTableDef time table_name l).1.columns = l.filterMap ColumnOf
      ∧ (∀ c ∈ (TransformTableDef time table_name l).1.columns,
          c.name.isSome = true ∧ c.type.isSome = true)
      ∧ ((TransformTableDef time table_name l).1.columns.map (fun c => c.name)).Nodup
      ∧ ((TransformTableDef time table_name l).1.indexes.map (fun i => i.name)).Nodup
      ∧ (TransformTableDef time table_name l).1.name = some table_name)
    ∧ (∀ (l rest : List SQLNode) (column_name : String) (column_type : DataType),
        (TransformTableDef time table_name l).2 = none →
        some column_name ∈ (TransformTableDef time table_name l).1.columns.map (fun c => c.name) →
        ((TransformTableDef time table_name
            (l ++ SQLNode.ColumnDefNode column_name column_type :: rest)).2).map (fun s => s.code)
          = some ErrorType.kCreateErrorDuplicationColumnName)
    ∧ (∀ (l rest : List SQLNode) (column_name : String) (column_type : DataType),
        (TransformTableDef time table_name l).2 = none →
        some column_name ∉ (TransformTableDef time table_name l).1.columns.map (fun c => c.name) →
        ColumnTypeOf column_type = none →
        ((TransformTableDef time table_name
            (l ++ SQLNode.ColumnDefNode column_name column_type :: rest)).2).map (fun s => s.code)
          = some ErrorType.kCreateErrorUnSupportColumnType)
    ∧ (∀ (l rest : List SQLNode) (name : String) (key : List String) (ts : String) (ttl : Int),
        (TransformTableDef time table_name l).2 = none →
        (if name.isEmpty then
            GenerateName "INDEX" (TransformTableDef time table_name l).1.indexes.length
              (time (TransformTableDef time table_name l).1.indexes.length)
          else name) ∈ (TransformTableDef time table_name l).1.indexes.map (fun i => i.name) →
        ((TransformTableDef time table_name
            (l ++ SQLNode.ColumnIndexNode name key ts ttl :: rest)).2).map (fun s => s.code)
          = some ErrorType.kCreateErrorDuplicationIndexName) := by
  have hempty : TransformLinked {} := ⟨rfl, List.nodup_nil, rfl, List.nodup_nil⟩
  refine ⟨?_, ?_, ?_, ?_, ?_⟩
  · intro l
    have hiff := TransformLoop_none_iff time l {} hempty
    have hstatus : (TransformTableDef time table_name l).2 = (TransformLoop time l {}).2 := by
      unfold TransformTableDef
      cases hl : TransformLoop time l {} with
      | mk st1 status => cases status <;> rfl
    rw [hstatus, hiff]
    simp only [List.nil_append]
    exact Iff.rfl
  · intro l h
    obtain ⟨st1, hloop, htable⟩ := TransformTableDef_ok time table_name l h
    obtain ⟨hlinked, hcols, _, htypes⟩ := TransformLoop_ok time l {} st1 hempty hloop
    rw [htable]
    dsimp only
    have hcols1 : st1.table.columns = l.filterMap ColumnOf := by
      rw [hcols]; rfl
    refine ⟨hcols1, ?_, ?_, ?_, rfl⟩
    · intro c hc
      rw [hcols1, List.mem_filterMap] at hc
      obtain ⟨n, hn, hnc⟩ := hc
      cases n with
      | ColumnDefNode column_name column_type =>
        simp only [ColumnOf, Option.some.injEq] at hnc
        rw [← hnc]
        exact ⟨rfl, htypes _ hn column_name column_type rfl⟩
      | ColumnIndexNode name key ts ttl => simp [ColumnOf] at hnc
      | Other type_name => simp [ColumnOf] at hnc
    · rw [hlinked.columns]
      exact hlinked.columns_nodup.map (Option.some_injective _)
    · rw [hlinked.indexes]
      exact hlinked.indexes_nodup
  · intro l rest column_name column_type h hmem
    obtain ⟨st1, hloop, htable⟩ := TransformTableDef_ok time table_name l h
    obtain ⟨hlinked, _, _, _⟩ := TransformLoop_ok time l {} st1 hempty hloop
    rw [htable] at hmem
    dsimp only at hmem
    rw [hlinked.columns, List.mem_map] at hmem
    obtain ⟨n, hn, hnn⟩ := hmem
    simp only [Option.some.injEq] at hnn
    subst hnn
    unfold TransformTableDef
    rw [TransformLoop_append time l _ {} st1 hloop, TransformLoop, if_pos hn]
    rfl
  · intro l rest column_name column_type h hnot htype
    obtain ⟨st1, hloop, htable⟩ := TransformTableDef_ok time table_name l h
    obtain ⟨hlinked, _, _, _⟩ := TransformLoop_ok time l {} st1 hempty hloop
    rw [htable] at hnot
    dsimp only at hnot
    rw [hlinked.columns] at hnot
    have hn : column_name ∉ st1.column_names :=
      fun hc => hnot (List.mem_map_of_mem some hc)
    unfold TransformTableDef
    rw [TransformLoop_append time l _ {} st1 hloop, TransformLoop, if_neg hn, htype]
    rfl
  · intro l rest name key ts ttl h hmem
    obtain ⟨st1, hloop, htable⟩ := TransformTableDef_ok time table_name l h
    obtain ⟨hlinked, _, _, _⟩ := TransformLoop_ok time l {} st1 hempty hloop
    rw [htable] at hmem
    dsimp only at hmem
    rw [hlinked.indexes] at hmem
    unfold TransformTableDef
    rw [TransformLoop_append time l _ {} st1 hloop, TransformLoop]
    dsimp only
    rw [if_pos hmem]
    rfl

/-- C30 on two columns and an unnamed index, with `time` giving `7`: the list is
transformed without error into the columns `a` and `b` and the index
`INDEX_0_7`; followed by a second column `a` it yields
`kCreateErrorDuplicationColumnName`, followed by a column `c` of another type
`kCreateErrorUnSupportColumnType`, and followed by an index named `INDEX_0_7`
`kCreateErrorDuplicationIndexName`. -/
theorem C30_transform_table_def_witness :
    (TransformTableDef (fun _ => 7) "t"
        [SQLNode.ColumnDefNode "a" DataType.kTypeInt32,
          SQLNode.ColumnDefNode "b" DataType.kTypeString,
          SQLNode.ColumnIndexNode "" ["a"] "" (-1)]).2 = none
    ∧ (TransformTableDef (fun _ => 7) "t"
        [SQLNode.ColumnDefNode "a" DataType.kTypeInt32,
          SQLNode.ColumnDefNode "b" DataType.kTypeString,
          SQLNode.ColumnIndexNode "" ["a"] "" (-1)]).1
      = ⟨some "t", [⟨some "a", some ColumnType.kInt32⟩, ⟨some "b", some ColumnType.kString⟩],
          [⟨"INDEX_0_7", [], ["a"], none⟩]⟩
    ∧ ((TransformTableDef (fun _ => 7) "t"
        ([SQLNode.ColumnDefNode "a" DataType.kTypeInt32,
          SQLNode.ColumnDefNode "b" DataType.kTypeString,
          SQLNode.ColumnIndexNode "" ["a"] "" (-1)]
          ++ SQLNode.ColumnDefNode "a" DataType.kTypeBool :: [])).2).map (fun s => s.code)
      = some ErrorType.kCreateErrorDuplicationColumnName
    ∧ ((TransformTableDef (fun _ => 7) "t"
        ([SQLNode.ColumnDefNode "a" DataType.kTypeInt32,
          SQLNode.ColumnDefNode "b" DataType.kTypeString,
          SQLNode.ColumnIndexNode "" ["a"] "" (-1)]
          ++ SQLNode.ColumnDefNode "c" (DataType.kTypeOther "date") :: [])).2).map
            (fun s => s.code)
      = some ErrorType.kCreateErrorUnSupportColumnType
    ∧ ((TransformTableDef (fun _ => 7) "t"
        ([SQLNode.ColumnDefNode "a" DataType.kTypeInt32,
          SQLNode.ColumnDefNode "b" DataType.kTypeString,
          SQLNode.ColumnIndexNode "" ["a"] "" (-1)]
          ++ SQLNode.ColumnIndexNode "INDEX_0_7" ["b"] "" (-1) :: [])).2).map (fun s => s.code)
      = some ErrorType.kCreateErrorDuplicationIndexName :=
  have h := C30_transform_table_def (fun _ => 7) "t"
  have hok : (TransformTableDef (fun _ => 7) "t"
      [SQLNode.ColumnDefNode "a" DataType.kTypeInt32,
        SQLNode.ColumnDefNode "b" DataType.kTypeString,
        SQLNode.ColumnIndexNode "" ["a"] "" (-1)]).2 = none :=
    (h.1 _).mpr (by decide)
  ⟨hok, by decide, h.2.2.1 _ [] "a" DataType.kTypeBool hok (by decide),
    h.2.2.2.1 _ [] "c" (DataType.kTypeOther "date") hok (by decide) rfl,
    h.2.2.2.2 _ [] "INDEX_0_7" ["b"] "" (-1) hok (by decide)⟩

end plan

end fesql
